/-
Verification of the slab allocator core (`src/lib.rs`) of mrjbom/slab_allocator.

The development shallowly embeds the allocator: machine addresses are `Nat`
(the target is 64-bit: `size_of::<*const u8>() == 8` is asserted by the
source), slab memory is modelled structurally (the intrusive free-object
list overlaid on a slab's memory is modelled as the list stored in that
slab's `SlabInfoData`), and the caller-supplied `MemoryBackend` is modelled
as the reference implementation its trait documentation prescribes (an
address supply plus a page-address → SlabInfo association table and call
logs).  Panics (`assert!`/`unwrap`) are modelled as explicit error results.
-/
import Mathlib

namespace SlabAlloc

/-- All-ones 64-bit word, the value of `usize::MAX` on the 64-bit target. -/
def usizeMax : Nat := 2 ^ 64 - 1

/-- Source: `fn align_down(addr: usize, align: usize) -> usize { addr & !(align - 1) }`.
The bitwise complement `!x` on `usize` is XOR with `usize::MAX`. -/
def align_down (addr align : Nat) : Nat :=
  addr &&& (usizeMax ^^^ (align - 1))

/-- `!(2^k - 1)` on a 64-bit word is `2^64 - 2^k`. -/
theorem usizeMax_xor_two_pow_sub_one {k : Nat} (hk : k ≤ 64) :
    usizeMax ^^^ (2 ^ k - 1) = 2 ^ 64 - 2 ^ k := by
  have h64 : (2 ^ 64 - 2 ^ k : Nat) = 2 ^ k * (2 ^ (64 - k) - 1) := by
    rw [Nat.mul_sub_one, ← Nat.pow_add, Nat.add_sub_cancel' hk]
  apply Nat.eq_of_testBit_eq
  intro i
  rw [Nat.testBit_xor, usizeMax, h64, Nat.testBit_two_pow_sub_one,
    Nat.testBit_two_pow_sub_one, Nat.testBit_mul_pow_two,
    Nat.testBit_two_pow_sub_one]
  rcases Nat.lt_or_ge i k with h1 | h1
  · have h2 : i < 64 := lt_of_lt_of_le h1 hk
    have h3 : ¬ i ≥ k := by omega
    simp [h1, h2, h3]
  · rcases Nat.lt_or_ge i 64 with h2 | h2
    · have h3 : ¬ i < k := by omega
      have h4 : i - k < 64 - k := by omega
      simp [h1, h2, h3, h4]
    · have h3 : ¬ i < 64 := by omega
      have h4 : ¬ i - k < 64 - k := by omega
      have h5 : ¬ i < k := by omega
      simp [h1, h3, h4, h5]

/-- For a power-of-two alignment and an in-range address, the source's
bitmask computation is exactly "round down to a multiple of the alignment". -/
theorem align_down_two_pow {addr k : Nat} (hk : k ≤ 64) (haddr : addr < 2 ^ 64) :
    align_down addr (2 ^ k) = addr - addr % 2 ^ k := by
  have hdm := Nat.div_add_mod addr (2 ^ k)
  have hsub : addr - addr % 2 ^ k = 2 ^ k * (addr / 2 ^ k) := by omega
  have h64 : (2 ^ 64 - 2 ^ k : Nat) = 2 ^ k * (2 ^ (64 - k) - 1) := by
    rw [Nat.mul_sub_one, ← Nat.pow_add, Nat.add_sub_cancel' hk]
  rw [align_down, usizeMax_xor_two_pow_sub_one hk, hsub, h64]
  apply Nat.eq_of_testBit_eq
  intro i
  rw [Nat.testBit_land, Nat.testBit_mul_pow_two, Nat.testBit_mul_pow_two,
    Nat.testBit_two_pow_sub_one, ← Nat.shiftRight_eq_div_pow,
    Nat.testBit_shiftRight]
  rcases Nat.lt_or_ge i k with h1 | h1
  · have h2 : ¬ i ≥ k := by omega
    simp [h2]
  · have h2 : k + (i - k) = i := by omega
    rw [h2]
    rcases Nat.lt_or_ge i 64 with h3 | h3
    · have h4 : i - k < 64 - k := by omega
      simp [h1, h4, Bool.and_comm]
    · have h4 : ¬ i - k < 64 - k := by omega
      have h5 : addr.testBit i = false := by
        apply Nat.testBit_eq_false_of_lt
        calc addr < 2 ^ 64 := haddr
          _ ≤ 2 ^ i := Nat.pow_le_pow_right (by norm_num) h3
      simp [h4, h5]

/-- Round-down stated through divisibility, the form most proofs use. -/
theorem align_down_eq_of_dvd {addr align : Nat} (hpow : ∃ k, k ≤ 64 ∧ align = 2 ^ k)
    (haddr : addr < 2 ^ 64) (hdvd : align ∣ addr) : align_down addr align = addr := by
  obtain ⟨k, hk, rfl⟩ := hpow
  rw [align_down_two_pow hk haddr, Nat.mod_eq_zero_of_dvd hdvd]
  omega

/-- `align_down (s + x) a = s` when `a ∣ s` and `x < a` (used to recover a
page/slab base from an interior address). -/
theorem align_down_add_lt {s x a : Nat} (hpow : ∃ k, k ≤ 64 ∧ a = 2 ^ k)
    (hin : s + x < 2 ^ 64) (hdvd : a ∣ s) (hx : x < a) :
    align_down (s + x) a = s := by
  obtain ⟨k, hk, rfl⟩ := hpow
  rw [align_down_two_pow hk hin]
  obtain ⟨c, rfl⟩ := hdvd
  rw [Nat.mul_add_mod, Nat.mod_eq_of_lt hx]
  omega

/-! ## Layout constants of the 64-bit target

`FreeObject` is a `LinkedListLink` (two pointers; `Cache::new` asserts
`size_of::<FreeObject>() == size_of::<*const u8>() * 2`).  `SlabInfo` is
`#[repr(C)] { slab_link: LinkedListAtomicLink, data: Mutex<UnsafeCell<SlabInfoData>> }`:
two atomic pointers (16 bytes) plus a spin `Mutex` (lock byte padded to 8
bytes, then four 8-byte words of `SlabInfoData`), 56 bytes in total,
8-byte aligned. -/

/-- `size_of::<FreeObject>()`. -/
def sizeOfFreeObject : Nat := 16

/-- `align_of::<FreeObject>()`. -/
def alignOfFreeObject : Nat := 8

/-- `size_of::<SlabInfo>()`. -/
def sizeOfSlabInfo : Nat := 56

/-- `align_of::<SlabInfo>()`. -/
def alignOfSlabInfo : Nat := 8

/-- Source: `fn calculate_slab_info_addr_in_small_object_cache`:
`align_down((slab_ptr as usize + slab_size) - size_of::<SlabInfo>(), align_of::<SlabInfo>())`. -/
def calculate_slab_info_addr_in_small_object_cache (slab_ptr slab_size : Nat) : Nat :=
  align_down (slab_ptr + slab_size - sizeOfSlabInfo) alignOfSlabInfo

/-- Source enum `ObjectSizeType { Small, Large }`. -/
inductive ObjectSizeType where
  | Small
  | Large
  deriving Repr, DecidableEq

/-- Source struct `CacheStatistics`. -/
structure CacheStatistics where
  free_slabs_number : Nat
  full_slabs_number : Nat
  free_objects_number : Nat
  allocated_objects_number : Nat
  deriving Repr, DecidableEq

/-- Source struct `SlabInfoData`.  The intrusive `LinkedList<FreeObjectAdapter>`
overlaid on the slab's own memory is modelled as the list of free-object
addresses (list head = list front). -/
structure SlabInfoData where
  free_objects_list : List Nat
  cache_ptr : Nat
  free_objects_number : Nat
  slab_ptr : Nat
  deriving Repr, DecidableEq

/-- Source struct `Cache<T, M>`.  The type parameter `T` is represented by
its layout: `object_size = size_of::<T>()` and `object_align = align_of::<T>()`.
The two intrusive `LinkedList<SlabInfoAdapter>`s are lists of `SlabInfo`
addresses (list head = list front).  The memory backend is threaded
separately through the operations. -/
structure Cache where
  object_size : Nat
  object_align : Nat
  slab_size : Nat
  page_size : Nat
  object_size_type : ObjectSizeType
  objects_per_slab : Nat
  free_slabs_list : List Nat
  full_slabs_list : List Nat
  statistics : CacheStatistics
  deriving Repr, DecidableEq

/-! ## Association lists

Raw memory holding the `SlabInfo` records, and the backend's
page-address → `SlabInfo`-address table, are association lists keyed by
address. -/

/-- Key lookup. -/
def alookup {α : Type} : List (Nat × α) → Nat → Option α
  | [], _ => none
  | (k, v) :: rest, q => if q = k then some v else alookup rest q

/-- Write through a key: replace the existing binding or append a new one. -/
def ainsert {α : Type} : List (Nat × α) → Nat → α → List (Nat × α)
  | [], k, v => [(k, v)]
  | (k0, v0) :: rest, k, v =>
    if k = k0 then (k, v) :: rest else (k0, v0) :: ainsert rest k v

/-- Remove a key's binding (no-op when absent). -/
def aerase {α : Type} : List (Nat × α) → Nat → List (Nat × α)
  | [], _ => []
  | (k0, v0) :: rest, k => if k = k0 then rest else (k0, v0) :: aerase rest k

/-- The memory words holding live (and previously live) `SlabInfo` records,
keyed by `SlabInfo` address. -/
abbrev SlabHeap : Type := List (Nat × SlabInfoData)

/-- The caller-supplied `MemoryBackend`, modelled as the reference
implementation prescribed by the trait's documentation (and mirrored by the
repository's `TestMemoryBackend`s): `alloc_slab`/`alloc_slab_info` hand out
addresses from a supply (a zero entry models an allocation failure),
`save`/`get`/`delete_slab_info_addr` maintain a page-address → `SlabInfo`
table ("Hash table good for this"), and every call is logged so that
claims about which backend operations were invoked can be stated. -/
structure MemoryBackend where
  slab_supply : List Nat
  slab_info_supply : List Nat
  alloc_slab_log : List (Nat × Nat × Nat)
  free_slab_log : List (Nat × Nat × Nat)
  alloc_slab_info_log : List Nat
  free_slab_info_log : List Nat
  save_log : List (Nat × Nat)
  delete_log : List Nat
  saved_slab_infos : List (Nat × Nat)
  deriving Repr, DecidableEq

/-- `alloc_slab(slab_size, page_size) -> ptr` (null on exhausted/failing supply). -/
def MemoryBackend.alloc_slab (b : MemoryBackend) (slab_size page_size : Nat) :
    Nat × MemoryBackend :=
  match b.slab_supply with
  | [] => (0, b)
  | a :: rest =>
    if a = 0 then (0, { b with slab_supply := rest })
    else (a, { b with slab_supply := rest,
                      alloc_slab_log := b.alloc_slab_log ++ [(a, slab_size, page_size)] })

/-- `free_slab(ptr, slab_size, page_size)`. -/
def MemoryBackend.free_slab (b : MemoryBackend) (slab_ptr slab_size page_size : Nat) :
    MemoryBackend :=
  { b with free_slab_log := b.free_slab_log ++ [(slab_ptr, slab_size, page_size)] }

/-- `alloc_slab_info() -> ptr` (null on exhausted/failing supply). -/
def MemoryBackend.alloc_slab_info (b : MemoryBackend) : Nat × MemoryBackend :=
  match b.slab_info_supply with
  | [] => (0, b)
  | a :: rest =>
    if a = 0 then (0, { b with slab_info_supply := rest })
    else (a, { b with slab_info_supply := rest,
                      alloc_slab_info_log := b.alloc_slab_info_log ++ [a] })

/-- `free_slab_info(ptr)`. -/
def MemoryBackend.free_slab_info (b : MemoryBackend) (slab_info_ptr : Nat) :
    MemoryBackend :=
  { b with free_slab_info_log := b.free_slab_info_log ++ [slab_info_ptr] }

/-- `save_slab_info_addr(object_page_addr, slab_info_ptr)`. -/
def MemoryBackend.save_slab_info_addr (b : MemoryBackend) (object_page_addr slab_info_ptr : Nat) :
    MemoryBackend :=
  { b with save_log := b.save_log ++ [(object_page_addr, slab_info_ptr)],
           saved_slab_infos := ainsert b.saved_slab_infos object_page_addr slab_info_ptr }

/-- `get_slab_info_addr(object_page_addr) -> slab_info_ptr` (null when no
association was saved). -/
def MemoryBackend.get_slab_info_addr (b : MemoryBackend) (object_page_addr : Nat) : Nat :=
  (alookup b.saved_slab_infos object_page_addr).getD 0

/-- `delete_slab_info_addr(page_addr)`; must tolerate absent keys. -/
def MemoryBackend.delete_slab_info_addr (b : MemoryBackend) (page_addr : Nat) :
    MemoryBackend :=
  { b with delete_log := b.delete_log ++ [page_addr],
           saved_slab_infos := aerase b.saved_slab_infos page_addr }

/-- A backend in its initial state, handed the two address supplies. -/
def MemoryBackend.init (slab_supply slab_info_supply : List Nat) : MemoryBackend :=
  ⟨slab_supply, slab_info_supply, [], [], [], [], [], [], []⟩

/-! ## `Cache::new` -/

/-- Result of `Cache::new`: `Ok(cache)`, `Err(&str)` or a panic of one of the
construction-time `assert!`s. -/
inductive NewResult where
  | ok (c : Cache)
  | err (msg : String)
  | panicked
  deriving Repr, DecidableEq

def NewResult.isOk : NewResult → Bool
  | .ok _ => true
  | _ => false

/-- Source: `Cache::new(slab_size, page_size, object_size_type, memory_backend)`.
The validation checks, their order, and the `objects_per_slab` computation
follow the source (`debug_assert!`s are compiled out of release builds and
are not modelled; the always-true
`assert_eq!(size_of::<FreeObject>(), size_of::<*const u8>() * 2)` holds by
the layout constants). -/
def Cache.new (slab_size page_size : Nat) (object_size_type : ObjectSizeType)
    (object_size object_align : Nat) : NewResult :=
  if object_size < sizeOfFreeObject then
    .err ("Object size smaller than 8/16 (two pointers)")
  else if object_size_type = .Small ∧ slab_size < sizeOfSlabInfo + object_size then
    .err ("Slab size is too small")
  else if slab_size % page_size ≠ 0 then
    .err ("slab_size is not exactly within the page boundaries. Slab must consist of pages.")
  else if page_size % object_align ≠ 0 then
    .err ("Type can't be aligned")
  else
    let finish : Nat → NewResult := fun objects_per_slab =>
      if objects_per_slab = 0 then
        .err ("No memory for any object, slab size too small")
      else
        .ok { object_size := object_size
              object_align := object_align
              slab_size := slab_size
              page_size := page_size
              object_size_type := object_size_type
              objects_per_slab := objects_per_slab
              free_slabs_list := []
              full_slabs_list := []
              statistics := ⟨0, 0, 0, 0⟩ }
    match object_size_type with
    | .Small =>
      let fake_slab_info_addr := calculate_slab_info_addr_in_small_object_cache 0 slab_size
      if fake_slab_info_addr ≤ 0 then .panicked
      else if ¬ (fake_slab_info_addr ≤ slab_size - sizeOfSlabInfo) then .panicked
      else finish (fake_slab_info_addr / object_size)
    | .Large => finish (slab_size / object_size)

/-! ## `Cache::alloc` -/

/-- `LinkedList::pop_back`. -/
def popBack (l : List Nat) : Option (Nat × List Nat) :=
  match l.reverse with
  | [] => none
  | x :: rest => some (x, rest.reverse)

/-- One iteration of the free-object threading loop in `alloc`: the
`assert_eq!(free_object_addr % align_of::<FreeObject>(), 0)` check followed
by `push_back` onto the front slab's free-object list. -/
def pushFreeObject (h : SlabHeap) (sia addr : Nat) : Option SlabHeap :=
  if addr % alignOfFreeObject ≠ 0 then none
  else
    match alookup h sia with
    | none => none
    | some d =>
      some (ainsert h sia { d with free_objects_list := d.free_objects_list ++ [addr] })

/-- The `for free_object_index in 0..objects_per_slab` threading loop. -/
def fillFreeObjects (h : SlabHeap) (sia slab_ptr object_size count : Nat) :
    Option SlabHeap :=
  (List.range count).foldlM
    (fun hh i => pushFreeObject hh sia (slab_ptr + i * object_size)) h

/-- Outcome of the slab-acquisition prologue of `alloc` (lines 112-199):
return null to the caller, panic, or proceed to object extraction. -/
inductive SlabAcquire where
  | retNull (b : MemoryBackend)
  | panicked
  | ready (c : Cache) (h : SlabHeap) (b : MemoryBackend)
  deriving Repr

/-- Initialization of a fresh slab once its `SlabInfo` address is known:
the trailing `assert!`s on `slab_info_ptr`, the `SlabInfo` write, the
`push_back` onto the free-slabs list, the statistics bump and the
free-object threading loop. -/
def finishNewSlab (c : Cache) (self_addr : Nat) (h : SlabHeap) (b : MemoryBackend)
    (slab_ptr sia : Nat) : SlabAcquire :=
  if sia = 0 then .panicked
  else if sia % alignOfSlabInfo ≠ 0 then .panicked
  else
    let d : SlabInfoData :=
      { free_objects_list := []
        cache_ptr := self_addr
        free_objects_number := c.objects_per_slab
        slab_ptr := slab_ptr }
    let h1 := ainsert h sia d
    let c1 :=
      { c with free_slabs_list := c.free_slabs_list ++ [sia]
               statistics :=
                 { c.statistics with
                   free_slabs_number := c.statistics.free_slabs_number + 1
                   free_objects_number :=
                     c.statistics.free_objects_number + c.objects_per_slab } }
    match fillFreeObjects h1 sia slab_ptr c.object_size c.objects_per_slab with
    | none => .panicked
    | some h2 => .ready c1 h2 b

/-- The slab-acquisition prologue of `alloc`: when the free-slabs list is
empty, request a slab from the backend, then compute (Small) or allocate
(Large) the `SlabInfo`; on `alloc_slab_info` failure free the just-acquired
slab and return null (rollback). -/
def Cache.acquire_slab (c : Cache) (self_addr : Nat) (h : SlabHeap)
    (b : MemoryBackend) : SlabAcquire :=
  if c.free_slabs_list.isEmpty then
    let r := MemoryBackend.alloc_slab b c.slab_size c.page_size
    let slab_ptr := r.1
    let b1 := r.2
    if slab_ptr = 0 then .retNull b1
    else
      match c.object_size_type with
      | .Small =>
        let sia := calculate_slab_info_addr_in_small_object_cache slab_ptr c.slab_size
        if ¬ (sia > slab_ptr) then .panicked
        else if ¬ (sia ≤ slab_ptr + c.slab_size - sizeOfSlabInfo) then .panicked
        else finishNewSlab c self_addr h b1 slab_ptr sia
      | .Large =>
        let r2 := MemoryBackend.alloc_slab_info b1
        let sia := r2.1
        let b2 := r2.2
        if sia = 0 then
          .retNull (MemoryBackend.free_slab b2 slab_ptr c.slab_size c.page_size)
        else if sia % alignOfSlabInfo ≠ 0 then .panicked
        else finishNewSlab c self_addr h b2 slab_ptr sia
  else .ready c h b

/-- Result of `alloc`: the returned pointer (0 models the null return) with
the updated state, or a panic (`assert!`/`unwrap` failure). -/
inductive AllocResult where
  | ok (ptr : Nat) (c : Cache) (h : SlabHeap) (b : MemoryBackend)
  | panicked
  deriving Repr

/-- Source: `Cache::alloc`.  `self_addr` is the address the `Cache` value
lives at (`self as *mut Self`), recorded in each new slab's `cache_ptr`. -/
def Cache.alloc (c : Cache) (self_addr : Nat) (h : SlabHeap) (b : MemoryBackend) :
    AllocResult :=
  match Cache.acquire_slab c self_addr h b with
  | .retNull b1 => .ok 0 c h b1
  | .panicked => .panicked
  | .ready c1 h1 b1 =>
    match c1.free_slabs_list.head? with
    | none => .panicked
    | some sia =>
      match alookup h1 sia with
      | none => .panicked
      | some d =>
        match popBack d.free_objects_list with
        | none => .panicked
        | some (obj, rest) =>
          let d1 := { d with free_objects_list := rest
                             free_objects_number := d.free_objects_number - 1 }
          let h2 := ainsert h1 sia d1
          let c2 :=
            { c1 with statistics :=
                { c1.statistics with
                  free_objects_number := c1.statistics.free_objects_number - 1 } }
          let b2 :=
            if ¬ (c2.object_size_type = .Small ∧ c2.slab_size = c2.page_size) then
              let free_object_page_addr := align_down obj c2.page_size
              let dont_save : Bool :=
                if c2.objects_per_slab ≥ 2 then
                  decide (c2.slab_size = c2.page_size ∧
                    d1.free_objects_number ≤ c2.objects_per_slab - 2)
                else false
              if ¬ dont_save then
                MemoryBackend.save_slab_info_addr b1 free_object_page_addr sia
              else b1
            else b1
          if d1.free_objects_list.isEmpty then
            match c2.free_slabs_list with
            | [] => .panicked
            | front :: restSlabs =>
              let c3 :=
                { c2 with
                  free_slabs_list := restSlabs
                  full_slabs_list := c2.full_slabs_list ++ [front]
                  statistics :=
                    { c2.statistics with
                      free_slabs_number := c2.statistics.free_slabs_number - 1
                      full_slabs_number := c2.statistics.full_slabs_number + 1
                      allocated_objects_number :=
                        c2.statistics.allocated_objects_number + 1 } }
              .ok obj c3 h2 b2
          else
            .ok obj
              { c2 with statistics :=
                  { c2.statistics with
                    allocated_objects_number :=
                      c2.statistics.allocated_objects_number + 1 } }
              h2 b2

/-! ## `Cache::free` -/

/-- The distinct `assert!`/`unwrap` failures `free` can abort with. -/
inductive FreePanic where
  | nullPtr
  | misalignedPtr
  | slabAddrZero
  | slabInfoAddrZero
  | slabInfoMisaligned
  | savedLookupFailed
  | slabPtrZero
  | heapMiss
  | wrongCache
  | doubleFree
  | notInFullList
  | notInFreeList
  deriving Repr, DecidableEq

/-- Result of `free`: the updated state, or a fatal assertion. -/
inductive FreeResult where
  | ok (c : Cache) (h : SlabHeap) (b : MemoryBackend)
  | panicked (reason : FreePanic)
  deriving Repr

/-- The slab-location step of `free` (lines 259-284): for Small caches with
`slab_size == page_size` both addresses are computed arithmetically;
otherwise the backend's saved page → `SlabInfo` association is queried and
the slab base is read out of the `SlabInfo`.  Reading through a pointer
that was never written (`heapMiss`) is undefined behaviour in the source
and modelled as a stuck result. -/
def Cache.locate_slab (c : Cache) (h : SlabHeap) (b : MemoryBackend)
    (object_ptr : Nat) : Except FreePanic (Nat × Nat) :=
  if c.object_size_type = .Small ∧ c.slab_size = c.page_size then
    let slab_addr := align_down object_ptr c.page_size
    let slab_info_addr :=
      calculate_slab_info_addr_in_small_object_cache slab_addr c.slab_size
    if slab_addr = 0 then .error .slabAddrZero
    else if slab_info_addr = 0 then .error .slabInfoAddrZero
    else if slab_info_addr % alignOfSlabInfo ≠ 0 then .error .slabInfoMisaligned
    else .ok (slab_addr, slab_info_addr)
  else
    let object_page_addr := align_down object_ptr c.page_size
    let sia := MemoryBackend.get_slab_info_addr b object_page_addr
    if sia = 0 then .error .savedLookupFailed
    else if sia % alignOfSlabInfo ≠ 0 then .error .slabInfoMisaligned
    else
      match alookup h sia with
      | none => .error .heapMiss
      | some d =>
        if d.slab_ptr = 0 then .error .slabPtrZero
        else .ok (d.slab_ptr, sia)

/-- The `delete_slab_info_addr` loop of slab reclamation:
`for i in 0..(slab_size / page_size)`. -/
def deleteSlabPages (b : MemoryBackend) (slab_addr page_size count : Nat) :
    MemoryBackend :=
  (List.range count).foldl
    (fun bb i => MemoryBackend.delete_slab_info_addr bb (slab_addr + i * page_size)) b

/-- Source: `Cache::free(object_ptr)`.  `self_addr` is the address the
`Cache` value lives at, compared against the slab's `cache_ptr`. -/
def Cache.free (c : Cache) (self_addr : Nat) (h : SlabHeap) (b : MemoryBackend)
    (object_ptr : Nat) : FreeResult :=
  if object_ptr = 0 then .panicked .nullPtr
  else if object_ptr % c.object_align ≠ 0 then .panicked .misalignedPtr
  else
    match Cache.locate_slab c h b object_ptr with
    | .error r => .panicked r
    | .ok (slab_addr, sia) =>
      match alookup h sia with
      | none => .panicked .heapMiss
      | some d =>
        if d.cache_ptr ≠ self_addr then .panicked .wrongCache
        else if d.free_objects_number = c.objects_per_slab then .panicked .doubleFree
        else
          let d1 := { d with
                      free_objects_list := d.free_objects_list ++ [object_ptr]
                      free_objects_number := d.free_objects_number + 1 }
          let h1 := ainsert h sia d1
          let c1 :=
            { c with statistics :=
                { c.statistics with
                  free_objects_number := c.statistics.free_objects_number + 1
                  allocated_objects_number :=
                    c.statistics.allocated_objects_number - 1 } }
          let fullMove : Option Cache :=
            if d1.free_objects_number = 1 then
              if sia ∈ c1.full_slabs_list then
                some { c1 with
                       full_slabs_list := c1.full_slabs_list.erase sia
                       free_slabs_list := sia :: c1.free_slabs_list
                       statistics :=
                         { c1.statistics with
                           full_slabs_number := c1.statistics.full_slabs_number - 1
                           free_slabs_number := c1.statistics.free_slabs_number + 1 } }
              else none
            else some c1
          match fullMove with
          | none => .panicked .notInFullList
          | some c2 =>
            if d1.free_objects_number = c.objects_per_slab then
              if sia ∈ c2.free_slabs_list then
                let c3 :=
                  { c2 with
                    free_slabs_list := c2.free_slabs_list.erase sia
                    statistics :=
                      { c2.statistics with
                        free_slabs_number := c2.statistics.free_slabs_number - 1
                        free_objects_number :=
                          c2.statistics.free_objects_number - c.objects_per_slab } }
                let b1 := MemoryBackend.free_slab b slab_addr c.slab_size c.page_size
                let b2 :=
                  if ¬ (c.object_size_type = .Small ∧ c.slab_size = c.page_size) then
                    let b' :=
                      if c.object_size_type = .Large then
                        MemoryBackend.free_slab_info b1 sia
                      else b1
                    deleteSlabPages b' slab_addr c.page_size
                      (c.slab_size / c.page_size)
                  else b1
                .ok c3 h1 b2
              else .panicked .notInFreeList
            else .ok c2 h1 b

/-! ## Iterated operations -/

/-- `N` consecutive `alloc` calls, all required to succeed with a non-null
pointer; returns the pointers in allocation order. -/
def allocN (c : Cache) (self_addr : Nat) (h : SlabHeap) (b : MemoryBackend) :
    Nat → Option (List Nat × Cache × SlabHeap × MemoryBackend)
  | 0 => some ([], c, h, b)
  | n + 1 =>
    match Cache.alloc c self_addr h b with
    | .panicked => none
    | .ok ptr c1 h1 b1 =>
      if ptr = 0 then none
      else
        match allocN c1 self_addr h1 b1 n with
        | none => none
        | some (ptrs, c2, h2, b2) => some (ptr :: ptrs, c2, h2, b2)

/-- Consecutive `free` calls on a list of pointers, all required to succeed. -/
def freeAll (self_addr : Nat) :
    List Nat → Cache → SlabHeap → MemoryBackend →
    Option (Cache × SlabHeap × MemoryBackend)
  | [], c, h, b => some (c, h, b)
  | p :: rest, c, h, b =>
    match Cache.free c self_addr h b p with
    | .panicked _ => none
    | .ok c1 h1 b1 => freeAll self_addr rest c1 h1 b1

/-! ## Association-list lemmas -/

theorem alookup_ainsert_self {α : Type} (l : List (Nat × α)) (k : Nat) (v : α) :
    alookup (ainsert l k v) k = some v := by
  induction l with
  | nil => simp [ainsert, alookup]
  | cons hd tl ih =>
    obtain ⟨k0, v0⟩ := hd
    by_cases hk : k = k0
    · simp [ainsert, alookup, hk]
    · simp [ainsert, alookup, hk, ih]

theorem alookup_ainsert_ne {α : Type} (l : List (Nat × α)) {q k : Nat} (v : α)
    (hne : q ≠ k) : alookup (ainsert l k v) q = alookup l q := by
  induction l with
  | nil => simp [ainsert, alookup, hne]
  | cons hd tl ih =>
    obtain ⟨k0, v0⟩ := hd
    by_cases hk : k = k0
    · subst hk
      simp [ainsert, alookup, hne]
    · by_cases hq : q = k0
      · simp [ainsert, alookup, hk, hq]
      · simp [ainsert, alookup, hk, hq, ih]

theorem alookup_aerase_ne {α : Type} (l : List (Nat × α)) {q k : Nat}
    (hne : q ≠ k) : alookup (aerase l k) q = alookup l q := by
  induction l with
  | nil => simp [aerase]
  | cons hd tl ih =>
    obtain ⟨k0, v0⟩ := hd
    by_cases hk : k = k0
    · subst hk
      simp [aerase, alookup, hne]
    · by_cases hq : q = k0
      · simp [aerase, alookup, hk, hq]
      · simp [aerase, alookup, hk, hq, ih]

/-! ## `popBack` lemmas -/

theorem popBack_nil : popBack [] = none := rfl

theorem popBack_append (xs : List Nat) (x : Nat) :
    popBack (xs ++ [x]) = some (x, xs) := by
  simp [popBack]

theorem popBack_eq_some {l : List Nat} {x : Nat} {rest : List Nat}
    (h : popBack l = some (x, rest)) : l = rest ++ [x] := by
  unfold popBack at h
  rcases hrev : l.reverse with _ | ⟨y, ys⟩
  · rw [hrev] at h
    simp at h
  · rw [hrev] at h
    simp at h
    obtain ⟨rfl, rfl⟩ := h
    have : l = (y :: ys).reverse := by
      rw [← hrev, List.reverse_reverse]
    rw [this]
    simp

theorem popBack_of_ne_nil {l : List Nat} (h : l ≠ []) :
    ∃ x rest, popBack l = some (x, rest) ∧ l = rest ++ [x] := by
  rcases hrev : l.reverse with _ | ⟨y, ys⟩
  · exact absurd (by simpa using congrArg List.reverse hrev) h
  · refine ⟨y, ys.reverse, ?_, ?_⟩
    · simp [popBack, hrev]
    · have : l = (y :: ys).reverse := by
        rw [← hrev, List.reverse_reverse]
      rw [this]
      simp

/-! ## `deleteSlabPages` lemmas -/

theorem delete_slab_info_addr_fields (b : MemoryBackend) (q : Nat) :
    (b.delete_slab_info_addr q).slab_supply = b.slab_supply ∧
    (b.delete_slab_info_addr q).slab_info_supply = b.slab_info_supply ∧
    (b.delete_slab_info_addr q).alloc_slab_log = b.alloc_slab_log ∧
    (b.delete_slab_info_addr q).free_slab_log = b.free_slab_log ∧
    (b.delete_slab_info_addr q).alloc_slab_info_log = b.alloc_slab_info_log ∧
    (b.delete_slab_info_addr q).free_slab_info_log = b.free_slab_info_log ∧
    (b.delete_slab_info_addr q).save_log = b.save_log := by
  simp [MemoryBackend.delete_slab_info_addr]

theorem deleteSlabPages_fields (b : MemoryBackend) (sa ps count : Nat) :
    (deleteSlabPages b sa ps count).slab_supply = b.slab_supply ∧
    (deleteSlabPages b sa ps count).slab_info_supply = b.slab_info_supply ∧
    (deleteSlabPages b sa ps count).alloc_slab_log = b.alloc_slab_log ∧
    (deleteSlabPages b sa ps count).free_slab_log = b.free_slab_log ∧
    (deleteSlabPages b sa ps count).alloc_slab_info_log = b.alloc_slab_info_log ∧
    (deleteSlabPages b sa ps count).free_slab_info_log = b.free_slab_info_log ∧
    (deleteSlabPages b sa ps count).save_log = b.save_log ∧
    (deleteSlabPages b sa ps count).delete_log =
      b.delete_log ++ (List.range count).map (fun i => sa + i * ps) := by
  induction count generalizing b with
  | zero => simp [deleteSlabPages]
  | succ m ih =>
    have hstep : deleteSlabPages b sa ps (m + 1) =
        MemoryBackend.delete_slab_info_addr (deleteSlabPages b sa ps m) (sa + m * ps) := by
      simp [deleteSlabPages, List.range_succ]
    rw [hstep]
    obtain ⟨h1, h2, h3, h4, h5, h6, h7, h8⟩ := ih b
    simp [MemoryBackend.delete_slab_info_addr, h1, h2, h3, h4, h5, h6, h7, h8,
      List.range_succ]

theorem deleteSlabPages_saved_lookup (b : MemoryBackend) (sa ps count : Nat)
    {q : Nat} (hq : ∀ i < count, q ≠ sa + i * ps) :
    alookup (deleteSlabPages b sa ps count).saved_slab_infos q =
      alookup b.saved_slab_infos q := by
  induction count generalizing b with
  | zero => simp [deleteSlabPages]
  | succ m ih =>
    have hstep : deleteSlabPages b sa ps (m + 1) =
        MemoryBackend.delete_slab_info_addr (deleteSlabPages b sa ps m) (sa + m * ps) := by
      simp [deleteSlabPages, List.range_succ]
    rw [hstep, MemoryBackend.delete_slab_info_addr]
    have hqm : q ≠ sa + m * ps := hq m (Nat.lt_succ_self m)
    have := alookup_aerase_ne (deleteSlabPages b sa ps m).saved_slab_infos hqm
    rw [this]
    exact ih b (fun i hi => hq i (Nat.lt_succ_of_lt hi))

/-! ## `fillFreeObjects` characterization -/

theorem fillFreeObjects_succ (h : SlabHeap) (sia s os m : Nat) :
    fillFreeObjects h sia s os (m + 1) =
      (fillFreeObjects h sia s os m).bind
        (fun hh => pushFreeObject hh sia (s + m * os)) := by
  simp [fillFreeObjects, List.range_succ]

theorem ainsert_ainsert {α : Type} (l : List (Nat × α)) (k : Nat) (v w : α) :
    ainsert (ainsert l k v) k w = ainsert l k w := by
  induction l with
  | nil => simp [ainsert]
  | cons hd tl ih =>
    obtain ⟨k0, v0⟩ := hd
    by_cases hk : k = k0
    · simp [ainsert, hk]
    · simp [ainsert, hk, ih]

theorem ainsert_of_alookup {α : Type} {l : List (Nat × α)} {k : Nat} {v : α}
    (h : alookup l k = some v) : ainsert l k v = l := by
  induction l with
  | nil => simp [alookup] at h
  | cons hd tl ih =>
    obtain ⟨k0, v0⟩ := hd
    by_cases hk : k = k0
    · subst hk
      simp [alookup] at h
      simp [ainsert, h]
    · simp [alookup, hk] at h
      simp [ainsert, hk, ih h]

theorem fillFreeObjects_spec (h : SlabHeap) (sia s os count : Nat) (d : SlabInfoData)
    (hd : alookup h sia = some d)
    (halign : ∀ i < count, (s + i * os) % alignOfFreeObject = 0) :
    fillFreeObjects h sia s os count =
      some (ainsert h sia
        { d with free_objects_list :=
            d.free_objects_list ++ (List.range count).map (fun i => s + i * os) }) := by
  induction count with
  | zero =>
    simp [fillFreeObjects]
    exact (ainsert_of_alookup hd).symm
  | succ m ih =>
    rw [fillFreeObjects_succ,
      ih (fun i hi => halign i (Nat.lt_succ_of_lt hi))]
    have hm : (s + m * os) % alignOfFreeObject = 0 := halign m (Nat.lt_succ_self m)
    simp [pushFreeObject, hm, alookup_ainsert_self, ainsert_ainsert, List.range_succ]

/-! ## `align_down` convenience lemmas -/

theorem align_down_le (addr align : Nat) : align_down addr align ≤ addr :=
  Nat.and_le_left

theorem align_down_eight {x : Nat} (hx : x < 2 ^ 64) :
    align_down x 8 = x - x % 8 := by
  have h := @align_down_two_pow x 3 (by norm_num) hx
  norm_num at h
  exact h

/-! ## `Cache::new` characterization -/

theorem Cache.new_ok {ss ps : Nat} {ost : ObjectSizeType} {os oa : Nat} {c : Cache}
    (h : Cache.new ss ps ost os oa = .ok c) :
    sizeOfFreeObject ≤ os ∧
    (ost = .Small → sizeOfSlabInfo + os ≤ ss) ∧
    ss % ps = 0 ∧ ps % oa = 0 ∧
    c.object_size = os ∧ c.object_align = oa ∧ c.slab_size = ss ∧
    c.page_size = ps ∧ c.object_size_type = ost ∧
    (ost = .Small →
      c.objects_per_slab = calculate_slab_info_addr_in_small_object_cache 0 ss / os) ∧
    (ost = .Large → c.objects_per_slab = ss / os) ∧
    c.objects_per_slab ≠ 0 ∧
    c.free_slabs_list = [] ∧ c.full_slabs_list = [] ∧
    c.statistics = ⟨0, 0, 0, 0⟩ := by
  cases ost with
  | Small =>
    simp only [Cache.new] at h
    split_ifs at h with h1 h2 h3 h4 h5 h6 h7 <;>
      first
        | exact NewResult.noConfusion h
        | skip
    simp only [NewResult.ok.injEq] at h
    subst h
    have h2' : sizeOfSlabInfo + os ≤ ss := by
      rcases Nat.lt_or_ge ss (sizeOfSlabInfo + os) with hlt | hge
      · exact absurd ⟨trivial, hlt⟩ h2
      · exact hge
    exact ⟨by omega, fun _ => h2', by omega, by omega, rfl, rfl, rfl, rfl, rfl,
      fun _ => rfl, fun hL => ObjectSizeType.noConfusion hL, h7, rfl, rfl, rfl⟩
  | Large =>
    simp only [Cache.new] at h
    split_ifs at h with h1 h2 h3 h4 h5 <;>
      first
        | exact NewResult.noConfusion h
        | skip
    simp only [NewResult.ok.injEq] at h
    subst h
    exact ⟨by omega, fun hS => ObjectSizeType.noConfusion hS, by omega, by omega,
      rfl, rfl, rfl, rfl, rfl, fun hS => ObjectSizeType.noConfusion hS,
      fun _ => rfl, h5, rfl, rfl, rfl⟩

/-! ## Claim C2: capacity math -/

/-- C2: for every configuration accepted by `Cache::new`,
`objects_per_slab * object_size ≤ slab_size`; for Large,
`objects_per_slab = slab_size / object_size`; for Small, `objects_per_slab`
is the maximum count fitting below the alignment-rounded-down tail position
of the embedded `SlabInfo`; and concretely Small 4096/4096 with 1024-byte
objects gives 3 while Large 4096/4096 with 56-byte objects gives 73. -/
theorem C2_capacity_math :
    (∀ ss ps ost os oa c, Cache.new ss ps ost os oa = .ok c →
      c.objects_per_slab * os ≤ ss ∧
      (ost = .Large → c.objects_per_slab = ss / os) ∧
      (ost = .Small →
        c.objects_per_slab * os ≤ calculate_slab_info_addr_in_small_object_cache 0 ss ∧
        ∀ k, k * os ≤ calculate_slab_info_addr_in_small_object_cache 0 ss →
          k ≤ c.objects_per_slab)) ∧
    (∃ c, Cache.new 4096 4096 .Small 1024 8 = .ok c ∧ c.objects_per_slab = 3) ∧
    (∃ c, Cache.new 4096 4096 .Large 56 8 = .ok c ∧ c.objects_per_slab = 73) := by
  refine ⟨?_, ?_, ?_⟩
  · intro ss ps ost os oa c h
    obtain ⟨hos, hsmall, _, _, _, _, _, _, _, hSn, hLn, _, _, _, _⟩ := Cache.new_ok h
    have hos0 : 0 < os := by
      have := sizeOfFreeObject
      simp [sizeOfFreeObject] at hos
      omega
    cases ost with
    | Large =>
      have hn := hLn rfl
      refine ⟨?_, fun _ => hn, fun hS => ObjectSizeType.noConfusion hS⟩
      rw [hn]
      exact Nat.div_mul_le_self ss os
    | Small =>
      have hn := hSn rfl
      have htail : calculate_slab_info_addr_in_small_object_cache 0 ss ≤ ss := by
        calc calculate_slab_info_addr_in_small_object_cache 0 ss
            ≤ 0 + ss - sizeOfSlabInfo := align_down_le _ _
          _ ≤ ss := by omega
      refine ⟨?_, fun hL => ObjectSizeType.noConfusion hL, fun _ => ⟨?_, ?_⟩⟩
      · rw [hn]
        exact le_trans (Nat.div_mul_le_self _ os) htail
      · rw [hn]
        exact Nat.div_mul_le_self _ os
      · intro k hk
        rw [hn]
        exact (Nat.le_div_iff_mul_le hos0).mpr hk
  · exact ⟨_, rfl, by decide⟩
  · exact ⟨_, rfl, by decide⟩

theorem C2_capacity_math_witness :
    ∃ c, Cache.new 4096 4096 .Small 1024 8 = .ok c ∧
      c.objects_per_slab * 1024 ≤ 4096 := by
  obtain ⟨c, hc, _⟩ := C2_capacity_math.2.1
  exact ⟨c, hc, (C2_capacity_math.1 4096 4096 .Small 1024 8 c hc).1⟩

/-! ## Claim C5: no power-of-two validation -/

/-- The property the spec claims `Cache::new` validates on `slab_size`. -/
def isPowerOfTwo (n : Nat) : Prop := ∃ k, n = 2 ^ k

theorem twelve288_not_pow2 : ¬ isPowerOfTwo 12288 := by
  rintro ⟨k, hk⟩
  have hk14 : k < 14 := by
    by_contra hge
    push_neg at hge
    have : (2 : Nat) ^ 14 ≤ 2 ^ k := Nat.pow_le_pow_right (by norm_num) hge
    omega
  interval_cases k <;> omega

/-- C5 counterexample: `slab_size = 12288 = 3 * 4096` is not a power of two,
all other parameters are valid, yet `Cache::new` constructs a `Cache`
(the source performs no power-of-two check). -/
theorem C5_counterexample :
    ¬ isPowerOfTwo 12288 ∧
      (Cache.new 12288 4096 .Small 1024 8).isOk = true := by
  exact ⟨twelve288_not_pow2, by decide⟩

/-- C5 amended: `Cache::new` performs no power-of-two validation of
`slab_size`: every `slab_size` (in `usize` range) that passes the checks the
source does perform — object size at least two pointers, Small slabs big
enough for `SlabInfo` plus one object with room for at least one object
below the `SlabInfo` tail, `slab_size` a multiple of `page_size`, and
`page_size` a multiple of the object alignment — is accepted, even when it
is not a power of two. -/
theorem C5_no_power_of_two_check (ss ps os oa : Nat)
    (hnp2 : ¬ isPowerOfTwo ss) (hss : ss < 2 ^ 64)
    (hos : 16 ≤ os) (hsmall : 56 + os ≤ ss)
    (hdvd : ss % ps = 0) (hal : ps % oa = 0)
    (hcap : os ≤ calculate_slab_info_addr_in_small_object_cache 0 ss) :
    (Cache.new ss ps .Small os oa).isOk = true := by
  have hfia : calculate_slab_info_addr_in_small_object_cache 0 ss ≤ 0 + ss - sizeOfSlabInfo :=
    align_down_le _ _
  have hpos : ¬ calculate_slab_info_addr_in_small_object_cache 0 ss ≤ 0 := by omega
  have hopps : calculate_slab_info_addr_in_small_object_cache 0 ss / os ≠ 0 := by
    have := Nat.div_pos hcap (by omega)
    omega
  simp only [Cache.new, sizeOfFreeObject, sizeOfSlabInfo] at hpos hfia ⊢
  rw [if_neg (by omega), if_neg (by simp; omega : ¬ (True ∧ ss < 56 + os)),
    if_neg (by omega : ¬ ss % ps ≠ 0), if_neg (by omega : ¬ ps % oa ≠ 0)]
  simp only [if_neg hpos, if_neg (by omega : ¬ ¬ calculate_slab_info_addr_in_small_object_cache 0 ss ≤ ss - 56)]
  rw [if_neg hopps]
  rfl

theorem C5_no_power_of_two_check_witness :
    (Cache.new 12288 4096 .Small 1024 8).isOk = true :=
  C5_no_power_of_two_check 12288 4096 1024 8 twelve288_not_pow2
    (by norm_num) (by norm_num) (by norm_num) (by norm_num) (by norm_num)
    (by decide)

/-! ## Claim C3: Large-type `SlabInfo` allocation failure rollback -/

/-- C3: for a Large cache with an empty free-slab list, when the backend's
`alloc_slab` succeeds (head of the slab supply, non-null) but
`alloc_slab_info` returns null (head of the info supply is the null
sentinel), `alloc` calls the backend's `free_slab` exactly once with the
just-acquired slab pointer and the original `slab_size`/`page_size`, returns
null, and leaves the `Cache`'s lists, statistics and the heap exactly as
they were. -/
theorem C3_slab_info_failure_rollback (c : Cache) (self : Nat) (h : SlabHeap)
    (b : MemoryBackend) (p : Nat) (stail itail : List Nat)
    (hL : c.object_size_type = .Large)
    (hempty : c.free_slabs_list = [])
    (hsupply : b.slab_supply = p :: stail) (hp : p ≠ 0)
    (hinfo : b.slab_info_supply = 0 :: itail) :
    Cache.alloc c self h b =
      .ok 0 c h
        { b with slab_supply := stail
                 slab_info_supply := itail
                 alloc_slab_log := b.alloc_slab_log ++ [(p, c.slab_size, c.page_size)]
                 free_slab_log := b.free_slab_log ++ [(p, c.slab_size, c.page_size)] } := by
  rw [Cache.alloc, Cache.acquire_slab, if_pos (by simp [hempty]),
    MemoryBackend.alloc_slab, hsupply]
  simp only [if_neg hp, hL]
  rw [MemoryBackend.alloc_slab_info]
  simp only [hinfo]
  simp [MemoryBackend.free_slab]

theorem C3_slab_info_failure_rollback_witness :
    Cache.alloc ⟨56, 8, 4096, 4096, .Large, 73, [], [], ⟨0, 0, 0, 0⟩⟩ 999 []
        (MemoryBackend.init [4096] [0]) =
      .ok 0 ⟨56, 8, 4096, 4096, .Large, 73, [], [], ⟨0, 0, 0, 0⟩⟩ []
        ⟨[], [], [(4096, 4096, 4096)], [(4096, 4096, 4096)], [], [], [], [], []⟩ :=
  C3_slab_info_failure_rollback _ 999 [] _ 4096 [] [] rfl rfl rfl
    (by decide) rfl

/-! ## Claim C7: `free` validation assertions -/

/-- C7: once `free` has located the `SlabInfo`, (a) a cache back-pointer
mismatch aborts with the cross-cache assertion, (b) a free-object count
already equal to `objects_per_slab` aborts with the double-free assertion —
in both cases the returned state is the panic itself, with no mutated list
or statistic — and (c) for a pointer that is owned by this cache and
currently allocated (back-pointer equal to this cache, free count strictly
below `objects_per_slab`), neither assertion can fire. -/
theorem C7_free_validation :
    (∀ c self h b p sa sia d,
      p ≠ 0 → p % c.object_align = 0 →
      Cache.locate_slab c h b p = .ok (sa, sia) →
      alookup h sia = some d →
      d.cache_ptr ≠ self →
      Cache.free c self h b p = .panicked .wrongCache) ∧
    (∀ c self h b p sa sia d,
      p ≠ 0 → p % c.object_align = 0 →
      Cache.locate_slab c h b p = .ok (sa, sia) →
      alookup h sia = some d →
      d.cache_ptr = self →
      d.free_objects_number = c.objects_per_slab →
      Cache.free c self h b p = .panicked .doubleFree) ∧
    (∀ c self h b p sa sia d,
      p ≠ 0 → p % c.object_align = 0 →
      Cache.locate_slab c h b p = .ok (sa, sia) →
      alookup h sia = some d →
      d.cache_ptr = self →
      d.free_objects_number < c.objects_per_slab →
      Cache.free c self h b p ≠ .panicked .wrongCache ∧
      Cache.free c self h b p ≠ .panicked .doubleFree) := by
  refine ⟨?_, ?_, ?_⟩
  · intro c self h b p sa sia d hp hal hloc hd hne
    simp only [Cache.free, if_neg hp, if_neg (not_not_intro hal), hloc, hd]
    rw [if_pos hne]
  · intro c self h b p sa sia d hp hal hloc hd hcp hfull
    simp only [Cache.free, if_neg hp, if_neg (not_not_intro hal), hloc, hd]
    rw [if_neg (not_not_intro hcp), if_pos hfull]
  · intro c self h b p sa sia d hp hal hloc hd hcp hlt
    simp only [Cache.free, if_neg hp, if_neg (not_not_intro hal), hloc, hd]
    rw [if_neg (not_not_intro hcp), if_neg (Nat.ne_of_lt hlt)]
    constructor <;>
      · intro hcontra
        revert hcontra
        split <;> (try split) <;> (try split) <;> simp

theorem C7_free_validation_witness :
    Cache.free ⟨1024, 8, 4096, 4096, .Small, 3, [], [], ⟨0, 0, 0, 0⟩⟩ 999
        [(69576, ⟨[], 777, 0, 65536⟩)] (MemoryBackend.init [] []) 65536 =
      .panicked .wrongCache :=
  C7_free_validation.1 _ 999 _ _ 65536 65536 69576 ⟨[], 777, 0, 65536⟩
    (by decide) (by decide) rfl rfl (by decide)

/-! ## Claim C9: full → free transition -/

/-- The Large one-object-per-slab cache used in the C9 counterexample:
`Cache::new 4096 4096 Large` with a 4096-byte object gives
`objects_per_slab = 1`. -/
def cacheOneObject : Cache :=
  ⟨4096, 8, 4096, 4096, .Large, 1, [], [], ⟨0, 0, 0, 0⟩⟩

theorem cacheOneObject_from_new :
    Cache.new 4096 4096 .Large 4096 8 = .ok cacheOneObject := by decide

/-- C9 counterexample: with `objects_per_slab = 1` (Large, 4096-byte
objects in a 4096-byte slab), freeing the only object of the full slab makes
its free count 1, yet the post-state free-slab list is empty — the slab was
immediately reclaimed in the same call rather than remaining at the front
for the next `alloc` to draw from. -/
theorem C9_counterexample :
    (allocN cacheOneObject 999 [] (MemoryBackend.init [65536] [900000]) 1).map
        (fun st => (st.1, st.2.1.free_slabs_list, st.2.1.full_slabs_list)) =
      some ([65536], [], [900000]) ∧
    ((allocN cacheOneObject 999 [] (MemoryBackend.init [65536] [900000]) 1).bind
        (fun st =>
          match Cache.free st.2.1 999 st.2.2.1 st.2.2.2 65536 with
          | .ok c2 _ _ => some (c2.free_slabs_list, c2.full_slabs_list,
              c2.statistics.free_slabs_number)
          | .panicked _ => none)) =
      some ([], [], 0) := by
  constructor
  · rfl
  · rfl

/-- C9 amended: for every `free` call that frees the first object of a
currently full slab, *provided `objects_per_slab ≥ 2`* (otherwise the slab
is immediately reclaimed again within the same call), the slab is removed
from the full list (decrementing `full_slabs_number`), inserted at the front
of the free-slabs list (incrementing `free_slabs_number`), and is therefore
the slab the next `alloc` draws from (the front). -/
theorem C9_full_to_free_front (c : Cache) (self : Nat) (h : SlabHeap)
    (b : MemoryBackend) (p sa sia : Nat) (d : SlabInfoData)
    (hp : p ≠ 0) (hal : p % c.object_align = 0)
    (hloc : Cache.locate_slab c h b p = .ok (sa, sia))
    (hd : alookup h sia = some d)
    (hcp : d.cache_ptr = self)
    (hwasfull : d.free_objects_number = 0)
    (hn : 2 ≤ c.objects_per_slab)
    (hmem : sia ∈ c.full_slabs_list) :
    Cache.free c self h b p =
      .ok { c with
            free_slabs_list := sia :: c.free_slabs_list
            full_slabs_list := c.full_slabs_list.erase sia
            statistics :=
              { free_slabs_number := c.statistics.free_slabs_number + 1
                full_slabs_number := c.statistics.full_slabs_number - 1
                free_objects_number := c.statistics.free_objects_number + 1
                allocated_objects_number :=
                  c.statistics.allocated_objects_number - 1 } }
        (ainsert h sia
          { d with free_objects_list := d.free_objects_list ++ [p]
                   free_objects_number := 1 })
        b ∧
    (sia :: c.free_slabs_list).head? = some sia := by
  refine ⟨?_, rfl⟩
  simp only [Cache.free, if_neg hp, if_neg (not_not_intro hal), hloc, hd]
  rw [if_neg (not_not_intro hcp), if_neg (by omega : ¬ d.free_objects_number = c.objects_per_slab)]
  rw [if_pos (by omega : d.free_objects_number + 1 = 1), if_pos hmem]
  have hne2 : ¬ d.free_objects_number + 1 = c.objects_per_slab := by omega
  have h1n : ¬ (1 : Nat) = c.objects_per_slab := by omega
  simp only [hwasfull, Nat.zero_add, if_neg h1n]

theorem C9_full_to_free_front_witness :
    Cache.free ⟨1024, 8, 4096, 4096, .Small, 3, [], [69576], ⟨0, 1, 0, 3⟩⟩ 999
        [(69576, ⟨[], 999, 0, 65536⟩)] (MemoryBackend.init [] []) 65536 =
      .ok ⟨1024, 8, 4096, 4096, .Small, 3, [69576], [], ⟨1, 0, 1, 2⟩⟩
        [(69576, ⟨[65536], 999, 1, 65536⟩)] (MemoryBackend.init [] []) ∧
    ([69576] : List Nat).head? = some 69576 := by
  have h := C9_full_to_free_front
    ⟨1024, 8, 4096, 4096, .Small, 3, [], [69576], ⟨0, 1, 0, 3⟩⟩ 999
    [(69576, ⟨[], 999, 0, 65536⟩)] (MemoryBackend.init [] []) 65536 65536 69576
    ⟨[], 999, 0, 65536⟩ (by decide) (by decide) rfl rfl rfl rfl (by decide)
    (by decide)
  simpa using h

/-! ## Claim C6: slab reclamation -/

/-- C6: when a `free` call brings the slab's free count up to
`objects_per_slab`, the slab leaves the free-slabs list, the backend's
`free_slab` is called with the slab base, `slab_size` and `page_size`; for
Large caches `free_slab_info` is also called with the `SlabInfo` pointer;
and for every configuration other than (Small ∧ slab_size == page_size)
`delete_slab_info_addr` is called once for each of the `slab_size/page_size`
pages the slab spans (under (Small ∧ slab_size == page_size) neither of the
latter happens).  The membership hypotheses cover the two cases the slab can
be in before the call: in the free list (`objects_per_slab ≥ 2`) or — for
one-object slabs — in the full list, transiting through the free list within
the same call. -/
theorem C6_slab_reclamation (c : Cache) (self : Nat) (h : SlabHeap)
    (b : MemoryBackend) (p sa sia : Nat) (d : SlabInfoData)
    (hp : p ≠ 0) (hal : p % c.object_align = 0)
    (hloc : Cache.locate_slab c h b p = .ok (sa, sia))
    (hd : alookup h sia = some d)
    (hcp : d.cache_ptr = self)
    (hcount : d.free_objects_number + 1 = c.objects_per_slab)
    (hone : c.objects_per_slab = 1 →
      sia ∈ c.full_slabs_list ∧ sia ∉ c.free_slabs_list)
    (hmore : 2 ≤ c.objects_per_slab →
      sia ∈ c.free_slabs_list ∧ sia ∉ c.full_slabs_list)
    (hnodfree : c.free_slabs_list.Nodup)
    (hnodfull : c.full_slabs_list.Nodup) :
    ∃ c' h' b', Cache.free c self h b p = .ok c' h' b' ∧
      sia ∉ c'.free_slabs_list ∧ sia ∉ c'.full_slabs_list ∧
      b'.free_slab_log = b.free_slab_log ++ [(sa, c.slab_size, c.page_size)] ∧
      (c.object_size_type = .Large →
        b'.free_slab_info_log = b.free_slab_info_log ++ [sia]) ∧
      (¬ (c.object_size_type = .Small ∧ c.slab_size = c.page_size) →
        b'.delete_log = b.delete_log ++
          (List.range (c.slab_size / c.page_size)).map
            (fun i => sa + i * c.page_size)) ∧
      ((c.object_size_type = .Small ∧ c.slab_size = c.page_size) →
        b'.delete_log = b.delete_log ∧
        b'.free_slab_info_log = b.free_slab_info_log) ∧
      (c.object_size_type = .Small →
        b'.free_slab_info_log = b.free_slab_info_log) := by
  have hn1 : 1 ≤ c.objects_per_slab := by omega
  -- the backend after the reclamation block
  set b1 := MemoryBackend.free_slab b sa c.slab_size c.page_size with hb1
  set bfin :=
    (if ¬ (c.object_size_type = .Small ∧ c.slab_size = c.page_size) then
      deleteSlabPages
        (if c.object_size_type = .Large then
          MemoryBackend.free_slab_info b1 sia
        else b1)
        sa c.page_size (c.slab_size / c.page_size)
    else b1) with hbfin
  have hbfacts :
      bfin.free_slab_log = b.free_slab_log ++ [(sa, c.slab_size, c.page_size)] ∧
      (c.object_size_type = .Large →
        bfin.free_slab_info_log = b.free_slab_info_log ++ [sia]) ∧
      (¬ (c.object_size_type = .Small ∧ c.slab_size = c.page_size) →
        bfin.delete_log = b.delete_log ++
          (List.range (c.slab_size / c.page_size)).map
            (fun i => sa + i * c.page_size)) ∧
      ((c.object_size_type = .Small ∧ c.slab_size = c.page_size) →
        bfin.delete_log = b.delete_log ∧
        bfin.free_slab_info_log = b.free_slab_info_log) ∧
      (c.object_size_type = .Small →
        bfin.free_slab_info_log = b.free_slab_info_log) := by
    rw [hbfin]
    by_cases hcfg : c.object_size_type = .Small ∧ c.slab_size = c.page_size
    · rw [if_neg (not_not_intro hcfg)]
      exact ⟨rfl, fun hL => absurd hcfg.1 (by simp [hL]), fun hc => absurd hcfg hc,
        fun _ => ⟨rfl, rfl⟩, fun _ => rfl⟩
    · rw [if_pos hcfg]
      by_cases hL : c.object_size_type = .Large
      · rw [if_pos hL]
        obtain ⟨_, _, _, hfsl, _, hfil, _, hdel⟩ :=
          deleteSlabPages_fields (MemoryBackend.free_slab_info b1 sia)
            sa c.page_size (c.slab_size / c.page_size)
        refine ⟨by rw [hfsl]; rfl, fun _ => by rw [hfil]; rfl,
          fun _ => by rw [hdel]; rfl, fun hc => absurd hc hcfg,
          fun hS => absurd hL (by simp [hS])⟩
      · rw [if_neg hL]
        obtain ⟨_, _, _, hfsl, _, hfil, _, hdel⟩ :=
          deleteSlabPages_fields b1 sa c.page_size (c.slab_size / c.page_size)
        refine ⟨by rw [hfsl]; rfl, fun hLL => absurd hLL hL,
          fun _ => by rw [hdel]; rfl, fun hc => absurd hc hcfg,
          fun _ => by rw [hfil]; rfl⟩
  rcases Nat.lt_or_ge c.objects_per_slab 2 with hn | hn
  · -- objects_per_slab = 1: full → free move, then reclamation
    have hn' : c.objects_per_slab = 1 := by omega
    obtain ⟨hfullmem, hfreenot⟩ := hone hn'
    simp only [Cache.free, if_neg hp, if_neg (not_not_intro hal), hloc, hd]
    rw [if_neg (not_not_intro hcp), if_neg (by omega : ¬ d.free_objects_number = c.objects_per_slab)]
    rw [if_pos (by omega : d.free_objects_number + 1 = 1), if_pos hfullmem]
    simp only [if_pos hcount, if_pos (List.mem_cons_self sia c.free_slabs_list)]
    refine ⟨_, _, _, rfl, ?_, ?_, hbfacts.1, hbfacts.2.1, hbfacts.2.2.1,
      hbfacts.2.2.2.1, hbfacts.2.2.2.2⟩
    · simp [List.erase_cons_head]
      exact hfreenot
    · intro hcontra
      exact absurd rfl ((hnodfull.mem_erase_iff).mp hcontra).1
  · -- objects_per_slab ≥ 2: plain reclamation from the free list
    obtain ⟨hfreemem, hfullnot⟩ := hmore hn
    simp only [Cache.free, if_neg hp, if_neg (not_not_intro hal), hloc, hd]
    rw [if_neg (not_not_intro hcp), if_neg (by omega : ¬ d.free_objects_number = c.objects_per_slab)]
    rw [if_neg (by omega : ¬ d.free_objects_number + 1 = 1)]
    simp only [if_pos hcount, if_pos hfreemem]
    refine ⟨_, _, _, rfl, ?_, ?_, hbfacts.1, hbfacts.2.1, hbfacts.2.2.1,
      hbfacts.2.2.2.1, hbfacts.2.2.2.2⟩
    · simp only []
      intro hcontra
      exact absurd rfl ((hnodfree.mem_erase_iff).mp hcontra).1
    · exact hfullnot

theorem C6_slab_reclamation_witness :
    ∃ c' h' b',
      Cache.free ⟨1024, 8, 4096, 4096, .Small, 3, [69576], [], ⟨1, 0, 2, 1⟩⟩ 999
          [(69576, ⟨[66560, 67584], 999, 2, 65536⟩)] (MemoryBackend.init [] [])
          65536 =
        .ok c' h' b' ∧
      69576 ∉ c'.free_slabs_list ∧
      b'.free_slab_log = [(65536, 4096, 4096)] := by
  obtain ⟨c', h', b', hfree, hnot, hnotfull, hlog, hLg, hdel, hse, hsm⟩ :=
    C6_slab_reclamation ⟨1024, 8, 4096, 4096, .Small, 3, [69576], [], ⟨1, 0, 2, 1⟩⟩
      999 [(69576, ⟨[66560, 67584], 999, 2, 65536⟩)] (MemoryBackend.init [] [])
      65536 65536 69576 ⟨[66560, 67584], 999, 2, 65536⟩
      (by decide) (by decide) rfl rfl rfl (by decide)
      (fun h1 => absurd h1 (by decide)) (fun _ => ⟨by decide, by decide⟩)
      (by decide) (by decide)
  exact ⟨c', h', b', hfree, hnot, by simpa using hlog⟩

/-! ## `acquire_slab`/`finishNewSlab` inversion -/

theorem finishNewSlab_ready {c : Cache} {self : Nat} {h : SlabHeap}
    {b : MemoryBackend} {slab_ptr sia : Nat} {c1 : Cache} {h1 : SlabHeap}
    {b1 : MemoryBackend}
    (hf : finishNewSlab c self h b slab_ptr sia = .ready c1 h1 b1) :
    b1 = b ∧
    c1 = { c with
           free_slabs_list := c.free_slabs_list ++ [sia]
           statistics :=
             { c.statistics with
               free_slabs_number := c.statistics.free_slabs_number + 1
               free_objects_number :=
                 c.statistics.free_objects_number + c.objects_per_slab } } := by
  simp only [finishNewSlab] at hf
  split_ifs at hf
  split at hf
  · exact SlabAcquire.noConfusion hf
  · cases hf
    exact ⟨rfl, rfl⟩

theorem acquire_ready_config {c : Cache} {self : Nat} {h : SlabHeap}
    {b : MemoryBackend} {c1 : Cache} {h1 : SlabHeap} {b1 : MemoryBackend}
    (hacq : Cache.acquire_slab c self h b = .ready c1 h1 b1) :
    c1.object_size = c.object_size ∧ c1.object_align = c.object_align ∧
    c1.slab_size = c.slab_size ∧ c1.page_size = c.page_size ∧
    c1.object_size_type = c.object_size_type ∧
    c1.objects_per_slab = c.objects_per_slab := by
  unfold Cache.acquire_slab at hacq
  by_cases hemp : c.free_slabs_list.isEmpty
  · rw [if_pos hemp] at hacq
    rcases hty : c.object_size_type with _ | _ <;>
      rw [hty] at hacq <;>
      simp only [] at hacq <;>
      split_ifs at hacq <;>
      first
        | exact SlabAcquire.noConfusion hacq
        | · obtain ⟨_, hc1⟩ := finishNewSlab_ready hacq
            subst hc1
            exact ⟨rfl, rfl, rfl, rfl, hty, rfl⟩
  · rw [if_neg hemp] at hacq
    cases hacq
    exact ⟨rfl, rfl, rfl, rfl, rfl, rfl⟩

/-! ## Claim C8: `save_slab_info_addr` policy -/

/-- The Scenario-B cache: `Cache::new 4096 4096 Large` with 56-byte objects
(`objects_per_slab = 73`). -/
def cacheLargeB : Cache := ⟨56, 8, 4096, 4096, .Large, 73, [], [], ⟨0, 0, 0, 0⟩⟩

theorem cacheLargeB_from_new :
    Cache.new 4096 4096 .Large 56 8 = .ok cacheLargeB := by decide

/-- C8 counterexample: Large, `slab_size == page_size`.  After the first
alloc the slab has exactly one allocated object (`free_objects_number = 72`,
save called once).  The claim as stated skips the save only when the slab
already had *at least 2* allocated objects before the alloc, so it predicts
a second `save_slab_info_addr` call during the second alloc; but the
source's `dont_save` condition (`free_objects_number <= objects_per_slab - 2`
evaluated after the decrement, i.e. at least 1 allocated before) already
suppresses it: the save log still has exactly one entry. -/
theorem C8_counterexample :
    ((allocN cacheLargeB 999 [] (MemoryBackend.init [65536] [900000]) 1).map
        (fun st => (st.2.2.2.save_log,
          (alookup st.2.2.1 900000).map SlabInfoData.free_objects_number))) =
      some ([(65536, 900000)], some 72) ∧
    ((allocN cacheLargeB 999 [] (MemoryBackend.init [65536] [900000]) 2).map
        (fun st => st.2.2.2.save_log)) =
      some [(65536, 900000)] := by
  constructor
  · rfl
  · rfl

/-- C8 amended: for every successful `alloc` that extracts an object from
the slab at the front of the free-slabs list (after the slab-acquisition
prologue), if the cache is Small with `slab_size == page_size` the backend's
`save_slab_info_addr` is never called; otherwise it is called with the
allocated object's address rounded down to `page_size` and the slab's
`SlabInfo` pointer, *except* that the call is skipped when
`slab_size == page_size` and the slab already had at least **1** allocated
object before this allocation (the claim's "at least 2" boundary is off by
one: the source skips from the second allocation of the slab onward). -/
theorem C8_save_policy (c : Cache) (self : Nat) (h : SlabHeap) (b : MemoryBackend)
    (c1 : Cache) (h1 : SlabHeap) (b1 : MemoryBackend) (sia : Nat)
    (d : SlabInfoData) (obj : Nat) (objsRest : List Nat)
    (hacq : Cache.acquire_slab c self h b = .ready c1 h1 b1)
    (hhead : c1.free_slabs_list.head? = some sia)
    (hd : alookup h1 sia = some d)
    (hpop : popBack d.free_objects_list = some (obj, objsRest))
    (hlen : d.free_objects_number = d.free_objects_list.length)
    (hle : d.free_objects_number ≤ c1.objects_per_slab) :
    ∃ c' h' b', Cache.alloc c self h b = .ok obj c' h' b' ∧
      ((c1.object_size_type = .Small ∧ c1.slab_size = c1.page_size) →
        b'.save_log = b1.save_log) ∧
      (¬ (c1.object_size_type = .Small ∧ c1.slab_size = c1.page_size) →
        ((c1.slab_size = c1.page_size ∧
            1 ≤ c1.objects_per_slab - d.free_objects_number) →
          b'.save_log = b1.save_log) ∧
        (¬ (c1.slab_size = c1.page_size ∧
            1 ≤ c1.objects_per_slab - d.free_objects_number) →
          b'.save_log = b1.save_log ++ [(align_down obj c1.page_size, sia)])) := by
  have hfree1 : 1 ≤ d.free_objects_number := by
    have := popBack_eq_some hpop
    rw [hlen, this]
    simp
  simp only [Cache.alloc, hacq, hhead, hd, hpop]
  by_cases hcfg : c1.object_size_type = .Small ∧ c1.slab_size = c1.page_size
  · rw [if_neg (not_not_intro hcfg)]
    by_cases hfull : objsRest.isEmpty
    · rw [if_pos hfull]
      rcases hfl : c1.free_slabs_list with _ | ⟨front, restSlabs⟩
      · rw [hfl] at hhead
        simp at hhead
      · refine ⟨_, _, _, rfl, fun _ => rfl, fun hc => absurd hcfg hc⟩
    · rw [if_neg hfull]
      refine ⟨_, _, _, rfl, fun _ => rfl, fun hc => absurd hcfg hc⟩
  · rw [if_pos hcfg]
    by_cases hskip : c1.slab_size = c1.page_size ∧
        1 ≤ c1.objects_per_slab - d.free_objects_number
    · have hds : (if c1.objects_per_slab ≥ 2 then
          decide (c1.slab_size = c1.page_size ∧
            d.free_objects_number - 1 ≤ c1.objects_per_slab - 2)
        else false) = true := by
        rw [if_pos (by omega)]
        simp only [decide_eq_true_eq]
        exact ⟨hskip.1, by omega⟩
      rw [if_neg (not_not_intro hds)]
      by_cases hfull : objsRest.isEmpty
      · rw [if_pos hfull]
        rcases hfl : c1.free_slabs_list with _ | ⟨front, restSlabs⟩
        · rw [hfl] at hhead
          simp at hhead
        · exact ⟨_, _, _, rfl, fun hc => absurd hc hcfg,
            fun _ => ⟨fun _ => rfl, fun hc => absurd hskip hc⟩⟩
      · rw [if_neg hfull]
        exact ⟨_, _, _, rfl, fun hc => absurd hc hcfg,
          fun _ => ⟨fun _ => rfl, fun hc => absurd hskip hc⟩⟩
    · have hds : (if c1.objects_per_slab ≥ 2 then
          decide (c1.slab_size = c1.page_size ∧
            d.free_objects_number - 1 ≤ c1.objects_per_slab - 2)
        else false) = false := by
        by_cases hn2 : c1.objects_per_slab ≥ 2
        · rw [if_pos hn2]
          simp only [decide_eq_false_iff_not]
          intro ⟨hss, hled⟩
          exact hskip ⟨hss, by omega⟩
        · rw [if_neg hn2]
      have hpos : ¬ ((if c1.objects_per_slab ≥ 2 then
          decide (c1.slab_size = c1.page_size ∧
            d.free_objects_number - 1 ≤ c1.objects_per_slab - 2)
        else false) = true) := by
        rw [hds]
        simp
      rw [if_pos hpos]
      by_cases hfull : objsRest.isEmpty
      · rw [if_pos hfull]
        rcases hfl : c1.free_slabs_list with _ | ⟨front, restSlabs⟩
        · rw [hfl] at hhead
          simp at hhead
        · exact ⟨_, _, _, rfl, fun hc => absurd hc hcfg,
            fun _ => ⟨fun hc => absurd hc hskip, fun _ => rfl⟩⟩
      · rw [if_neg hfull]
        exact ⟨_, _, _, rfl, fun hc => absurd hc hcfg,
          fun _ => ⟨fun hc => absurd hc hskip, fun _ => rfl⟩⟩

theorem C8_save_policy_witness :
    ∃ c' h' b',
      Cache.alloc ⟨1024, 8, 4096, 4096, .Large, 3, [900000], [], ⟨1, 0, 2, 1⟩⟩ 999
          [(900000, ⟨[65536, 66560], 999, 2, 65536⟩)] (MemoryBackend.init [] []) =
        .ok 66560 c' h' b' ∧
      b'.save_log = [] := by
  obtain ⟨c', h', b', halloc, hsm, hrest⟩ :=
    C8_save_policy ⟨1024, 8, 4096, 4096, .Large, 3, [900000], [], ⟨1, 0, 2, 1⟩⟩ 999
      [(900000, ⟨[65536, 66560], 999, 2, 65536⟩)] (MemoryBackend.init [] [])
      ⟨1024, 8, 4096, 4096, .Large, 3, [900000], [], ⟨1, 0, 2, 1⟩⟩
      [(900000, ⟨[65536, 66560], 999, 2, 65536⟩)] (MemoryBackend.init [] [])
      900000 ⟨[65536, 66560], 999, 2, 65536⟩ 66560 [65536]
      rfl rfl rfl rfl rfl (by decide)
  refine ⟨c', h', b', halloc, ?_⟩
  have hlog := (hrest (by decide)).1 (by decide)
  simpa using hlog

/-! ## Reachable-state invariant

The functional-correctness invariant tying the `Cache`'s lists and
statistics, the `SlabInfo` heap, and the backend's logs and saved-address
table to a ghost list of live slabs. -/

/-- Ghost description of one live slab: base address, `SlabInfo` address,
and the currently allocated object addresses. -/
structure GhostSlab where
  s : Nat
  sia : Nat
  allocated : List Nat
  deriving Repr

/-- The object slot addresses of a slab based at `s`. -/
def objectAddrs (s os n : Nat) : List Nat :=
  (List.range n).map (fun i => s + i * os)

/-- The page addresses a slab spans. -/
def slabPages (s ps k : Nat) : List Nat :=
  (List.range k).map (fun i => s + i * ps)

/-- Configuration wellformedness: what `Cache::new` validates, plus the
layout facts Rust guarantees for any `T` whose objects can host the 8-byte
aligned two-pointer `FreeObject` (8 divides `size_of::<T>()`, alignment
divides size), plus `usize`-range bounds. -/
structure CacheWF (c : Cache) : Prop where
  os16 : 16 ≤ c.object_size
  os8 : 8 ∣ c.object_size
  ps_pow2 : ∃ k, 3 ≤ k ∧ k ≤ 64 ∧ c.page_size = 2 ^ k
  ss_mod : c.slab_size % c.page_size = 0
  al_mod : c.page_size % c.object_align = 0
  al_dvd_os : c.object_align ∣ c.object_size
  n_pos : 1 ≤ c.objects_per_slab
  cap : c.objects_per_slab * c.object_size ≤
    (match c.object_size_type with
     | .Small => calculate_slab_info_addr_in_small_object_cache 0 c.slab_size
     | .Large => c.slab_size)
  small_tail : c.object_size_type = .Small →
    calculate_slab_info_addr_in_small_object_cache 0 c.slab_size ≤
      c.slab_size - sizeOfSlabInfo ∧ sizeOfSlabInfo + c.object_size ≤ c.slab_size
  ss_bound : c.slab_size < 2 ^ 64

/-- Per-slab wellformedness of the `SlabInfoData` record `d`. -/
structure SlabWFd (c : Cache) (me : Nat) (b : MemoryBackend) (g : GhostSlab)
    (d : SlabInfoData) : Prop where
  cachePtr : d.cache_ptr = me
  slabPtr : d.slab_ptr = g.s
  countLen : d.free_objects_number = d.free_objects_list.length
  partition : (d.free_objects_list ++ g.allocated).Perm
    (objectAddrs g.s c.object_size c.objects_per_slab)
  allocPos : 1 ≤ g.allocated.length
  sPos : g.s ≠ 0
  sAligned : c.page_size ∣ g.s
  sBound : g.s + c.slab_size ≤ 2 ^ 64
  siaPos : g.sia ≠ 0
  siaAligned : g.sia % alignOfSlabInfo = 0
  siaSmall : c.object_size_type = .Small →
    g.sia = calculate_slab_info_addr_in_small_object_cache g.s c.slab_size
  savedSia : ¬ (c.object_size_type = .Small ∧ c.slab_size = c.page_size) →
    ∀ p ∈ g.allocated,
      alookup b.saved_slab_infos (align_down p c.page_size) = some g.sia

/-- Per-slab wellformedness: the heap holds a wellformed record at the
slab's `SlabInfo` address. -/
def SlabWF (c : Cache) (me : Nat) (h : SlabHeap) (b : MemoryBackend)
    (g : GhostSlab) : Prop :=
  ∃ d, alookup h g.sia = some d ∧ SlabWFd c me b g d

/-- Wellformedness of the remaining backend supplies relative to the live
slabs: upcoming slab addresses are page-aligned, in `usize` range and
region-disjoint from every live slab and from each other; upcoming
`SlabInfo` addresses are aligned and distinct from the live ones and from
each other. -/
structure SupplyWF (c : Cache) (b : MemoryBackend) (gs : List GhostSlab) : Prop where
  slabs : ∀ a ∈ b.slab_supply, a ≠ 0 →
    c.page_size ∣ a ∧ a + c.slab_size ≤ 2 ^ 64 ∧
    ∀ s' ∈ gs.map GhostSlab.s, s' + c.slab_size ≤ a ∨ a + c.slab_size ≤ s'
  slabsPairwise : b.slab_supply.Pairwise
    (fun x y => x ≠ 0 → y ≠ 0 → x + c.slab_size ≤ y ∨ y + c.slab_size ≤ x)
  infos : c.object_size_type = .Large → ∀ q ∈ b.slab_info_supply, q ≠ 0 →
    q % alignOfSlabInfo = 0 ∧ q ∉ gs.map GhostSlab.sia
  infosPairwise : b.slab_info_supply.Pairwise (fun x y => x ≠ 0 → y ≠ 0 → x ≠ y)

/-- The master invariant of reachable quiescent states. -/
structure Inv (c : Cache) (me : Nat) (h : SlabHeap) (b : MemoryBackend)
    (gs : List GhostSlab) : Prop where
  wf : CacheWF c
  slabs : ∀ g ∈ gs, SlabWF c me h b g
  siaNodup : (gs.map GhostSlab.sia).Nodup
  regions : (gs.map GhostSlab.s).Pairwise
    (fun a b => a + c.slab_size ≤ b ∨ b + c.slab_size ≤ a)
  freeNodup : c.free_slabs_list.Nodup
  fullNodup : c.full_slabs_list.Nodup
  listsDisj : ∀ x ∈ c.free_slabs_list, x ∉ c.full_slabs_list
  freeMem : ∀ x, x ∈ c.free_slabs_list ↔
    ∃ g ∈ gs, g.sia = x ∧ g.allocated.length < c.objects_per_slab
  fullMem : ∀ x, x ∈ c.full_slabs_list ↔
    ∃ g ∈ gs, g.sia = x ∧ g.allocated.length = c.objects_per_slab
  listsLen : c.free_slabs_list.length + c.full_slabs_list.length = gs.length
  statFree : c.statistics.free_slabs_number = c.free_slabs_list.length
  statFull : c.statistics.full_slabs_number = c.full_slabs_list.length
  statFreeObj : c.statistics.free_objects_number =
    (gs.map (fun g => c.objects_per_slab - g.allocated.length)).sum
  statAlloc : c.statistics.allocated_objects_number =
    (gs.map (fun g => g.allocated.length)).sum
  slabLog : b.alloc_slab_log.Perm
    (b.free_slab_log ++ gs.map (fun g => (g.s, c.slab_size, c.page_size)))
  infoLog : b.alloc_slab_info_log.Perm
    (b.free_slab_info_log ++
      (if c.object_size_type = .Large then gs.map GhostSlab.sia else []))
  smallNoInfo : c.object_size_type = .Small →
    b.alloc_slab_info_log = [] ∧ b.free_slab_info_log = []
  supply : SupplyWF c b gs

/-! ## Address arithmetic for wellformed configurations -/

theorem align_down_add_mul {s x k : Nat} (hk : k ≤ 64) (hs : 2 ^ k ∣ s)
    (hin : s + x < 2 ^ 64) :
    align_down (s + x) (2 ^ k) = s + (x - x % 2 ^ k) := by
  rw [align_down_two_pow hk hin]
  obtain ⟨m, rfl⟩ := hs
  rw [Nat.mul_add_mod]
  have := Nat.mod_le x (2 ^ k)
  omega

theorem mem_objectAddrs {p s os n : Nat} :
    p ∈ objectAddrs s os n ↔ ∃ j, j < n ∧ p = s + j * os := by
  simp [objectAddrs, eq_comm]

theorem objectAddrs_length (s os n : Nat) : (objectAddrs s os n).length = n := by
  simp [objectAddrs]

theorem objectAddrs_nodup {s os n : Nat} (hos : 0 < os) :
    (objectAddrs s os n).Nodup := by
  apply List.Nodup.map
  · intro i j hij
    simp only [] at hij
    have : i * os = j * os := by omega
    exact Nat.eq_of_mul_eq_mul_right hos this
  · exact List.nodup_range _

/-- Rounding an interior address of a wellformed slab down to the page size:
the result stays inside the slab's region, is one of the slab's pages, and
equals the slab base when `slab_size = page_size`. -/
theorem align_down_in_slab {c : Cache} (hWF : CacheWF c) {s x : Nat}
    (hs : c.page_size ∣ s) (hbound : s + c.slab_size ≤ 2 ^ 64)
    (hx : x < c.slab_size) :
    s ≤ align_down (s + x) c.page_size ∧
    align_down (s + x) c.page_size < s + c.slab_size ∧
    align_down (s + x) c.page_size ∈
      slabPages s c.page_size (c.slab_size / c.page_size) ∧
    (c.slab_size = c.page_size → align_down (s + x) c.page_size = s) := by
  obtain ⟨k, hk3, hk64, hps⟩ := hWF.ps_pow2
  have hin : s + x < 2 ^ 64 := by omega
  have heq : align_down (s + x) c.page_size = s + (x - x % c.page_size) := by
    rw [hps]
    exact align_down_add_mul hk64 (hps ▸ hs) hin
  have hmodle : x % c.page_size ≤ x := Nat.mod_le x c.page_size
  refine ⟨by omega, by omega, ?_, ?_⟩
  · rw [heq]
    have hsub : x - x % c.page_size = c.page_size * (x / c.page_size) := by
      have := Nat.div_add_mod x c.page_size
      omega
    rw [hsub]
    simp only [slabPages, List.mem_map, List.mem_range]
    refine ⟨x / c.page_size, ?_, by ring⟩
    have hdvd : c.page_size ∣ c.slab_size := Nat.dvd_of_mod_eq_zero hWF.ss_mod
    exact Nat.div_lt_div_of_lt_of_dvd hdvd hx
  · intro hss
    rw [heq, Nat.mod_eq_of_lt (by omega : x < c.page_size)]
    omega

/-- Every member of a slab's page list lies inside the slab's region. -/
theorem slabPages_subset_region {c : Cache} (hWF : CacheWF c) {s q : Nat}
    (hq : q ∈ slabPages s c.page_size (c.slab_size / c.page_size)) :
    s ≤ q ∧ q < s + c.slab_size := by
  simp only [slabPages, List.mem_map, List.mem_range] at hq
  obtain ⟨i, hi, rfl⟩ := hq
  have hdvd : c.page_size ∣ c.slab_size := Nat.dvd_of_mod_eq_zero hWF.ss_mod
  obtain ⟨m, hm⟩ := hdvd
  have hps0 : 0 < c.page_size := by
    obtain ⟨k, hk3, _, hps⟩ := hWF.ps_pow2
    rw [hps]
    exact Nat.pos_pow_of_pos k (by norm_num)
  have hmi : c.slab_size / c.page_size = m := by
    rw [hm]
    exact Nat.mul_div_cancel_left m hps0
  rw [hmi] at hi
  constructor
  · exact Nat.le_add_right _ _
  · have hle : i * c.page_size + c.page_size ≤ c.page_size * m := by
      have h1 : i + 1 ≤ m := hi
      calc i * c.page_size + c.page_size = (i + 1) * c.page_size := by ring
        _ ≤ m * c.page_size := Nat.mul_le_mul_right _ h1
        _ = c.page_size * m := Nat.mul_comm _ _
    omega

/-- Object addresses of a wellformed slab are nonzero, aligned for the
object type, and inside the slab region below the capacity bound. -/
theorem object_facts {c : Cache} (hWF : CacheWF c) {s p : Nat}
    (hs0 : s ≠ 0) (hsal : c.page_size ∣ s)
    (hp : p ∈ objectAddrs s c.object_size c.objects_per_slab) :
    p ≠ 0 ∧ p % c.object_align = 0 ∧ s ≤ p ∧
    p < s + c.objects_per_slab * c.object_size ∧
    p - s < c.slab_size := by
  obtain ⟨j, hj, rfl⟩ := mem_objectAddrs.mp hp
  have hcap : c.objects_per_slab * c.object_size ≤ c.slab_size := by
    have h := hWF.cap
    rcases hos : c.object_size_type with _ | _ <;> rw [hos] at h
    · have := hWF.small_tail hos
      simp only [] at h
      omega
    · simpa using h
  have hoa_pos : 0 < c.object_align := by
    rcases Nat.eq_zero_or_pos c.object_align with hz | hpos
    · exfalso
      have hmod := hWF.al_mod
      rw [hz, Nat.mod_zero] at hmod
      obtain ⟨k, hk3, _, hps⟩ := hWF.ps_pow2
      have hpspos : (0 : Nat) < c.page_size := by
        rw [hps]
        exact Nat.pos_pow_of_pos k (by norm_num)
      omega
    · exact hpos
  have hsal' : c.object_align ∣ s := by
    have h1 : c.object_align ∣ c.page_size := Nat.dvd_of_mod_eq_zero hWF.al_mod
    exact h1.trans hsal
  have hjlt : j * c.object_size + c.object_size ≤ c.objects_per_slab * c.object_size := by
    calc j * c.object_size + c.object_size = (j + 1) * c.object_size := by ring
      _ ≤ c.objects_per_slab * c.object_size := Nat.mul_le_mul_right _ hj
  have hos16 := hWF.os16
  refine ⟨by omega, ?_, by omega, by omega, by omega⟩
  obtain ⟨u, hu⟩ := hsal'
  obtain ⟨v, hv⟩ := hWF.al_dvd_os
  rw [hu, hv]
  have : c.object_align * u + j * (c.object_align * v) =
      c.object_align * (u + j * v) := by ring
  rw [this, Nat.mul_mod_right]

/-- Locating the slab of a currently allocated pointer succeeds and yields
the slab's base address and its `SlabInfo` address, in every configuration. -/
theorem locate_allocated {c : Cache} {self : Nat} {h : SlabHeap}
    {b : MemoryBackend} {g : GhostSlab} {d : SlabInfoData} {p : Nat}
    (hWF : CacheWF c)
    (hd : alookup h g.sia = some d)
    (hwf : SlabWFd c self b g d)
    (hp : p ∈ g.allocated) :
    Cache.locate_slab c h b p = .ok (g.s, g.sia) := by
  have hpobj : p ∈ objectAddrs g.s c.object_size c.objects_per_slab :=
    (hwf.partition.mem_iff).mp (List.mem_append_right _ hp)
  obtain ⟨hp0, hpal, hsle, hplt, hpoff⟩ :=
    object_facts hWF hwf.sPos hwf.sAligned hpobj
  obtain ⟨j, hj, hpeq⟩ := mem_objectAddrs.mp hpobj
  have hxlt : j * c.object_size < c.slab_size := by omega
  have hbounds := align_down_in_slab hWF hwf.sAligned hwf.sBound hxlt
  simp only [Cache.locate_slab]
  by_cases hcfg : c.object_size_type = .Small ∧ c.slab_size = c.page_size
  · rw [if_pos hcfg]
    have hsa : align_down p c.page_size = g.s := by
      rw [hpeq]
      exact hbounds.2.2.2 hcfg.2
    have hsia : calculate_slab_info_addr_in_small_object_cache
        (align_down p c.page_size) c.slab_size = g.sia := by
      rw [hsa, (hwf.siaSmall hcfg.1)]
    rw [hsia, hsa, if_neg hwf.sPos, if_neg hwf.siaPos,
      if_neg (not_not_intro hwf.siaAligned)]
  · rw [if_neg hcfg]
    have hget : MemoryBackend.get_slab_info_addr b (align_down p c.page_size) =
        g.sia := by
      rw [MemoryBackend.get_slab_info_addr, hwf.savedSia hcfg p hp]
      rfl
    rw [hget, if_neg hwf.siaPos, if_neg (not_not_intro hwf.siaAligned), hd]
    have hsp : ¬ d.slab_ptr = 0 := by
      rw [hwf.slabPtr]
      exact hwf.sPos
    simp only [if_neg hsp, hwf.slabPtr]
    rw [if_neg hwf.sPos]

/-! ## Ghost-list bookkeeping lemmas -/

theorem ghost_sia_ne_of_nodup {gs1 gs2 : List GhostSlab} {g : GhostSlab}
    (hnd : (((gs1 ++ g :: gs2).map GhostSlab.sia)).Nodup) :
    ∀ gg, (gg ∈ gs1 ∨ gg ∈ gs2) → gg.sia ≠ g.sia := by
  rw [List.map_append, List.map_cons, List.nodup_append] at hnd
  obtain ⟨hnd1, hnd2, hdisj⟩ := hnd
  intro gg hgg
  rcases hgg with hgg | hgg
  · intro heq
    exact hdisj (List.mem_map_of_mem _ hgg) (heq ▸ List.mem_cons_self _ _)
  · intro heq
    have := (List.nodup_cons.mp hnd2).1
    exact this (heq ▸ List.mem_map_of_mem _ hgg)

theorem exists_ghost_ne {gs1 gs2 : List GhostSlab} {g g' : GhostSlab}
    (hsia : g'.sia = g.sia) (P : GhostSlab → Prop) {x : Nat} (hx : x ≠ g.sia) :
    (∃ gg, gg ∈ gs1 ++ g' :: gs2 ∧ gg.sia = x ∧ P gg) ↔
    (∃ gg, gg ∈ gs1 ++ gs2 ∧ gg.sia = x ∧ P gg) := by
  constructor
  · rintro ⟨gg, hmem, hgx, hP⟩
    rcases List.mem_append.mp hmem with hmem | hmem
    · exact ⟨gg, List.mem_append_left _ hmem, hgx, hP⟩
    · rcases List.mem_cons.mp hmem with rfl | hmem
      · exact absurd (hsia.symm.trans hgx) (fun hc => hx hc.symm)
      · exact ⟨gg, List.mem_append_right _ hmem, hgx, hP⟩
  · rintro ⟨gg, hmem, hgx, hP⟩
    rcases List.mem_append.mp hmem with hmem | hmem
    · exact ⟨gg, List.mem_append_left _ hmem, hgx, hP⟩
    · exact ⟨gg, List.mem_append_right _ (List.mem_cons_of_mem _ hmem), hgx, hP⟩

theorem exists_ghost_drop {gs1 gs2 : List GhostSlab} {g : GhostSlab}
    (P : GhostSlab → Prop) {x : Nat} (hx : x ≠ g.sia) :
    (∃ gg, gg ∈ gs1 ++ g :: gs2 ∧ gg.sia = x ∧ P gg) ↔
    (∃ gg, gg ∈ gs1 ++ gs2 ∧ gg.sia = x ∧ P gg) := by
  constructor
  · rintro ⟨gg, hmem, hgx, hP⟩
    rcases List.mem_append.mp hmem with hmem | hmem
    · exact ⟨gg, List.mem_append_left _ hmem, hgx, hP⟩
    · rcases List.mem_cons.mp hmem with rfl | hmem
      · exact absurd hgx (fun hc => hx hc.symm)
      · exact ⟨gg, List.mem_append_right _ hmem, hgx, hP⟩
  · rintro ⟨gg, hmem, hgx, hP⟩
    rcases List.mem_append.mp hmem with hmem | hmem
    · exact ⟨gg, List.mem_append_left _ hmem, hgx, hP⟩
    · exact ⟨gg, List.mem_append_right _ (List.mem_cons_of_mem _ hmem), hgx, hP⟩

theorem exists_ghost_self {gs1 gs2 : List GhostSlab} {g : GhostSlab}
    (hnd : (((gs1 ++ g :: gs2).map GhostSlab.sia)).Nodup) (P : GhostSlab → Prop) :
    (∃ gg, gg ∈ gs1 ++ g :: gs2 ∧ gg.sia = g.sia ∧ P gg) ↔ P g := by
  constructor
  · rintro ⟨gg, hmem, hgx, hP⟩
    rcases List.mem_append.mp hmem with hmem | hmem
    · exact absurd hgx (ghost_sia_ne_of_nodup hnd gg (Or.inl hmem))
    · rcases List.mem_cons.mp hmem with rfl | hmem
      · exact hP
      · exact absurd hgx (ghost_sia_ne_of_nodup hnd gg (Or.inr hmem))
  · intro hP
    exact ⟨g, List.mem_append_right _ (List.mem_cons_self _ _), rfl, hP⟩

theorem perm_log_move {α : Type} {L F : List α} (t : α) (ts1 ts2 : List α)
    (hperm : L.Perm (F ++ (ts1 ++ t :: ts2))) :
    L.Perm ((F ++ [t]) ++ (ts1 ++ ts2)) := by
  refine hperm.trans ?_
  have h1 : (ts1 ++ t :: ts2).Perm (t :: (ts1 ++ ts2)) := List.perm_middle
  refine (List.Perm.append_left F h1).trans ?_
  have heq : F ++ t :: (ts1 ++ ts2) = (F ++ [t]) ++ (ts1 ++ ts2) := by simp
  rw [heq]

/-! ## Transport lemmas for state updates -/

/-- `CacheWF` only looks at the configuration fields. -/
theorem CacheWF_config {c c' : Cache}
    (hos : c'.object_size = c.object_size)
    (hoa : c'.object_align = c.object_align)
    (hss : c'.slab_size = c.slab_size)
    (hps : c'.page_size = c.page_size)
    (hty : c'.object_size_type = c.object_size_type)
    (hn : c'.objects_per_slab = c.objects_per_slab)
    (hWF : CacheWF c) : CacheWF c' := by
  refine ⟨?_, ?_, ?_, ?_, ?_, ?_, ?_, ?_, ?_, ?_⟩
  · rw [hos]; exact hWF.os16
  · rw [hos]; exact hWF.os8
  · rw [hps]; exact hWF.ps_pow2
  · rw [hss, hps]; exact hWF.ss_mod
  · rw [hps, hoa]; exact hWF.al_mod
  · rw [hos, hoa]; exact hWF.al_dvd_os
  · rw [hn]; exact hWF.n_pos
  · rw [hn, hos, hty, hss]; exact hWF.cap
  · rw [hty, hss, hos]; exact hWF.small_tail
  · rw [hss]; exact hWF.ss_bound

/-- `SlabWFd` only looks at the configuration fields of the cache. -/
theorem SlabWFd_config {c c' : Cache} {me : Nat} {b : MemoryBackend}
    {g : GhostSlab} {d : SlabInfoData}
    (hos : c'.object_size = c.object_size)
    (hss : c'.slab_size = c.slab_size)
    (hps : c'.page_size = c.page_size)
    (hty : c'.object_size_type = c.object_size_type)
    (hn : c'.objects_per_slab = c.objects_per_slab)
    (hwf : SlabWFd c me b g d) : SlabWFd c' me b g d := by
  refine ⟨hwf.cachePtr, hwf.slabPtr, hwf.countLen, ?_, hwf.allocPos, hwf.sPos,
    ?_, ?_, hwf.siaPos, hwf.siaAligned, ?_, ?_⟩
  · rw [hos, hn]; exact hwf.partition
  · rw [hps]; exact hwf.sAligned
  · rw [hss]; exact hwf.sBound
  · intro hsm
    rw [hss]
    exact hwf.siaSmall (by rw [← hty]; exact hsm)
  · intro hcfg q hq
    rw [hps]
    exact hwf.savedSia (by rw [← hty, ← hss, ← hps]; exact hcfg) q hq

/-- `SlabWFd` only looks at the backend through the saved-address table at
the slab's own pages. -/
theorem SlabWFd_backend {c : Cache} {me : Nat} {b b' : MemoryBackend}
    {g : GhostSlab} {d : SlabInfoData}
    (hsv : ∀ q ∈ g.allocated,
      alookup b'.saved_slab_infos (align_down q c.page_size) =
        alookup b.saved_slab_infos (align_down q c.page_size))
    (hwf : SlabWFd c me b g d) : SlabWFd c me b' g d := by
  refine ⟨hwf.cachePtr, hwf.slabPtr, hwf.countLen, hwf.partition, hwf.allocPos,
    hwf.sPos, hwf.sAligned, hwf.sBound, hwf.siaPos, hwf.siaAligned,
    hwf.siaSmall, ?_⟩
  intro hcfg q hq
  rw [hsv q hq]
  exact hwf.savedSia hcfg q hq

/-! ## Preservation of the invariant under `free` -/

/-- The cache after a non-reclaiming, non-full-list `free`: only the object
statistics move. -/
def freeMidCache (c : Cache) : Cache :=
  { c with statistics :=
      { c.statistics with
        free_objects_number := c.statistics.free_objects_number + 1
        allocated_objects_number := c.statistics.allocated_objects_number - 1 } }

/-- The slab record after `free` appends the freed object. -/
def freeSlabRecord (d : SlabInfoData) (p : Nat) : SlabInfoData :=
  { d with free_objects_list := d.free_objects_list ++ [p]
           free_objects_number := d.free_objects_number + 1 }

/-- The ghost slab after erasing a freed object. -/
def ghostErase (g : GhostSlab) (p : Nat) : GhostSlab :=
  { g with allocated := g.allocated.erase p }

theorem ghost_map_eq {α : Type} {gs1 gs2 : List GhostSlab} (g g' : GhostSlab)
    (f : GhostSlab → α) (hf : f g' = f g) :
    (gs1 ++ g' :: gs2).map f = (gs1 ++ g :: gs2).map f := by
  simp [hf]

theorem SupplyWF_congr {c c' : Cache} {b b' : MemoryBackend}
    {gs gs' : List GhostSlab}
    (hss : c'.slab_size = c.slab_size) (hps : c'.page_size = c.page_size)
    (hty : c'.object_size_type = c.object_size_type)
    (hsupeq : b'.slab_supply = b.slab_supply)
    (hinfoeq : b'.slab_info_supply = b.slab_info_supply)
    (hms : gs'.map GhostSlab.s = gs.map GhostSlab.s)
    (hmi : gs'.map GhostSlab.sia = gs.map GhostSlab.sia)
    (hsup : SupplyWF c b gs) : SupplyWF c' b' gs' := by
  refine ⟨?_, ?_, ?_, ?_⟩
  · simp only [hss, hps, hms, hsupeq]
    exact hsup.slabs
  · simp only [hss, hsupeq]
    exact hsup.slabsPairwise
  · simp only [hty, hmi, hinfoeq]
    exact hsup.infos
  · simp only [hinfoeq]
    exact hsup.infosPairwise

/-- Freeing an object of a slab that is neither full nor down to its last
allocated object preserves the invariant: only the slab's record and the
object statistics change. -/
theorem free_preserves_mid {c : Cache} {me : Nat} {h : SlabHeap}
    {b : MemoryBackend} {gs1 gs2 : List GhostSlab} {g : GhostSlab}
    {d : SlabInfoData} {p : Nat}
    (hInv : Inv c me h b (gs1 ++ g :: gs2))
    (hd : alookup h g.sia = some d)
    (hwf : SlabWFd c me b g d)
    (hp : p ∈ g.allocated)
    (hL2 : 2 ≤ g.allocated.length)
    (hLn : g.allocated.length < c.objects_per_slab) :
    Cache.free c me h b p = .ok (freeMidCache c)
        (ainsert h g.sia (freeSlabRecord d p)) b ∧
      Inv (freeMidCache c) me (ainsert h g.sia (freeSlabRecord d p)) b
        (gs1 ++ ghostErase g p :: gs2) := by
  have hWF := hInv.wf
  have hnd := hInv.siaNodup
  have hpobj : p ∈ objectAddrs g.s c.object_size c.objects_per_slab :=
    hwf.partition.mem_iff.mp (List.mem_append_right _ hp)
  obtain ⟨hp0, hpal, -, -, -⟩ := object_facts hWF hwf.sPos hwf.sAligned hpobj
  have hloc := locate_allocated hWF hd hwf hp
  have hlens : d.free_objects_list.length + g.allocated.length =
      c.objects_per_slab := by
    have h1 := hwf.partition.length_eq
    rw [List.length_append, objectAddrs_length] at h1
    exact h1
  have hcount := hwf.countLen
  have hLe : (g.allocated.erase p).length = g.allocated.length - 1 :=
    List.length_erase_of_mem hp
  have hnd' : ((gs1 ++ ghostErase g p :: gs2).map GhostSlab.sia).Nodup := by
    rw [ghost_map_eq g (ghostErase g p) GhostSlab.sia rfl]
    exact hnd
  constructor
  · simp only [Cache.free, if_neg hp0, if_neg (not_not_intro hpal), hloc, hd]
    rw [if_neg (not_not_intro hwf.cachePtr),
      if_neg (show ¬ d.free_objects_number = c.objects_per_slab by omega),
      if_neg (show ¬ d.free_objects_number + 1 = 1 by omega)]
    simp only [if_neg
      (show ¬ d.free_objects_number + 1 = c.objects_per_slab by omega)]
    rfl
  · have hd1wf : SlabWFd c me b (ghostErase g p) (freeSlabRecord d p) := by
      refine ⟨hwf.cachePtr, hwf.slabPtr, ?_, ?_, ?_, hwf.sPos, hwf.sAligned,
        hwf.sBound, hwf.siaPos, hwf.siaAligned, hwf.siaSmall, ?_⟩
      · show d.free_objects_number + 1 = (d.free_objects_list ++ [p]).length
        simp [hcount]
      · show ((d.free_objects_list ++ [p]) ++ g.allocated.erase p).Perm
          (objectAddrs g.s c.object_size c.objects_per_slab)
        refine List.Perm.trans ?_ hwf.partition
        rw [List.append_assoc]
        refine List.Perm.append_left _ ?_
        simpa using (List.perm_cons_erase hp).symm
      · show 1 ≤ (g.allocated.erase p).length
        omega
      · intro hcfg q hq
        exact hwf.savedSia hcfg q (List.mem_of_mem_erase hq)
    refine ⟨?_, ?_, ?_, ?_, ?_, ?_, ?_, ?_, ?_, ?_, ?_, ?_, ?_, ?_, ?_, ?_,
      ?_, ?_⟩
    · refine CacheWF_config ?_ ?_ ?_ ?_ ?_ ?_ hWF <;> rfl
    · intro gg hgg
      rcases List.mem_append.mp hgg with hgg1 | hgg2
      · obtain ⟨dd, hdd, hwfdd⟩ := hInv.slabs gg (List.mem_append_left _ hgg1)
        have hne : gg.sia ≠ g.sia := ghost_sia_ne_of_nodup hnd gg (Or.inl hgg1)
        exact ⟨dd, by rw [alookup_ainsert_ne _ _ hne]; exact hdd,
          by refine SlabWFd_config ?_ ?_ ?_ ?_ ?_ hwfdd <;> rfl⟩
      · rcases List.mem_cons.mp hgg2 with rfl | hgg2'
        · exact ⟨freeSlabRecord d p,
            alookup_ainsert_self h g.sia (freeSlabRecord d p),
            by refine SlabWFd_config ?_ ?_ ?_ ?_ ?_ hd1wf <;> rfl⟩
        · obtain ⟨dd, hdd, hwfdd⟩ := hInv.slabs gg
            (List.mem_append_right _ (List.mem_cons_of_mem _ hgg2'))
          have hne : gg.sia ≠ g.sia :=
            ghost_sia_ne_of_nodup hnd gg (Or.inr hgg2')
          exact ⟨dd, by rw [alookup_ainsert_ne _ _ hne]; exact hdd,
            by refine SlabWFd_config ?_ ?_ ?_ ?_ ?_ hwfdd <;> rfl⟩
    · exact hnd'
    · show ((gs1 ++ ghostErase g p :: gs2).map GhostSlab.s).Pairwise
        (fun a b => a + c.slab_size ≤ b ∨ b + c.slab_size ≤ a)
      rw [ghost_map_eq g (ghostErase g p) GhostSlab.s rfl]
      exact hInv.regions
    · exact hInv.freeNodup
    · exact hInv.fullNodup
    · exact hInv.listsDisj
    · show ∀ x, x ∈ c.free_slabs_list ↔
        ∃ gg ∈ gs1 ++ ghostErase g p :: gs2, gg.sia = x ∧
          gg.allocated.length < c.objects_per_slab
      intro x
      by_cases hx : x = g.sia
      · subst hx
        constructor
        · intro _
          refine ⟨ghostErase g p,
            List.mem_append_right _ (List.mem_cons_self _ _), rfl, ?_⟩
          show (g.allocated.erase p).length < c.objects_per_slab
          omega
        · intro _
          exact (hInv.freeMem g.sia).mpr
            ⟨g, List.mem_append_right _ (List.mem_cons_self _ _), rfl, hLn⟩
      · rw [hInv.freeMem x]
        exact (exists_ghost_drop
            (fun gg => gg.allocated.length < c.objects_per_slab) hx).trans
          (exists_ghost_ne (show (ghostErase g p).sia = g.sia from rfl)
            (fun gg => gg.allocated.length < c.objects_per_slab) hx).symm
    · show ∀ x, x ∈ c.full_slabs_list ↔
        ∃ gg ∈ gs1 ++ ghostErase g p :: gs2, gg.sia = x ∧
          gg.allocated.length = c.objects_per_slab
      intro x
      by_cases hx : x = g.sia
      · subst hx
        constructor
        · intro hmem
          have hPg := (exists_ghost_self hnd
              (fun gg => gg.allocated.length = c.objects_per_slab)).mp
            ((hInv.fullMem g.sia).mp hmem)
          exact absurd hPg (by omega)
        · intro hex
          have hP := (exists_ghost_self hnd'
              (fun gg => gg.allocated.length = c.objects_per_slab)).mp hex
          have hP' : (g.allocated.erase p).length = c.objects_per_slab := hP
          exact absurd hP' (by omega)
      · rw [hInv.fullMem x]
        exact (exists_ghost_drop
            (fun gg => gg.allocated.length = c.objects_per_slab) hx).trans
          (exists_ghost_ne (show (ghostErase g p).sia = g.sia from rfl)
            (fun gg => gg.allocated.length = c.objects_per_slab) hx).symm
    · show c.free_slabs_list.length + c.full_slabs_list.length =
        (gs1 ++ ghostErase g p :: gs2).length
      have hL := hInv.listsLen
      simp only [List.length_append, List.length_cons] at hL ⊢
      omega
    · exact hInv.statFree
    · exact hInv.statFull
    · show c.statistics.free_objects_number + 1 =
        ((gs1 ++ ghostErase g p :: gs2).map
          (fun gg => c.objects_per_slab - gg.allocated.length)).sum
      have hS := hInv.statFreeObj
      simp only [List.map_append, List.map_cons, List.sum_append,
        List.sum_cons, ghostErase] at hS ⊢
      omega
    · show c.statistics.allocated_objects_number - 1 =
        ((gs1 ++ ghostErase g p :: gs2).map
          (fun gg => gg.allocated.length)).sum
      have hS := hInv.statAlloc
      simp only [List.map_append, List.map_cons, List.sum_append,
        List.sum_cons, ghostErase] at hS ⊢
      omega
    · show b.alloc_slab_log.Perm (b.free_slab_log ++
        (gs1 ++ ghostErase g p :: gs2).map
          (fun gg => (gg.s, c.slab_size, c.page_size)))
      rw [ghost_map_eq g (ghostErase g p)
        (fun gg => (gg.s, c.slab_size, c.page_size)) rfl]
      exact hInv.slabLog
    · show b.alloc_slab_info_log.Perm (b.free_slab_info_log ++
        (if c.object_size_type = .Large then
          (gs1 ++ ghostErase g p :: gs2).map GhostSlab.sia else []))
      rw [ghost_map_eq g (ghostErase g p) GhostSlab.sia rfl]
      exact hInv.infoLog
    · exact hInv.smallNoInfo
    · refine SupplyWF_congr ?_ ?_ ?_ rfl rfl
        (ghost_map_eq g (ghostErase g p) GhostSlab.s rfl)
        (ghost_map_eq g (ghostErase g p) GhostSlab.sia rfl) hInv.supply <;> rfl

/-- The cache after a `free` that moves the slab from the full list to the
front of the free list. -/
def freeFullCache (c : Cache) (sia : Nat) : Cache :=
  { c with
    free_slabs_list := sia :: c.free_slabs_list
    full_slabs_list := c.full_slabs_list.erase sia
    statistics :=
      { free_slabs_number := c.statistics.free_slabs_number + 1
        full_slabs_number := c.statistics.full_slabs_number - 1
        free_objects_number := c.statistics.free_objects_number + 1
        allocated_objects_number := c.statistics.allocated_objects_number - 1 } }

/-- Freeing an object of a currently full slab that still keeps at least one
allocated object preserves the invariant: the slab moves from the full list
to the front of the free list. -/
theorem free_preserves_full {c : Cache} {me : Nat} {h : SlabHeap}
    {b : MemoryBackend} {gs1 gs2 : List GhostSlab} {g : GhostSlab}
    {d : SlabInfoData} {p : Nat}
    (hInv : Inv c me h b (gs1 ++ g :: gs2))
    (hd : alookup h g.sia = some d)
    (hwf : SlabWFd c me b g d)
    (hp : p ∈ g.allocated)
    (hL2 : 2 ≤ g.allocated.length)
    (hLn : g.allocated.length = c.objects_per_slab) :
    Cache.free c me h b p = .ok (freeFullCache c g.sia)
        (ainsert h g.sia (freeSlabRecord d p)) b ∧
      Inv (freeFullCache c g.sia) me (ainsert h g.sia (freeSlabRecord d p)) b
        (gs1 ++ ghostErase g p :: gs2) := by
  have hWF := hInv.wf
  have hnd := hInv.siaNodup
  have hpobj : p ∈ objectAddrs g.s c.object_size c.objects_per_slab :=
    hwf.partition.mem_iff.mp (List.mem_append_right _ hp)
  obtain ⟨hp0, hpal, -, -, -⟩ := object_facts hWF hwf.sPos hwf.sAligned hpobj
  have hloc := locate_allocated hWF hd hwf hp
  have hlens : d.free_objects_list.length + g.allocated.length =
      c.objects_per_slab := by
    have h1 := hwf.partition.length_eq
    rw [List.length_append, objectAddrs_length] at h1
    exact h1
  have hcount := hwf.countLen
  have hLe : (g.allocated.erase p).length = g.allocated.length - 1 :=
    List.length_erase_of_mem hp
  have hnd' : ((gs1 ++ ghostErase g p :: gs2).map GhostSlab.sia).Nodup := by
    rw [ghost_map_eq g (ghostErase g p) GhostSlab.sia rfl]
    exact hnd
  have hmemfull : g.sia ∈ c.full_slabs_list :=
    (hInv.fullMem g.sia).mpr
      ⟨g, List.mem_append_right _ (List.mem_cons_self _ _), rfl, hLn⟩
  have hnotfree : g.sia ∉ c.free_slabs_list :=
    fun hmem => hInv.listsDisj _ hmem hmemfull
  constructor
  · simp only [Cache.free, if_neg hp0, if_neg (not_not_intro hpal), hloc, hd]
    rw [if_neg (not_not_intro hwf.cachePtr),
      if_neg (show ¬ d.free_objects_number = c.objects_per_slab by omega),
      if_pos (show d.free_objects_number + 1 = 1 by omega), if_pos hmemfull]
    simp only [if_neg
      (show ¬ d.free_objects_number + 1 = c.objects_per_slab by omega)]
    rfl
  · have hd1wf : SlabWFd c me b (ghostErase g p) (freeSlabRecord d p) := by
      refine ⟨hwf.cachePtr, hwf.slabPtr, ?_, ?_, ?_, hwf.sPos, hwf.sAligned,
        hwf.sBound, hwf.siaPos, hwf.siaAligned, hwf.siaSmall, ?_⟩
      · show d.free_objects_number + 1 = (d.free_objects_list ++ [p]).length
        simp [hcount]
      · show ((d.free_objects_list ++ [p]) ++ g.allocated.erase p).Perm
          (objectAddrs g.s c.object_size c.objects_per_slab)
        refine List.Perm.trans ?_ hwf.partition
        rw [List.append_assoc]
        refine List.Perm.append_left _ ?_
        simpa using (List.perm_cons_erase hp).symm
      · show 1 ≤ (g.allocated.erase p).length
        omega
      · intro hcfg q hq
        exact hwf.savedSia hcfg q (List.mem_of_mem_erase hq)
    refine ⟨?_, ?_, ?_, ?_, ?_, ?_, ?_, ?_, ?_, ?_, ?_, ?_, ?_, ?_, ?_, ?_,
      ?_, ?_⟩
    · refine CacheWF_config ?_ ?_ ?_ ?_ ?_ ?_ hWF <;> rfl
    · intro gg hgg
      rcases List.mem_append.mp hgg with hgg1 | hgg2
      · obtain ⟨dd, hdd, hwfdd⟩ := hInv.slabs gg (List.mem_append_left _ hgg1)
        have hne : gg.sia ≠ g.sia := ghost_sia_ne_of_nodup hnd gg (Or.inl hgg1)
        exact ⟨dd, by rw [alookup_ainsert_ne _ _ hne]; exact hdd,
          by refine SlabWFd_config ?_ ?_ ?_ ?_ ?_ hwfdd <;> rfl⟩
      · rcases List.mem_cons.mp hgg2 with rfl | hgg2'
        · exact ⟨freeSlabRecord d p,
            alookup_ainsert_self h g.sia (freeSlabRecord d p),
            by refine SlabWFd_config ?_ ?_ ?_ ?_ ?_ hd1wf <;> rfl⟩
        · obtain ⟨dd, hdd, hwfdd⟩ := hInv.slabs gg
            (List.mem_append_right _ (List.mem_cons_of_mem _ hgg2'))
          have hne : gg.sia ≠ g.sia :=
            ghost_sia_ne_of_nodup hnd gg (Or.inr hgg2')
          exact ⟨dd, by rw [alookup_ainsert_ne _ _ hne]; exact hdd,
            by refine SlabWFd_config ?_ ?_ ?_ ?_ ?_ hwfdd <;> rfl⟩
    · exact hnd'
    · show ((gs1 ++ ghostErase g p :: gs2).map GhostSlab.s).Pairwise
        (fun a b => a + c.slab_size ≤ b ∨ b + c.slab_size ≤ a)
      rw [ghost_map_eq g (ghostErase g p) GhostSlab.s rfl]
      exact hInv.regions
    · show (g.sia :: c.free_slabs_list).Nodup
      exact List.nodup_cons.mpr ⟨hnotfree, hInv.freeNodup⟩
    · show (c.full_slabs_list.erase g.sia).Nodup
      exact hInv.fullNodup.erase _
    · show ∀ x, x ∈ g.sia :: c.free_slabs_list →
        x ∉ c.full_slabs_list.erase g.sia
      intro x hx hc
      obtain ⟨hne, hfull⟩ := (hInv.fullNodup.mem_erase_iff).mp hc
      rcases List.mem_cons.mp hx with rfl | hfree
      · exact hne rfl
      · exact hInv.listsDisj x hfree hfull
    · show ∀ x, x ∈ g.sia :: c.free_slabs_list ↔
        ∃ gg ∈ gs1 ++ ghostErase g p :: gs2, gg.sia = x ∧
          gg.allocated.length < c.objects_per_slab
      intro x
      by_cases hx : x = g.sia
      · subst hx
        constructor
        · intro _
          refine ⟨ghostErase g p,
            List.mem_append_right _ (List.mem_cons_self _ _), rfl, ?_⟩
          show (g.allocated.erase p).length < c.objects_per_slab
          omega
        · intro _
          exact List.mem_cons_self _ _
      · rw [List.mem_cons, or_iff_right hx, hInv.freeMem x]
        exact (exists_ghost_drop
            (fun gg => gg.allocated.length < c.objects_per_slab) hx).trans
          (exists_ghost_ne (show (ghostErase g p).sia = g.sia from rfl)
            (fun gg => gg.allocated.length < c.objects_per_slab) hx).symm
    · show ∀ x, x ∈ c.full_slabs_list.erase g.sia ↔
        ∃ gg ∈ gs1 ++ ghostErase g p :: gs2, gg.sia = x ∧
          gg.allocated.length = c.objects_per_slab
      intro x
      by_cases hx : x = g.sia
      · subst hx
        constructor
        · intro hc
          exact absurd rfl ((hInv.fullNodup.mem_erase_iff).mp hc).1
        · intro hex
          have hP := (exists_ghost_self hnd'
              (fun gg => gg.allocated.length = c.objects_per_slab)).mp hex
          have hP' : (g.allocated.erase p).length = c.objects_per_slab := hP
          exact absurd hP' (by omega)
      · rw [hInv.fullNodup.mem_erase_iff, and_iff_right hx, hInv.fullMem x]
        exact (exists_ghost_drop
            (fun gg => gg.allocated.length = c.objects_per_slab) hx).trans
          (exists_ghost_ne (show (ghostErase g p).sia = g.sia from rfl)
            (fun gg => gg.allocated.length = c.objects_per_slab) hx).symm
    · show (g.sia :: c.free_slabs_list).length +
        (c.full_slabs_list.erase g.sia).length =
        (gs1 ++ ghostErase g p :: gs2).length
      rw [List.length_cons, List.length_erase_of_mem hmemfull]
      have hL := hInv.listsLen
      have hpos := List.length_pos_of_mem hmemfull
      simp only [List.length_append, List.length_cons] at hL ⊢
      omega
    · show c.statistics.free_slabs_number + 1 =
        (g.sia :: c.free_slabs_list).length
      rw [List.length_cons, hInv.statFree]
    · show c.statistics.full_slabs_number - 1 =
        (c.full_slabs_list.erase g.sia).length
      rw [List.length_erase_of_mem hmemfull, hInv.statFull]
    · show c.statistics.free_objects_number + 1 =
        ((gs1 ++ ghostErase g p :: gs2).map
          (fun gg => c.objects_per_slab - gg.allocated.length)).sum
      have hS := hInv.statFreeObj
      simp only [List.map_append, List.map_cons, List.sum_append,
        List.sum_cons, ghostErase] at hS ⊢
      omega
    · show c.statistics.allocated_objects_number - 1 =
        ((gs1 ++ ghostErase g p :: gs2).map
          (fun gg => gg.allocated.length)).sum
      have hS := hInv.statAlloc
      simp only [List.map_append, List.map_cons, List.sum_append,
        List.sum_cons, ghostErase] at hS ⊢
      omega
    · show b.alloc_slab_log.Perm (b.free_slab_log ++
        (gs1 ++ ghostErase g p :: gs2).map
          (fun gg => (gg.s, c.slab_size, c.page_size)))
      rw [ghost_map_eq g (ghostErase g p)
        (fun gg => (gg.s, c.slab_size, c.page_size)) rfl]
      exact hInv.slabLog
    · show b.alloc_slab_info_log.Perm (b.free_slab_info_log ++
        (if c.object_size_type = .Large then
          (gs1 ++ ghostErase g p :: gs2).map GhostSlab.sia else []))
      rw [ghost_map_eq g (ghostErase g p) GhostSlab.sia rfl]
      exact hInv.infoLog
    · exact hInv.smallNoInfo
    · refine SupplyWF_congr ?_ ?_ ?_ rfl rfl
        (ghost_map_eq g (ghostErase g p) GhostSlab.s rfl)
        (ghost_map_eq g (ghostErase g p) GhostSlab.sia rfl) hInv.supply <;> rfl

/-- The backend after the reclamation block of `free`: `free_slab`, then —
except under (Small ∧ slab_size == page_size) — optionally `free_slab_info`
(Large only) and `delete_slab_info_addr` for every page of the slab. -/
def freeReclaimBackend (c : Cache) (b : MemoryBackend) (slab_addr sia : Nat) :
    MemoryBackend :=
  let b1 := MemoryBackend.free_slab b slab_addr c.slab_size c.page_size
  if ¬ (c.object_size_type = .Small ∧ c.slab_size = c.page_size) then
    deleteSlabPages
      (if c.object_size_type = .Large then MemoryBackend.free_slab_info b1 sia
       else b1)
      slab_addr c.page_size (c.slab_size / c.page_size)
  else b1

theorem freeReclaimBackend_fields (c : Cache) (b : MemoryBackend)
    (sa sia : Nat) :
    (freeReclaimBackend c b sa sia).slab_supply = b.slab_supply ∧
    (freeReclaimBackend c b sa sia).slab_info_supply = b.slab_info_supply ∧
    (freeReclaimBackend c b sa sia).alloc_slab_log = b.alloc_slab_log ∧
    (freeReclaimBackend c b sa sia).free_slab_log =
      b.free_slab_log ++ [(sa, c.slab_size, c.page_size)] ∧
    (freeReclaimBackend c b sa sia).alloc_slab_info_log =
      b.alloc_slab_info_log ∧
    (freeReclaimBackend c b sa sia).free_slab_info_log =
      (if c.object_size_type = .Large then b.free_slab_info_log ++ [sia]
       else b.free_slab_info_log) := by
  simp only [freeReclaimBackend]
  by_cases hcfg : c.object_size_type = .Small ∧ c.slab_size = c.page_size
  · rw [if_neg (not_not_intro hcfg)]
    have hnl : ¬ c.object_size_type = .Large := by
      rw [hcfg.1]
      intro hc
      exact ObjectSizeType.noConfusion hc
    exact ⟨rfl, rfl, rfl, rfl, rfl, by rw [if_neg hnl]; rfl⟩
  · rw [if_pos hcfg]
    by_cases hL : c.object_size_type = .Large
    · rw [if_pos hL, if_pos hL]
      obtain ⟨h1, h2, h3, h4, h5, h6, -, -⟩ := deleteSlabPages_fields
        (MemoryBackend.free_slab_info
          (MemoryBackend.free_slab b sa c.slab_size c.page_size) sia)
        sa c.page_size (c.slab_size / c.page_size)
      exact ⟨h1, h2, h3, by rw [h4]; rfl, h5, by rw [h6]; rfl⟩
    · rw [if_neg hL, if_neg hL]
      obtain ⟨h1, h2, h3, h4, h5, h6, -, -⟩ := deleteSlabPages_fields
        (MemoryBackend.free_slab b sa c.slab_size c.page_size)
        sa c.page_size (c.slab_size / c.page_size)
      exact ⟨h1, h2, h3, by rw [h4]; rfl, h5, by rw [h6]; rfl⟩

/-- Reclaiming a slab leaves the saved page associations of addresses
outside the slab's region untouched. -/
theorem freeReclaimBackend_saved {c : Cache} (hWF : CacheWF c)
    (b : MemoryBackend) {s : Nat} (sia : Nat) {q : Nat}
    (hq : q < s ∨ s + c.slab_size ≤ q) :
    alookup (freeReclaimBackend c b s sia).saved_slab_infos q =
      alookup b.saved_slab_infos q := by
  simp only [freeReclaimBackend]
  by_cases hcfg : c.object_size_type = .Small ∧ c.slab_size = c.page_size
  · rw [if_neg (not_not_intro hcfg)]
    rfl
  · rw [if_pos hcfg]
    have hq' : ∀ i < c.slab_size / c.page_size, q ≠ s + i * c.page_size := by
      intro i hi hqe
      have hsub := @slabPages_subset_region c hWF s (s + i * c.page_size) (by
        simp only [slabPages, List.mem_map, List.mem_range]
        exact ⟨i, hi, rfl⟩)
      omega
    by_cases hL : c.object_size_type = .Large
    · rw [if_pos hL, deleteSlabPages_saved_lookup _ _ _ _ hq']
      rfl
    · rw [if_neg hL, deleteSlabPages_saved_lookup _ _ _ _ hq']
      rfl

theorem region_disjoint_of_pairwise {ss : Nat} {gs1 gs2 : List GhostSlab}
    {g : GhostSlab}
    (hreg : ((gs1 ++ g :: gs2).map GhostSlab.s).Pairwise
      (fun a b => a + ss ≤ b ∨ b + ss ≤ a)) :
    ∀ gg, (gg ∈ gs1 ∨ gg ∈ gs2) →
      g.s + ss ≤ gg.s ∨ gg.s + ss ≤ g.s := by
  rw [List.map_append, List.map_cons, List.pairwise_append] at hreg
  obtain ⟨h1, h2, h3⟩ := hreg
  intro gg hgg
  rcases hgg with hgg | hgg
  · have := h3 gg.s (List.mem_map_of_mem _ hgg) g.s (List.mem_cons_self _ _)
    tauto
  · have := (List.pairwise_cons.mp h2).1 gg.s (List.mem_map_of_mem _ hgg)
    tauto

theorem SupplyWF_shrink {c c' : Cache} {b b' : MemoryBackend}
    {gs1 gs2 : List GhostSlab} {g : GhostSlab}
    (hss : c'.slab_size = c.slab_size) (hps : c'.page_size = c.page_size)
    (hty : c'.object_size_type = c.object_size_type)
    (hsupeq : b'.slab_supply = b.slab_supply)
    (hinfoeq : b'.slab_info_supply = b.slab_info_supply)
    (hsup : SupplyWF c b (gs1 ++ g :: gs2)) : SupplyWF c' b' (gs1 ++ gs2) := by
  refine ⟨?_, ?_, ?_, ?_⟩
  · intro a ha ha0
    rw [hsupeq] at ha
    obtain ⟨h1, h2, h3⟩ := hsup.slabs a ha ha0
    refine ⟨by rw [hps]; exact h1, by rw [hss]; exact h2, ?_⟩
    intro s' hs'
    rw [hss]
    refine h3 s' ?_
    simp only [List.map_append, List.map_cons] at hs' ⊢
    rcases List.mem_append.mp hs' with hm | hm
    · exact List.mem_append_left _ hm
    · exact List.mem_append_right _ (List.mem_cons_of_mem _ hm)
  · rw [hsupeq]
    simp only [hss]
    exact hsup.slabsPairwise
  · intro hL q hq hq0
    rw [hinfoeq] at hq
    obtain ⟨h1, h2⟩ := hsup.infos (by rw [← hty]; exact hL) q hq hq0
    refine ⟨h1, ?_⟩
    intro hc
    refine h2 ?_
    simp only [List.map_append, List.map_cons] at hc ⊢
    rcases List.mem_append.mp hc with hm | hm
    · exact List.mem_append_left _ hm
    · exact List.mem_append_right _ (List.mem_cons_of_mem _ hm)
  · rw [hinfoeq]
    exact hsup.infosPairwise

/-- The cache after a `free` that reclaims a slab taken from the free list. -/
def freeReclaimCache (c : Cache) (sia : Nat) : Cache :=
  { c with
    free_slabs_list := c.free_slabs_list.erase sia
    statistics :=
      { free_slabs_number := c.statistics.free_slabs_number - 1
        full_slabs_number := c.statistics.full_slabs_number
        free_objects_number :=
          c.statistics.free_objects_number + 1 - c.objects_per_slab
        allocated_objects_number :=
          c.statistics.allocated_objects_number - 1 } }

/-- Freeing the last allocated object of a slab with at least two object
slots reclaims the slab from the free list and preserves the invariant with
the slab dropped from the ghost list. -/
theorem free_preserves_reclaim {c : Cache} {me : Nat} {h : SlabHeap}
    {b : MemoryBackend} {gs1 gs2 : List GhostSlab} {g : GhostSlab}
    {d : SlabInfoData} {p : Nat}
    (hInv : Inv c me h b (gs1 ++ g :: gs2))
    (hd : alookup h g.sia = some d)
    (hwf : SlabWFd c me b g d)
    (hp : p ∈ g.allocated)
    (hL1 : g.allocated.length = 1)
    (hn2 : 2 ≤ c.objects_per_slab) :
    Cache.free c me h b p = .ok (freeReclaimCache c g.sia)
        (ainsert h g.sia (freeSlabRecord d p))
        (freeReclaimBackend c b g.s g.sia) ∧
      Inv (freeReclaimCache c g.sia) me
        (ainsert h g.sia (freeSlabRecord d p))
        (freeReclaimBackend c b g.s g.sia) (gs1 ++ gs2) := by
  have hWF := hInv.wf
  have hnd := hInv.siaNodup
  have hpobj : p ∈ objectAddrs g.s c.object_size c.objects_per_slab :=
    hwf.partition.mem_iff.mp (List.mem_append_right _ hp)
  obtain ⟨hp0, hpal, -, -, -⟩ := object_facts hWF hwf.sPos hwf.sAligned hpobj
  have hloc := locate_allocated hWF hd hwf hp
  have hlens : d.free_objects_list.length + g.allocated.length =
      c.objects_per_slab := by
    have h1 := hwf.partition.length_eq
    rw [List.length_append, objectAddrs_length] at h1
    exact h1
  have hcount := hwf.countLen
  have hmemfree : g.sia ∈ c.free_slabs_list :=
    (hInv.freeMem g.sia).mpr
      ⟨g, List.mem_append_right _ (List.mem_cons_self _ _), rfl, by omega⟩
  have hsub : ((gs1 ++ gs2).map GhostSlab.sia).Sublist
      ((gs1 ++ g :: gs2).map GhostSlab.sia) := by
    simp only [List.map_append, List.map_cons]
    exact List.Sublist.append_left (List.sublist_cons_self _ _) _
  have hsubs : ((gs1 ++ gs2).map GhostSlab.s).Sublist
      ((gs1 ++ g :: gs2).map GhostSlab.s) := by
    simp only [List.map_append, List.map_cons]
    exact List.Sublist.append_left (List.sublist_cons_self _ _) _
  have hdisj := region_disjoint_of_pairwise hInv.regions
  constructor
  · simp only [Cache.free, if_neg hp0, if_neg (not_not_intro hpal), hloc, hd]
    rw [if_neg (not_not_intro hwf.cachePtr),
      if_neg (show ¬ d.free_objects_number = c.objects_per_slab by omega),
      if_neg (show ¬ d.free_objects_number + 1 = 1 by omega)]
    simp only [if_pos
      (show d.free_objects_number + 1 = c.objects_per_slab by omega),
      if_pos hmemfree]
    rfl
  · -- saved-association preservation for the surviving slabs
    have hsaved : ∀ gg, (gg ∈ gs1 ∨ gg ∈ gs2) → ∀ dd, SlabWFd c me b gg dd →
        ∀ q ∈ gg.allocated,
          alookup (freeReclaimBackend c b g.s g.sia).saved_slab_infos
              (align_down q c.page_size) =
            alookup b.saved_slab_infos (align_down q c.page_size) := by
      intro gg hgg dd hwfdd q hq
      have hqobj : q ∈ objectAddrs gg.s c.object_size c.objects_per_slab :=
        hwfdd.partition.mem_iff.mp (List.mem_append_right _ hq)
      obtain ⟨j, hj, hqeq⟩ := mem_objectAddrs.mp hqobj
      obtain ⟨-, -, -, -, hoff⟩ :=
        object_facts hWF hwfdd.sPos hwfdd.sAligned hqobj
      have hx : j * c.object_size < c.slab_size := by omega
      have had := align_down_in_slab hWF hwfdd.sAligned hwfdd.sBound hx
      refine freeReclaimBackend_saved hWF b g.sia ?_
      rw [hqeq]
      rcases hdisj gg hgg with hd1 | hd2
      · right
        omega
      · left
        omega
    refine ⟨?_, ?_, ?_, ?_, ?_, ?_, ?_, ?_, ?_, ?_, ?_, ?_, ?_, ?_, ?_, ?_,
      ?_, ?_⟩
    · refine CacheWF_config ?_ ?_ ?_ ?_ ?_ ?_ hWF <;> rfl
    · intro gg hgg
      rcases List.mem_append.mp hgg with hgg1 | hgg2
      · obtain ⟨dd, hdd, hwfdd⟩ := hInv.slabs gg (List.mem_append_left _ hgg1)
        have hne : gg.sia ≠ g.sia := ghost_sia_ne_of_nodup hnd gg (Or.inl hgg1)
        refine ⟨dd, by rw [alookup_ainsert_ne _ _ hne]; exact hdd, ?_⟩
        refine SlabWFd_config ?_ ?_ ?_ ?_ ?_
          (SlabWFd_backend (hsaved gg (Or.inl hgg1) dd hwfdd) hwfdd) <;> rfl
      · obtain ⟨dd, hdd, hwfdd⟩ := hInv.slabs gg
          (List.mem_append_right _ (List.mem_cons_of_mem _ hgg2))
        have hne : gg.sia ≠ g.sia := ghost_sia_ne_of_nodup hnd gg (Or.inr hgg2)
        refine ⟨dd, by rw [alookup_ainsert_ne _ _ hne]; exact hdd, ?_⟩
        refine SlabWFd_config ?_ ?_ ?_ ?_ ?_
          (SlabWFd_backend (hsaved gg (Or.inr hgg2) dd hwfdd) hwfdd) <;> rfl
    · exact hnd.sublist hsub
    · show ((gs1 ++ gs2).map GhostSlab.s).Pairwise
        (fun a b => a + c.slab_size ≤ b ∨ b + c.slab_size ≤ a)
      exact hInv.regions.sublist hsubs
    · show (c.free_slabs_list.erase g.sia).Nodup
      exact hInv.freeNodup.erase _
    · exact hInv.fullNodup
    · show ∀ x, x ∈ c.free_slabs_list.erase g.sia → x ∉ c.full_slabs_list
      intro x hx
      exact hInv.listsDisj x (List.mem_of_mem_erase hx)
    · show ∀ x, x ∈ c.free_slabs_list.erase g.sia ↔
        ∃ gg ∈ gs1 ++ gs2, gg.sia = x ∧
          gg.allocated.length < c.objects_per_slab
      intro x
      by_cases hx : x = g.sia
      · subst hx
        constructor
        · intro hc
          exact absurd rfl ((hInv.freeNodup.mem_erase_iff).mp hc).1
        · rintro ⟨gg, hmem, hgx, -⟩
          rcases List.mem_append.mp hmem with hm | hm
          · exact absurd hgx (ghost_sia_ne_of_nodup hnd gg (Or.inl hm))
          · exact absurd hgx (ghost_sia_ne_of_nodup hnd gg (Or.inr hm))
      · rw [hInv.freeNodup.mem_erase_iff, and_iff_right hx, hInv.freeMem x]
        exact exists_ghost_drop
          (fun gg => gg.allocated.length < c.objects_per_slab) hx
    · show ∀ x, x ∈ c.full_slabs_list ↔
        ∃ gg ∈ gs1 ++ gs2, gg.sia = x ∧
          gg.allocated.length = c.objects_per_slab
      intro x
      by_cases hx : x = g.sia
      · subst hx
        constructor
        · intro hc
          exact absurd hc (hInv.listsDisj _ hmemfree)
        · rintro ⟨gg, hmem, hgx, -⟩
          rcases List.mem_append.mp hmem with hm | hm
          · exact absurd hgx (ghost_sia_ne_of_nodup hnd gg (Or.inl hm))
          · exact absurd hgx (ghost_sia_ne_of_nodup hnd gg (Or.inr hm))
      · rw [hInv.fullMem x]
        exact exists_ghost_drop
          (fun gg => gg.allocated.length = c.objects_per_slab) hx
    · show (c.free_slabs_list.erase g.sia).length + c.full_slabs_list.length =
        (gs1 ++ gs2).length
      rw [List.length_erase_of_mem hmemfree]
      have hL := hInv.listsLen
      have hpos := List.length_pos_of_mem hmemfree
      simp only [List.length_append, List.length_cons] at hL ⊢
      omega
    · show c.statistics.free_slabs_number - 1 =
        (c.free_slabs_list.erase g.sia).length
      rw [List.length_erase_of_mem hmemfree, hInv.statFree]
    · exact hInv.statFull
    · show c.statistics.free_objects_number + 1 - c.objects_per_slab =
        ((gs1 ++ gs2).map
          (fun gg => c.objects_per_slab - gg.allocated.length)).sum
      have hS := hInv.statFreeObj
      simp only [List.map_append, List.map_cons, List.sum_append,
        List.sum_cons] at hS ⊢
      omega
    · show c.statistics.allocated_objects_number - 1 =
        ((gs1 ++ gs2).map (fun gg => gg.allocated.length)).sum
      have hS := hInv.statAlloc
      simp only [List.map_append, List.map_cons, List.sum_append,
        List.sum_cons] at hS ⊢
      omega
    · show (freeReclaimBackend c b g.s g.sia).alloc_slab_log.Perm
        ((freeReclaimBackend c b g.s g.sia).free_slab_log ++
          (gs1 ++ gs2).map (fun gg => (gg.s, c.slab_size, c.page_size)))
      obtain ⟨-, -, ha, hf, -, -⟩ := freeReclaimBackend_fields c b g.s g.sia
      rw [ha, hf]
      have hstart := hInv.slabLog
      simp only [List.map_append, List.map_cons] at hstart
      have hmv := perm_log_move (g.s, c.slab_size, c.page_size)
        (gs1.map (fun gg => (gg.s, c.slab_size, c.page_size)))
        (gs2.map (fun gg => (gg.s, c.slab_size, c.page_size))) hstart
      simp only [List.map_append]
      exact hmv
    · show (freeReclaimBackend c b g.s g.sia).alloc_slab_info_log.Perm
        ((freeReclaimBackend c b g.s g.sia).free_slab_info_log ++
          (if c.object_size_type = .Large then
            (gs1 ++ gs2).map GhostSlab.sia else []))
      obtain ⟨-, -, -, -, hai, hfi⟩ := freeReclaimBackend_fields c b g.s g.sia
      rw [hai, hfi]
      have hstart := hInv.infoLog
      by_cases hL : c.object_size_type = .Large
      · rw [if_pos hL] at hstart ⊢
        rw [if_pos hL]
        simp only [List.map_append, List.map_cons] at hstart
        have hmv := perm_log_move g.sia (gs1.map GhostSlab.sia)
          (gs2.map GhostSlab.sia) hstart
        simp only [List.map_append]
        exact hmv
      · rw [if_neg hL] at hstart ⊢
        rw [if_neg hL]
        exact hstart
    · intro hS
      obtain ⟨-, -, -, -, hai, hfi⟩ := freeReclaimBackend_fields c b g.s g.sia
      have hS' : c.object_size_type = .Small := hS
      have hnl : ¬ c.object_size_type = .Large := by
        rw [hS']
        intro hc
        exact ObjectSizeType.noConfusion hc
      obtain ⟨h1, h2⟩ := hInv.smallNoInfo hS'
      refine ⟨by rw [hai]; exact h1, ?_⟩
      rw [hfi, if_neg hnl]
      exact h2
    · obtain ⟨hs1, hs2, -, -, -, -⟩ := freeReclaimBackend_fields c b g.s g.sia
      refine SupplyWF_shrink ?_ ?_ ?_ hs1 hs2 hInv.supply <;> rfl

/-- The cache after a `free` that moves a one-object slab from the full list
to the free list and reclaims it within the same call. -/
def freeLastCache (c : Cache) (sia : Nat) : Cache :=
  { c with
    free_slabs_list := (sia :: c.free_slabs_list).erase sia
    full_slabs_list := c.full_slabs_list.erase sia
    statistics :=
      { free_slabs_number := c.statistics.free_slabs_number + 1 - 1
        full_slabs_number := c.statistics.full_slabs_number - 1
        free_objects_number :=
          c.statistics.free_objects_number + 1 - c.objects_per_slab
        allocated_objects_number :=
          c.statistics.allocated_objects_number - 1 } }

/-- Freeing the only object of a full one-object slab moves the slab from
the full list into the free list and reclaims it within the same call,
preserving the invariant with the slab dropped from the ghost list. -/
theorem free_preserves_last {c : Cache} {me : Nat} {h : SlabHeap}
    {b : MemoryBackend} {gs1 gs2 : List GhostSlab} {g : GhostSlab}
    {d : SlabInfoData} {p : Nat}
    (hInv : Inv c me h b (gs1 ++ g :: gs2))
    (hd : alookup h g.sia = some d)
    (hwf : SlabWFd c me b g d)
    (hp : p ∈ g.allocated)
    (hL1 : g.allocated.length = 1)
    (hn1 : c.objects_per_slab = 1) :
    Cache.free c me h b p = .ok (freeLastCache c g.sia)
        (ainsert h g.sia (freeSlabRecord d p))
        (freeReclaimBackend c b g.s g.sia) ∧
      Inv (freeLastCache c g.sia) me
        (ainsert h g.sia (freeSlabRecord d p))
        (freeReclaimBackend c b g.s g.sia) (gs1 ++ gs2) := by
  have hWF := hInv.wf
  have hnd := hInv.siaNodup
  have hpobj : p ∈ objectAddrs g.s c.object_size c.objects_per_slab :=
    hwf.partition.mem_iff.mp (List.mem_append_right _ hp)
  obtain ⟨hp0, hpal, -, -, -⟩ := object_facts hWF hwf.sPos hwf.sAligned hpobj
  have hloc := locate_allocated hWF hd hwf hp
  have hlens : d.free_objects_list.length + g.allocated.length =
      c.objects_per_slab := by
    have h1 := hwf.partition.length_eq
    rw [List.length_append, objectAddrs_length] at h1
    exact h1
  have hcount := hwf.countLen
  have hmemfull : g.sia ∈ c.full_slabs_list :=
    (hInv.fullMem g.sia).mpr
      ⟨g, List.mem_append_right _ (List.mem_cons_self _ _), rfl, by omega⟩
  have hnotfree : g.sia ∉ c.free_slabs_list :=
    fun hmem => hInv.listsDisj _ hmem hmemfull
  have hsub : ((gs1 ++ gs2).map GhostSlab.sia).Sublist
      ((gs1 ++ g :: gs2).map GhostSlab.sia) := by
    simp only [List.map_append, List.map_cons]
    exact List.Sublist.append_left (List.sublist_cons_self _ _) _
  have hsubs : ((gs1 ++ gs2).map GhostSlab.s).Sublist
      ((gs1 ++ g :: gs2).map GhostSlab.s) := by
    simp only [List.map_append, List.map_cons]
    exact List.Sublist.append_left (List.sublist_cons_self _ _) _
  have hdisj := region_disjoint_of_pairwise hInv.regions
  constructor
  · simp only [Cache.free, if_neg hp0, if_neg (not_not_intro hpal), hloc, hd]
    rw [if_neg (not_not_intro hwf.cachePtr),
      if_neg (show ¬ d.free_objects_number = c.objects_per_slab by omega),
      if_pos (show d.free_objects_number + 1 = 1 by omega), if_pos hmemfull]
    simp only [if_pos
      (show d.free_objects_number + 1 = c.objects_per_slab by omega),
      if_pos (List.mem_cons_self g.sia c.free_slabs_list)]
    rfl
  · have hsaved : ∀ gg, (gg ∈ gs1 ∨ gg ∈ gs2) → ∀ dd, SlabWFd c me b gg dd →
        ∀ q ∈ gg.allocated,
          alookup (freeReclaimBackend c b g.s g.sia).saved_slab_infos
              (align_down q c.page_size) =
            alookup b.saved_slab_infos (align_down q c.page_size) := by
      intro gg hgg dd hwfdd q hq
      have hqobj : q ∈ objectAddrs gg.s c.object_size c.objects_per_slab :=
        hwfdd.partition.mem_iff.mp (List.mem_append_right _ hq)
      obtain ⟨j, hj, hqeq⟩ := mem_objectAddrs.mp hqobj
      obtain ⟨-, -, -, -, hoff⟩ :=
        object_facts hWF hwfdd.sPos hwfdd.sAligned hqobj
      have hx : j * c.object_size < c.slab_size := by omega
      have had := align_down_in_slab hWF hwfdd.sAligned hwfdd.sBound hx
      refine freeReclaimBackend_saved hWF b g.sia ?_
      rw [hqeq]
      rcases hdisj gg hgg with hd1 | hd2
      · right
        omega
      · left
        omega
    refine ⟨?_, ?_, ?_, ?_, ?_, ?_, ?_, ?_, ?_, ?_, ?_, ?_, ?_, ?_, ?_, ?_,
      ?_, ?_⟩
    · refine CacheWF_config ?_ ?_ ?_ ?_ ?_ ?_ hWF <;> rfl
    · intro gg hgg
      rcases List.mem_append.mp hgg with hgg1 | hgg2
      · obtain ⟨dd, hdd, hwfdd⟩ := hInv.slabs gg (List.mem_append_left _ hgg1)
        have hne : gg.sia ≠ g.sia := ghost_sia_ne_of_nodup hnd gg (Or.inl hgg1)
        refine ⟨dd, by rw [alookup_ainsert_ne _ _ hne]; exact hdd, ?_⟩
        refine SlabWFd_config ?_ ?_ ?_ ?_ ?_
          (SlabWFd_backend (hsaved gg (Or.inl hgg1) dd hwfdd) hwfdd) <;> rfl
      · obtain ⟨dd, hdd, hwfdd⟩ := hInv.slabs gg
          (List.mem_append_right _ (List.mem_cons_of_mem _ hgg2))
        have hne : gg.sia ≠ g.sia := ghost_sia_ne_of_nodup hnd gg (Or.inr hgg2)
        refine ⟨dd, by rw [alookup_ainsert_ne _ _ hne]; exact hdd, ?_⟩
        refine SlabWFd_config ?_ ?_ ?_ ?_ ?_
          (SlabWFd_backend (hsaved gg (Or.inr hgg2) dd hwfdd) hwfdd) <;> rfl
    · exact hnd.sublist hsub
    · show ((gs1 ++ gs2).map GhostSlab.s).Pairwise
        (fun a b => a + c.slab_size ≤ b ∨ b + c.slab_size ≤ a)
      exact hInv.regions.sublist hsubs
    · show ((g.sia :: c.free_slabs_list).erase g.sia).Nodup
      rw [List.erase_cons_head]
      exact hInv.freeNodup
    · show (c.full_slabs_list.erase g.sia).Nodup
      exact hInv.fullNodup.erase _
    · show ∀ x, x ∈ (g.sia :: c.free_slabs_list).erase g.sia →
        x ∉ c.full_slabs_list.erase g.sia
      intro x hx hc
      rw [List.erase_cons_head] at hx
      exact hInv.listsDisj x hx (List.mem_of_mem_erase hc)
    · show ∀ x, x ∈ (g.sia :: c.free_slabs_list).erase g.sia ↔
        ∃ gg ∈ gs1 ++ gs2, gg.sia = x ∧
          gg.allocated.length < c.objects_per_slab
      intro x
      rw [List.erase_cons_head]
      by_cases hx : x = g.sia
      · subst hx
        constructor
        · intro hc
          exact absurd hc hnotfree
        · rintro ⟨gg, hmem, hgx, -⟩
          rcases List.mem_append.mp hmem with hm | hm
          · exact absurd hgx (ghost_sia_ne_of_nodup hnd gg (Or.inl hm))
          · exact absurd hgx (ghost_sia_ne_of_nodup hnd gg (Or.inr hm))
      · rw [hInv.freeMem x]
        exact exists_ghost_drop
          (fun gg => gg.allocated.length < c.objects_per_slab) hx
    · show ∀ x, x ∈ c.full_slabs_list.erase g.sia ↔
        ∃ gg ∈ gs1 ++ gs2, gg.sia = x ∧
          gg.allocated.length = c.objects_per_slab
      intro x
      by_cases hx : x = g.sia
      · subst hx
        constructor
        · intro hc
          exact absurd rfl ((hInv.fullNodup.mem_erase_iff).mp hc).1
        · rintro ⟨gg, hmem, hgx, -⟩
          rcases List.mem_append.mp hmem with hm | hm
          · exact absurd hgx (ghost_sia_ne_of_nodup hnd gg (Or.inl hm))
          · exact absurd hgx (ghost_sia_ne_of_nodup hnd gg (Or.inr hm))
      · rw [hInv.fullNodup.mem_erase_iff, and_iff_right hx, hInv.fullMem x]
        exact exists_ghost_drop
          (fun gg => gg.allocated.length = c.objects_per_slab) hx
    · show ((g.sia :: c.free_slabs_list).erase g.sia).length +
        (c.full_slabs_list.erase g.sia).length = (gs1 ++ gs2).length
      rw [List.erase_cons_head, List.length_erase_of_mem hmemfull]
      have hL := hInv.listsLen
      have hpos := List.length_pos_of_mem hmemfull
      simp only [List.length_append, List.length_cons] at hL ⊢
      omega
    · show c.statistics.free_slabs_number + 1 - 1 =
        ((g.sia :: c.free_slabs_list).erase g.sia).length
      rw [List.erase_cons_head]
      have := hInv.statFree
      omega
    · show c.statistics.full_slabs_number - 1 =
        (c.full_slabs_list.erase g.sia).length
      rw [List.length_erase_of_mem hmemfull, hInv.statFull]
    · show c.statistics.free_objects_number + 1 - c.objects_per_slab =
        ((gs1 ++ gs2).map
          (fun gg => c.objects_per_slab - gg.allocated.length)).sum
      have hS := hInv.statFreeObj
      simp only [List.map_append, List.map_cons, List.sum_append,
        List.sum_cons] at hS ⊢
      omega
    · show c.statistics.allocated_objects_number - 1 =
        ((gs1 ++ gs2).map (fun gg => gg.allocated.length)).sum
      have hS := hInv.statAlloc
      simp only [List.map_append, List.map_cons, List.sum_append,
        List.sum_cons] at hS ⊢
      omega
    · show (freeReclaimBackend c b g.s g.sia).alloc_slab_log.Perm
        ((freeReclaimBackend c b g.s g.sia).free_slab_log ++
          (gs1 ++ gs2).map (fun gg => (gg.s, c.slab_size, c.page_size)))
      obtain ⟨-, -, ha, hf, -, -⟩ := freeReclaimBackend_fields c b g.s g.sia
      rw [ha, hf]
      have hstart := hInv.slabLog
      simp only [List.map_append, List.map_cons] at hstart
      have hmv := perm_log_move (g.s, c.slab_size, c.page_size)
        (gs1.map (fun gg => (gg.s, c.slab_size, c.page_size)))
        (gs2.map (fun gg => (gg.s, c.slab_size, c.page_size))) hstart
      simp only [List.map_append]
      exact hmv
    · show (freeReclaimBackend c b g.s g.sia).alloc_slab_info_log.Perm
        ((freeReclaimBackend c b g.s g.sia).free_slab_info_log ++
          (if c.object_size_type = .Large then
            (gs1 ++ gs2).map GhostSlab.sia else []))
      obtain ⟨-, -, -, -, hai, hfi⟩ := freeReclaimBackend_fields c b g.s g.sia
      rw [hai, hfi]
      have hstart := hInv.infoLog
      by_cases hL : c.object_size_type = .Large
      · rw [if_pos hL] at hstart ⊢
        rw [if_pos hL]
        simp only [List.map_append, List.map_cons] at hstart
        have hmv := perm_log_move g.sia (gs1.map GhostSlab.sia)
          (gs2.map GhostSlab.sia) hstart
        simp only [List.map_append]
        exact hmv
      · rw [if_neg hL] at hstart ⊢
        rw [if_neg hL]
        exact hstart
    · intro hS
      obtain ⟨-, -, -, -, hai, hfi⟩ := freeReclaimBackend_fields c b g.s g.sia
      have hS' : c.object_size_type = .Small := hS
      have hnl : ¬ c.object_size_type = .Large := by
        rw [hS']
        intro hc
        exact ObjectSizeType.noConfusion hc
      obtain ⟨h1, h2⟩ := hInv.smallNoInfo hS'
      refine ⟨by rw [hai]; exact h1, ?_⟩
      rw [hfi, if_neg hnl]
      exact h2
    · obtain ⟨hs1, hs2, -, -, -, -⟩ := freeReclaimBackend_fields c b g.s g.sia
      refine SupplyWF_shrink ?_ ?_ ?_ hs1 hs2 hInv.supply <;> rfl

/-- Preservation of the invariant by `free`, all cases combined: freeing any
currently allocated object succeeds; the slab's ghost either loses the freed
object or — when it was the last allocated one — disappears. -/
theorem free_preserves {c : Cache} {me : Nat} {h : SlabHeap}
    {b : MemoryBackend} {gs1 gs2 : List GhostSlab} {g : GhostSlab} {p : Nat}
    (hInv : Inv c me h b (gs1 ++ g :: gs2)) (hp : p ∈ g.allocated) :
    (2 ≤ g.allocated.length →
      ∃ c' h' b', Cache.free c me h b p = .ok c' h' b' ∧
        Inv c' me h' b' (gs1 ++ ghostErase g p :: gs2)) ∧
    (g.allocated.length = 1 →
      ∃ c' h' b', Cache.free c me h b p = .ok c' h' b' ∧
        Inv c' me h' b' (gs1 ++ gs2)) := by
  obtain ⟨d, hd, hwf⟩ :=
    hInv.slabs g (List.mem_append_right _ (List.mem_cons_self _ _))
  have hlens : d.free_objects_list.length + g.allocated.length =
      c.objects_per_slab := by
    have h1 := hwf.partition.length_eq
    rw [List.length_append, objectAddrs_length] at h1
    exact h1
  have hnpos := hInv.wf.n_pos
  constructor
  · intro hL2
    rcases Nat.lt_or_ge g.allocated.length c.objects_per_slab with hlt | hge
    · obtain ⟨heq, hI⟩ := free_preserves_mid hInv hd hwf hp hL2 hlt
      exact ⟨_, _, _, heq, hI⟩
    · obtain ⟨heq, hI⟩ := free_preserves_full hInv hd hwf hp hL2 (by omega)
      exact ⟨_, _, _, heq, hI⟩
  · intro hL1
    rcases Nat.lt_or_ge 1 c.objects_per_slab with hlt | hge
    · obtain ⟨heq, hI⟩ := free_preserves_reclaim hInv hd hwf hp hL1 (by omega)
      exact ⟨_, _, _, heq, hI⟩
    · obtain ⟨heq, hI⟩ := free_preserves_last hInv hd hwf hp hL1 (by omega)
      exact ⟨_, _, _, heq, hI⟩

/-! ## Preservation of the invariant under `alloc` -/

/-- The ghost slab after allocating a new object. -/
def ghostAdd (g : GhostSlab) (p : Nat) : GhostSlab :=
  { g with allocated := p :: g.allocated }

/-- The slab record after `alloc` pops the last free object. -/
def allocTakenRecord (d : SlabInfoData) (rest : List Nat) : SlabInfoData :=
  { d with free_objects_list := rest
           free_objects_number := d.free_objects_number - 1 }

/-- The cache after an `alloc` that leaves the front slab partially free. -/
def allocMidCache (c : Cache) : Cache :=
  { c with statistics :=
      { c.statistics with
        free_objects_number := c.statistics.free_objects_number - 1
        allocated_objects_number :=
          c.statistics.allocated_objects_number + 1 } }

/-- The cache after an `alloc` that fills the front slab up (assuming
`c.free_slabs_list = sia :: tail`). -/
def allocFullCache (c : Cache) (sia : Nat) (tail : List Nat) : Cache :=
  { c with
    free_slabs_list := tail
    full_slabs_list := c.full_slabs_list ++ [sia]
    statistics :=
      { free_slabs_number := c.statistics.free_slabs_number - 1
        full_slabs_number := c.statistics.full_slabs_number + 1
        free_objects_number := c.statistics.free_objects_number - 1
        allocated_objects_number :=
          c.statistics.allocated_objects_number + 1 } }

/-- The backend after the metadata-persistence step of `alloc` (`f1` is the
front slab's free-object count after the pop). -/
def allocBackend (c : Cache) (b1 : MemoryBackend) (obj sia f1 : Nat) :
    MemoryBackend :=
  if ¬ (c.object_size_type = .Small ∧ c.slab_size = c.page_size) then
    let free_object_page_addr := align_down obj c.page_size
    let dont_save : Bool :=
      if c.objects_per_slab ≥ 2 then
        decide (c.slab_size = c.page_size ∧ f1 ≤ c.objects_per_slab - 2)
      else false
    if ¬ dont_save then
      MemoryBackend.save_slab_info_addr b1 free_object_page_addr sia
    else b1
  else b1

theorem allocBackend_fields (c : Cache) (b1 : MemoryBackend)
    (obj sia f1 : Nat) :
    (allocBackend c b1 obj sia f1).slab_supply = b1.slab_supply ∧
    (allocBackend c b1 obj sia f1).slab_info_supply = b1.slab_info_supply ∧
    (allocBackend c b1 obj sia f1).alloc_slab_log = b1.alloc_slab_log ∧
    (allocBackend c b1 obj sia f1).free_slab_log = b1.free_slab_log ∧
    (allocBackend c b1 obj sia f1).alloc_slab_info_log =
      b1.alloc_slab_info_log ∧
    (allocBackend c b1 obj sia f1).free_slab_info_log =
      b1.free_slab_info_log := by
  simp only [allocBackend]
  split_ifs <;> exact ⟨rfl, rfl, rfl, rfl, rfl, rfl⟩

theorem allocBackend_saved_other (c : Cache) (b1 : MemoryBackend)
    (obj sia f1 : Nat) {q : Nat} (hq : q ≠ align_down obj c.page_size) :
    alookup (allocBackend c b1 obj sia f1).saved_slab_infos q =
      alookup b1.saved_slab_infos q := by
  simp only [allocBackend]
  split_ifs <;>
    first
      | rfl
      | exact alookup_ainsert_ne _ _ hq

theorem objectAddrs_succ (s os m : Nat) :
    objectAddrs s os (m + 1) = objectAddrs s os m ++ [s + m * os] := by
  simp [objectAddrs, List.range_succ]

/-- Allocation from a nonempty free-slabs list takes the last free object
of the front slab and preserves the invariant: the front slab's ghost gains
the returned pointer, moving to the full list exactly when its free-object
list empties. -/
theorem alloc_preserves_front {c : Cache} {me : Nat} {h : SlabHeap}
    {b : MemoryBackend} {gs1 gs2 : List GhostSlab} {g : GhostSlab}
    {tail : List Nat}
    (hInv : Inv c me h b (gs1 ++ g :: gs2))
    (hfl : c.free_slabs_list = g.sia :: tail) :
    ∃ p c' h' b', Cache.alloc c me h b = .ok p c' h' b' ∧ p ≠ 0 ∧
      b'.slab_supply = b.slab_supply ∧
      b'.slab_info_supply = b.slab_info_supply ∧
      c'.object_size_type = c.object_size_type ∧
      Inv c' me h' b' (gs1 ++ ghostAdd g p :: gs2) := by
  have hWF := hInv.wf
  have hnd := hInv.siaNodup
  obtain ⟨d, hd, hwf⟩ :=
    hInv.slabs g (List.mem_append_right _ (List.mem_cons_self _ _))
  have hlens : d.free_objects_list.length + g.allocated.length =
      c.objects_per_slab := by
    have h1 := hwf.partition.length_eq
    rw [List.length_append, objectAddrs_length] at h1
    exact h1
  have hcount := hwf.countLen
  have hmemfree : g.sia ∈ c.free_slabs_list := by
    rw [hfl]
    exact List.mem_cons_self _ _
  have hLn : g.allocated.length < c.objects_per_slab :=
    (exists_ghost_self hnd
      (fun gg => gg.allocated.length < c.objects_per_slab)).mp
      ((hInv.freeMem g.sia).mp hmemfree)
  have hdnn : d.free_objects_list ≠ [] :=
    List.length_pos.mp (by omega)
  obtain ⟨p, rest, hpop, hdlist⟩ := popBack_of_ne_nil hdnn
  have hpobj : p ∈ objectAddrs g.s c.object_size c.objects_per_slab :=
    hwf.partition.mem_iff.mp (List.mem_append_left _
      (by rw [hdlist]; exact List.mem_append_right _ (List.mem_cons_self _ _)))
  obtain ⟨hp0, hpal, hsle, hplt, hpoff⟩ :=
    object_facts hWF hwf.sPos hwf.sAligned hpobj
  have hrestlen : rest.length + 1 = d.free_objects_list.length := by
    rw [hdlist]
    simp
  have hnd' : ((gs1 ++ ghostAdd g p :: gs2).map GhostSlab.sia).Nodup := by
    rw [ghost_map_eq g (ghostAdd g p) GhostSlab.sia rfl]
    exact hnd
  obtain ⟨hbs, hbis, hbal, hbfl, hbail, hbfil⟩ :=
    allocBackend_fields c b p g.sia (d.free_objects_number - 1)
  have hsaved : ∀ gg, (gg ∈ gs1 ∨ gg ∈ gs2) → ∀ dd, SlabWFd c me b gg dd →
      ∀ q ∈ gg.allocated,
        alookup (allocBackend c b p g.sia
            (d.free_objects_number - 1)).saved_slab_infos
          (align_down q c.page_size) =
          alookup b.saved_slab_infos (align_down q c.page_size) := by
    intro gg hgg dd hwfdd q hq
    refine allocBackend_saved_other c b p g.sia _ ?_
    have hqobj : q ∈ objectAddrs gg.s c.object_size c.objects_per_slab :=
      hwfdd.partition.mem_iff.mp (List.mem_append_right _ hq)
    obtain ⟨j, hj, hqeq⟩ := mem_objectAddrs.mp hqobj
    obtain ⟨-, -, -, -, hoffq⟩ :=
      object_facts hWF hwfdd.sPos hwfdd.sAligned hqobj
    have hxq : j * c.object_size < c.slab_size := by omega
    have hadq := align_down_in_slab hWF hwfdd.sAligned hwfdd.sBound hxq
    obtain ⟨jp, hjp, hpeq⟩ := mem_objectAddrs.mp hpobj
    have hxp : jp * c.object_size < c.slab_size := by omega
    have hadp := align_down_in_slab hWF hwf.sAligned hwf.sBound hxp
    have hdisj := region_disjoint_of_pairwise hInv.regions gg hgg
    rw [hqeq, hpeq]
    rcases hdisj with h1 | h1 <;> omega
  have hsavedown : ¬ (c.object_size_type = .Small ∧
        c.slab_size = c.page_size) →
      ∀ q ∈ p :: g.allocated,
        alookup (allocBackend c b p g.sia
            (d.free_objects_number - 1)).saved_slab_infos
          (align_down q c.page_size) = some g.sia := by
    intro hcfg q hq
    simp only [allocBackend]
    rw [if_pos hcfg]
    by_cases hds : (if c.objects_per_slab ≥ 2 then
        decide (c.slab_size = c.page_size ∧
          d.free_objects_number - 1 ≤ c.objects_per_slab - 2)
      else false) = true
    · rw [if_neg (not_not_intro hds)]
      have hcond : c.slab_size = c.page_size ∧
          d.free_objects_number - 1 ≤ c.objects_per_slab - 2 := by
        by_cases h2 : c.objects_per_slab ≥ 2
        · rw [if_pos h2] at hds
          exact of_decide_eq_true hds
        · rw [if_neg h2] at hds
          exact absurd hds (by simp)
      obtain ⟨q0, hq0⟩ := List.exists_mem_of_length_pos hwf.allocPos
      have hbase : ∀ r ∈ objectAddrs g.s c.object_size c.objects_per_slab,
          align_down r c.page_size = g.s := by
        intro r hr
        obtain ⟨jr, hjr, hreq⟩ := mem_objectAddrs.mp hr
        obtain ⟨-, -, -, -, hoffr⟩ :=
          object_facts hWF hwf.sPos hwf.sAligned hr
        have hxr : jr * c.object_size < c.slab_size := by omega
        have hadr := align_down_in_slab hWF hwf.sAligned hwf.sBound hxr
        rw [hreq]
        exact hadr.2.2.2 hcond.1
      have hq0obj : q0 ∈ objectAddrs g.s c.object_size c.objects_per_slab :=
        hwf.partition.mem_iff.mp (List.mem_append_right _ hq0)
      have hqobj2 : q ∈ objectAddrs g.s c.object_size c.objects_per_slab := by
        rcases List.mem_cons.mp hq with rfl | hqa
        · exact hpobj
        · exact hwf.partition.mem_iff.mp (List.mem_append_right _ hqa)
      rw [hbase q hqobj2, ← hbase q0 hq0obj]
      exact hwf.savedSia hcfg q0 hq0
    · rw [if_pos hds]
      simp only [MemoryBackend.save_slab_info_addr]
      rcases List.mem_cons.mp hq with rfl | hqa
      · exact alookup_ainsert_self _ _ _
      · by_cases hkq : align_down q c.page_size = align_down p c.page_size
        · rw [hkq]
          exact alookup_ainsert_self _ _ _
        · rw [alookup_ainsert_ne _ _ hkq]
          exact hwf.savedSia hcfg q hqa
  have hd1wf : SlabWFd c me
      (allocBackend c b p g.sia (d.free_objects_number - 1))
      (ghostAdd g p) (allocTakenRecord d rest) := by
    refine ⟨hwf.cachePtr, hwf.slabPtr, ?_, ?_, ?_, hwf.sPos, hwf.sAligned,
      hwf.sBound, hwf.siaPos, hwf.siaAligned, hwf.siaSmall, ?_⟩
    · show d.free_objects_number - 1 = rest.length
      omega
    · show (rest ++ p :: g.allocated).Perm
        (objectAddrs g.s c.object_size c.objects_per_slab)
      have heq : rest ++ p :: g.allocated = (rest ++ [p]) ++ g.allocated := by
        simp
      rw [heq, ← hdlist]
      exact hwf.partition
    · show 1 ≤ (p :: g.allocated).length
      simp
    · intro hcfg q hq
      exact hsavedown hcfg q hq
  have hslabs : ∀ gg, gg ∈ gs1 ++ ghostAdd g p :: gs2 →
      SlabWF c me (ainsert h g.sia (allocTakenRecord d rest))
        (allocBackend c b p g.sia (d.free_objects_number - 1)) gg := by
    intro gg hgg
    rcases List.mem_append.mp hgg with hgg1 | hgg2
    · obtain ⟨dd, hdd, hwfdd⟩ := hInv.slabs gg (List.mem_append_left _ hgg1)
      have hne : gg.sia ≠ g.sia := ghost_sia_ne_of_nodup hnd gg (Or.inl hgg1)
      exact ⟨dd, by rw [alookup_ainsert_ne _ _ hne]; exact hdd,
        SlabWFd_backend (hsaved gg (Or.inl hgg1) dd hwfdd) hwfdd⟩
    · rcases List.mem_cons.mp hgg2 with rfl | hgg2'
      · exact ⟨allocTakenRecord d rest,
          alookup_ainsert_self h g.sia (allocTakenRecord d rest), hd1wf⟩
      · obtain ⟨dd, hdd, hwfdd⟩ := hInv.slabs gg
          (List.mem_append_right _ (List.mem_cons_of_mem _ hgg2'))
        have hne : gg.sia ≠ g.sia := ghost_sia_ne_of_nodup hnd gg (Or.inr hgg2')
        exact ⟨dd, by rw [alookup_ainsert_ne _ _ hne]; exact hdd,
          SlabWFd_backend (hsaved gg (Or.inr hgg2') dd hwfdd) hwfdd⟩
  have hacq : Cache.acquire_slab c me h b = .ready c h b := by
    unfold Cache.acquire_slab
    rw [hfl]
    rfl
  by_cases hrest : rest = []
  · -- the slab fills up: it moves from the free list to the full list
    subst hrest
    have hLfull : g.allocated.length + 1 = c.objects_per_slab := by
      simp only [List.length_nil] at hrestlen
      omega
    have hsia_tail : g.sia ∉ tail := by
      have hnodup := hInv.freeNodup
      rw [hfl] at hnodup
      exact (List.nodup_cons.mp hnodup).1
    refine ⟨p, allocFullCache c g.sia tail,
      ainsert h g.sia (allocTakenRecord d []),
      allocBackend c b p g.sia (d.free_objects_number - 1), ?_, hp0,
      hbs, hbis, rfl, ?_⟩
    · simp only [Cache.alloc, hacq, hfl, List.head?_cons, hd, hpop]
      rfl
    · refine ⟨?_, ?_, hnd', ?_, ?_, ?_, ?_, ?_, ?_, ?_, ?_, ?_, ?_, ?_,
        ?_, ?_, ?_, ?_⟩
      swap
      · intro gg hgg
        obtain ⟨dd, hdd, hwfdd⟩ := hslabs gg hgg
        exact ⟨dd, hdd, by refine SlabWFd_config ?_ ?_ ?_ ?_ ?_ hwfdd <;> rfl⟩
      · refine CacheWF_config ?_ ?_ ?_ ?_ ?_ ?_ hWF <;> rfl
      · show ((gs1 ++ ghostAdd g p :: gs2).map GhostSlab.s).Pairwise
          (fun a b => a + c.slab_size ≤ b ∨ b + c.slab_size ≤ a)
        rw [ghost_map_eq g (ghostAdd g p) GhostSlab.s rfl]
        exact hInv.regions
      · show tail.Nodup
        have hnodup := hInv.freeNodup
        rw [hfl] at hnodup
        exact (List.nodup_cons.mp hnodup).2
      · show (c.full_slabs_list ++ [g.sia]).Nodup
        rw [List.nodup_append]
        refine ⟨hInv.fullNodup, List.nodup_singleton _, ?_⟩
        intro a ha hc
        rw [List.mem_singleton] at hc
        subst hc
        exact hInv.listsDisj _ hmemfree ha
      · show ∀ x, x ∈ tail → x ∉ c.full_slabs_list ++ [g.sia]
        intro x hx hc
        rcases List.mem_append.mp hc with hc1 | hc2
        · exact hInv.listsDisj x (by rw [hfl]; exact List.mem_cons_of_mem _ hx)
            hc1
        · rw [List.mem_singleton] at hc2
          subst hc2
          exact hsia_tail hx
      · show ∀ x, x ∈ tail ↔
          ∃ gg ∈ gs1 ++ ghostAdd g p :: gs2, gg.sia = x ∧
            gg.allocated.length < c.objects_per_slab
        intro x
        by_cases hx : x = g.sia
        · subst hx
          constructor
          · intro hc
            exact absurd hc hsia_tail
          · intro hex
            have hP := (exists_ghost_self hnd'
                (fun gg => gg.allocated.length < c.objects_per_slab)).mp hex
            have hP' : (p :: g.allocated).length < c.objects_per_slab := hP
            rw [List.length_cons] at hP'
            omega
        · have hx' : (x ∈ tail) = (x ∈ c.free_slabs_list) := by
            rw [hfl]
            simp [List.mem_cons, hx]
          rw [hx', hInv.freeMem x]
          exact (exists_ghost_drop
              (fun gg => gg.allocated.length < c.objects_per_slab) hx).trans
            (exists_ghost_ne (show (ghostAdd g p).sia = g.sia from rfl)
              (fun gg => gg.allocated.length < c.objects_per_slab) hx).symm
      · show ∀ x, x ∈ c.full_slabs_list ++ [g.sia] ↔
          ∃ gg ∈ gs1 ++ ghostAdd g p :: gs2, gg.sia = x ∧
            gg.allocated.length = c.objects_per_slab
        intro x
        by_cases hx : x = g.sia
        · subst hx
          constructor
          · intro _
            refine ⟨ghostAdd g p,
              List.mem_append_right _ (List.mem_cons_self _ _), rfl, ?_⟩
            show (p :: g.allocated).length = c.objects_per_slab
            rw [List.length_cons]
            omega
          · intro _
            exact List.mem_append_right _ (List.mem_singleton.mpr rfl)
        · have hx' : (x ∈ c.full_slabs_list ++ [g.sia]) =
              (x ∈ c.full_slabs_list) := by
            simp [List.mem_append, List.mem_singleton, hx]
          rw [hx', hInv.fullMem x]
          exact (exists_ghost_drop
              (fun gg => gg.allocated.length = c.objects_per_slab) hx).trans
            (exists_ghost_ne (show (ghostAdd g p).sia = g.sia from rfl)
              (fun gg => gg.allocated.length = c.objects_per_slab) hx).symm
      · show tail.length + (c.full_slabs_list ++ [g.sia]).length =
          (gs1 ++ ghostAdd g p :: gs2).length
        have hL := hInv.listsLen
        rw [hfl] at hL
        simp only [List.length_append, List.length_cons,
          List.length_singleton] at hL ⊢
        omega
      · show c.statistics.free_slabs_number - 1 = tail.length
        have := hInv.statFree
        rw [hfl] at this
        rw [this]
        simp
      · show c.statistics.full_slabs_number + 1 =
          (c.full_slabs_list ++ [g.sia]).length
        rw [List.length_append, List.length_singleton, hInv.statFull]
      · show c.statistics.free_objects_number - 1 =
          ((gs1 ++ ghostAdd g p :: gs2).map
            (fun gg => c.objects_per_slab - gg.allocated.length)).sum
        have hS := hInv.statFreeObj
        simp only [List.map_append, List.map_cons, List.sum_append,
          List.sum_cons, ghostAdd, List.length_cons] at hS ⊢
        omega
      · show c.statistics.allocated_objects_number + 1 =
          ((gs1 ++ ghostAdd g p :: gs2).map
            (fun gg => gg.allocated.length)).sum
        have hS := hInv.statAlloc
        simp only [List.map_append, List.map_cons, List.sum_append,
          List.sum_cons, ghostAdd, List.length_cons] at hS ⊢
        omega
      · show (allocBackend c b p g.sia
            (d.free_objects_number - 1)).alloc_slab_log.Perm
          ((allocBackend c b p g.sia
            (d.free_objects_number - 1)).free_slab_log ++
            (gs1 ++ ghostAdd g p :: gs2).map
              (fun gg => (gg.s, c.slab_size, c.page_size)))
        rw [hbal, hbfl, ghost_map_eq g (ghostAdd g p)
          (fun gg => (gg.s, c.slab_size, c.page_size)) rfl]
        exact hInv.slabLog
      · show (allocBackend c b p g.sia
            (d.free_objects_number - 1)).alloc_slab_info_log.Perm
          ((allocBackend c b p g.sia
            (d.free_objects_number - 1)).free_slab_info_log ++
            (if c.object_size_type = .Large then
              (gs1 ++ ghostAdd g p :: gs2).map GhostSlab.sia else []))
        rw [hbail, hbfil, ghost_map_eq g (ghostAdd g p) GhostSlab.sia rfl]
        exact hInv.infoLog
      · intro hS
        have hS' : c.object_size_type = .Small := hS
        obtain ⟨h1, h2⟩ := hInv.smallNoInfo hS'
        exact ⟨by rw [hbail]; exact h1, by rw [hbfil]; exact h2⟩
      · refine SupplyWF_congr ?_ ?_ ?_ hbs hbis
          (ghost_map_eq g (ghostAdd g p) GhostSlab.s rfl)
          (ghost_map_eq g (ghostAdd g p) GhostSlab.sia rfl) hInv.supply <;> rfl
  · -- the slab keeps free objects: lists unchanged
    have hie : rest.isEmpty = false := by
      cases rest with
      | nil => exact absurd rfl hrest
      | cons a t => rfl
    have hrl : 0 < rest.length := List.length_pos.mpr hrest
    have hhead : c.free_slabs_list.head? = some g.sia := by
      rw [hfl]
      rfl
    refine ⟨p, allocMidCache c, ainsert h g.sia (allocTakenRecord d rest),
      allocBackend c b p g.sia (d.free_objects_number - 1), ?_, hp0,
      hbs, hbis, rfl, ?_⟩
    · simp only [Cache.alloc, hacq, hhead, hd, hpop, hie]
      rw [if_neg Bool.false_ne_true]
      rfl
    · refine ⟨?_, ?_, hnd', ?_, ?_, ?_, ?_, ?_, ?_, ?_, ?_, ?_, ?_, ?_,
        ?_, ?_, ?_, ?_⟩
      swap
      · intro gg hgg
        obtain ⟨dd, hdd, hwfdd⟩ := hslabs gg hgg
        exact ⟨dd, hdd, by refine SlabWFd_config ?_ ?_ ?_ ?_ ?_ hwfdd <;> rfl⟩
      · refine CacheWF_config ?_ ?_ ?_ ?_ ?_ ?_ hWF <;> rfl
      · show ((gs1 ++ ghostAdd g p :: gs2).map GhostSlab.s).Pairwise
          (fun a b => a + c.slab_size ≤ b ∨ b + c.slab_size ≤ a)
        rw [ghost_map_eq g (ghostAdd g p) GhostSlab.s rfl]
        exact hInv.regions
      · exact hInv.freeNodup
      · exact hInv.fullNodup
      · exact hInv.listsDisj
      · show ∀ x, x ∈ c.free_slabs_list ↔
          ∃ gg ∈ gs1 ++ ghostAdd g p :: gs2, gg.sia = x ∧
            gg.allocated.length < c.objects_per_slab
        intro x
        by_cases hx : x = g.sia
        · subst hx
          constructor
          · intro _
            refine ⟨ghostAdd g p,
              List.mem_append_right _ (List.mem_cons_self _ _), rfl, ?_⟩
            show (p :: g.allocated).length < c.objects_per_slab
            rw [List.length_cons]
            omega
          · intro _
            exact hmemfree
        · rw [hInv.freeMem x]
          exact (exists_ghost_drop
              (fun gg => gg.allocated.length < c.objects_per_slab) hx).trans
            (exists_ghost_ne (show (ghostAdd g p).sia = g.sia from rfl)
              (fun gg => gg.allocated.length < c.objects_per_slab) hx).symm
      · show ∀ x, x ∈ c.full_slabs_list ↔
          ∃ gg ∈ gs1 ++ ghostAdd g p :: gs2, gg.sia = x ∧
            gg.allocated.length = c.objects_per_slab
        intro x
        by_cases hx : x = g.sia
        · subst hx
          constructor
          · intro hc
            exact absurd hc (hInv.listsDisj _ hmemfree)
          · intro hex
            have hP := (exists_ghost_self hnd'
                (fun gg => gg.allocated.length = c.objects_per_slab)).mp hex
            have hP' : (p :: g.allocated).length = c.objects_per_slab := hP
            rw [List.length_cons] at hP'
            omega
        · rw [hInv.fullMem x]
          exact (exists_ghost_drop
              (fun gg => gg.allocated.length = c.objects_per_slab) hx).trans
            (exists_ghost_ne (show (ghostAdd g p).sia = g.sia from rfl)
              (fun gg => gg.allocated.length = c.objects_per_slab) hx).symm
      · show c.free_slabs_list.length + c.full_slabs_list.length =
          (gs1 ++ ghostAdd g p :: gs2).length
        have hL := hInv.listsLen
        simp only [List.length_append, List.length_cons] at hL ⊢
        omega
      · exact hInv.statFree
      · exact hInv.statFull
      · show c.statistics.free_objects_number - 1 =
          ((gs1 ++ ghostAdd g p :: gs2).map
            (fun gg => c.objects_per_slab - gg.allocated.length)).sum
        have hS := hInv.statFreeObj
        simp only [List.map_append, List.map_cons, List.sum_append,
          List.sum_cons, ghostAdd, List.length_cons] at hS ⊢
        omega
      · show c.statistics.allocated_objects_number + 1 =
          ((gs1 ++ ghostAdd g p :: gs2).map
            (fun gg => gg.allocated.length)).sum
        have hS := hInv.statAlloc
        simp only [List.map_append, List.map_cons, List.sum_append,
          List.sum_cons, ghostAdd, List.length_cons] at hS ⊢
        omega
      · show (allocBackend c b p g.sia
            (d.free_objects_number - 1)).alloc_slab_log.Perm
          ((allocBackend c b p g.sia
            (d.free_objects_number - 1)).free_slab_log ++
            (gs1 ++ ghostAdd g p :: gs2).map
              (fun gg => (gg.s, c.slab_size, c.page_size)))
        rw [hbal, hbfl, ghost_map_eq g (ghostAdd g p)
          (fun gg => (gg.s, c.slab_size, c.page_size)) rfl]
        exact hInv.slabLog
      · show (allocBackend c b p g.sia
            (d.free_objects_number - 1)).alloc_slab_info_log.Perm
          ((allocBackend c b p g.sia
            (d.free_objects_number - 1)).free_slab_info_log ++
            (if c.object_size_type = .Large then
              (gs1 ++ ghostAdd g p :: gs2).map GhostSlab.sia else []))
        rw [hbail, hbfil, ghost_map_eq g (ghostAdd g p) GhostSlab.sia rfl]
        exact hInv.infoLog
      · intro hS
        have hS' : c.object_size_type = .Small := hS
        obtain ⟨h1, h2⟩ := hInv.smallNoInfo hS'
        exact ⟨by rw [hbail]; exact h1, by rw [hbfil]; exact h2⟩
      · refine SupplyWF_congr ?_ ?_ ?_ hbs hbis
          (ghost_map_eq g (ghostAdd g p) GhostSlab.s rfl)
          (ghost_map_eq g (ghostAdd g p) GhostSlab.sia rfl) hInv.supply <;> rfl

theorem exists_ghost_append {gs : List GhostSlab} {gnew : GhostSlab}
    (P : GhostSlab → Prop) {x : Nat} (hx : x ≠ gnew.sia) :
    (∃ gg, gg ∈ gs ++ [gnew] ∧ gg.sia = x ∧ P gg) ↔
    (∃ gg, gg ∈ gs ∧ gg.sia = x ∧ P gg) := by
  constructor
  · rintro ⟨gg, hmem, hgx, hP⟩
    rcases List.mem_append.mp hmem with hm | hm
    · exact ⟨gg, hm, hgx, hP⟩
    · rw [List.mem_singleton] at hm
      subst hm
      exact absurd hgx (fun hc => hx hc.symm)
  · rintro ⟨gg, hmem, hgx, hP⟩
    exact ⟨gg, List.mem_append_left _ hmem, hgx, hP⟩

theorem exists_ghost_last {gs : List GhostSlab} {gnew : GhostSlab}
    (hfresh : ∀ gg ∈ gs, gg.sia ≠ gnew.sia) (P : GhostSlab → Prop) :
    (∃ gg, gg ∈ gs ++ [gnew] ∧ gg.sia = gnew.sia ∧ P gg) ↔ P gnew := by
  constructor
  · rintro ⟨gg, hmem, hgx, hP⟩
    rcases List.mem_append.mp hmem with hm | hm
    · exact absurd hgx (hfresh gg hm)
    · rw [List.mem_singleton] at hm
      subst hm
      exact hP
  · intro hP
    exact ⟨gnew, List.mem_append_right _ (List.mem_cons_self _ _), rfl, hP⟩

/-- The computed `SlabInfo` address of a Small slab decomposes as the slab
base plus the zero-based one, and lies strictly inside the slab region. -/
theorem calc_sia_region {c : Cache} (hWF : CacheWF c) {s : Nat}
    (hal : c.page_size ∣ s) (hbound : s + c.slab_size ≤ 2 ^ 64)
    (hty : c.object_size_type = .Small) :
    calculate_slab_info_addr_in_small_object_cache s c.slab_size =
      s + calculate_slab_info_addr_in_small_object_cache 0 c.slab_size ∧
    s < calculate_slab_info_addr_in_small_object_cache s c.slab_size ∧
    calculate_slab_info_addr_in_small_object_cache s c.slab_size <
      s + c.slab_size ∧
    calculate_slab_info_addr_in_small_object_cache s c.slab_size %
      alignOfSlabInfo = 0 := by
  obtain ⟨hle1, hle2⟩ := hWF.small_tail hty
  have h56 : sizeOfSlabInfo = 56 := rfl
  have hos16 := hWF.os16
  have hnpos := hWF.n_pos
  have hcap := hWF.cap
  rw [hty] at hcap
  simp only [] at hcap
  have hss56 : sizeOfSlabInfo ≤ c.slab_size := by
    have : sizeOfSlabInfo = 56 := rfl
    omega
  obtain ⟨k, hk3, hk64, hps⟩ := hWF.ps_pow2
  have h8s : (8 : Nat) ∣ s := by
    refine dvd_trans ?_ hal
    rw [hps]
    have : (8 : Nat) = 2 ^ 3 := by norm_num
    rw [this]
    exact pow_dvd_pow 2 hk3
  have hsplit : s + c.slab_size - sizeOfSlabInfo =
      s + (c.slab_size - sizeOfSlabInfo) := by omega
  have hin : s + (c.slab_size - sizeOfSlabInfo) < 2 ^ 64 := by omega
  have hmain : calculate_slab_info_addr_in_small_object_cache s c.slab_size =
      s + ((c.slab_size - sizeOfSlabInfo) -
        (c.slab_size - sizeOfSlabInfo) % 8) := by
    show align_down (s + c.slab_size - sizeOfSlabInfo) alignOfSlabInfo = _
    rw [hsplit]
    have h8 : (alignOfSlabInfo : Nat) = 2 ^ 3 := by norm_num [alignOfSlabInfo]
    rw [h8]
    exact align_down_add_mul (by norm_num)
      (by rw [show (2 : Nat) ^ 3 = 8 from by norm_num]; exact h8s) hin
  have hzero : calculate_slab_info_addr_in_small_object_cache 0 c.slab_size =
      (c.slab_size - sizeOfSlabInfo) -
        (c.slab_size - sizeOfSlabInfo) % 8 := by
    show align_down (0 + c.slab_size - sizeOfSlabInfo) alignOfSlabInfo = _
    have h0 : 0 + c.slab_size - sizeOfSlabInfo =
        c.slab_size - sizeOfSlabInfo := by omega
    rw [h0]
    exact align_down_eight (by omega)
  refine ⟨by rw [hmain, hzero], ?_, ?_, ?_⟩
  · rw [hmain]
    have h16 : 16 ≤ calculate_slab_info_addr_in_small_object_cache 0
        c.slab_size := by
      calc 16 ≤ c.objects_per_slab * c.object_size := by
            have := Nat.mul_le_mul hnpos hos16
            omega
        _ ≤ _ := hcap
    rw [hzero] at h16
    omega
  · rw [hmain]
    rw [hzero] at hle1
    have hmod := Nat.mod_le (c.slab_size - sizeOfSlabInfo) 8
    omega
  · rw [hmain]
    show (s + (c.slab_size - sizeOfSlabInfo -
      (c.slab_size - sizeOfSlabInfo) % 8)) % 8 = 0
    have hs8 : s % 8 = 0 := by
      obtain ⟨u, hu⟩ := h8s
      rw [hu]
      exact Nat.mul_mod_right 8 u
    omega

/-- The cache right after `finishNewSlab` registers a fresh slab. -/
def newSlabCache (c : Cache) (sia : Nat) : Cache :=
  { c with free_slabs_list := c.free_slabs_list ++ [sia]
           statistics :=
             { c.statistics with
               free_slabs_number := c.statistics.free_slabs_number + 1
               free_objects_number :=
                 c.statistics.free_objects_number + c.objects_per_slab } }

/-- The heap record of a freshly initialized slab. -/
def newSlabRecord (me : Nat) (c : Cache) (s : Nat) : SlabInfoData :=
  { free_objects_list := objectAddrs s c.object_size c.objects_per_slab
    cache_ptr := me
    free_objects_number := c.objects_per_slab
    slab_ptr := s }

/-- The fresh slab's record after `alloc` pops its last object slot. -/
def newTakenRecord (me : Nat) (c : Cache) (s : Nat) : SlabInfoData :=
  { free_objects_list := objectAddrs s c.object_size (c.objects_per_slab - 1)
    cache_ptr := me
    free_objects_number := c.objects_per_slab - 1
    slab_ptr := s }

/-- The cache after an `alloc` that creates a slab and leaves it partially
free (`objects_per_slab ≥ 2`). -/
def newMidCache (c : Cache) (sia : Nat) : Cache :=
  { c with
    free_slabs_list := c.free_slabs_list ++ [sia]
    statistics :=
      { free_slabs_number := c.statistics.free_slabs_number + 1
        full_slabs_number := c.statistics.full_slabs_number
        free_objects_number :=
          c.statistics.free_objects_number + c.objects_per_slab - 1
        allocated_objects_number :=
          c.statistics.allocated_objects_number + 1 } }

/-- The cache after an `alloc` that creates a one-object slab, which becomes
full immediately. -/
def newFullCache (c : Cache) (sia : Nat) : Cache :=
  { c with
    free_slabs_list := []
    full_slabs_list := c.full_slabs_list ++ [sia]
    statistics :=
      { free_slabs_number := c.statistics.free_slabs_number + 1 - 1
        full_slabs_number := c.statistics.full_slabs_number + 1
        free_objects_number :=
          c.statistics.free_objects_number + c.objects_per_slab - 1
        allocated_objects_number :=
          c.statistics.allocated_objects_number + 1 } }

/-- With the free-slabs list empty, a nonzero slab supply (and, for Large, a
nonzero `SlabInfo` supply), `acquire_slab` installs a fresh wellformed slab:
its `SlabInfo` address is nonzero, aligned, fresh relative to the live
slabs, and the backend consumed exactly the expected supplies. -/
theorem acquire_new_slab {c : Cache} {me : Nat} {h : SlabHeap}
    {b : MemoryBackend} {gs : List GhostSlab} {s : Nat} {srest : List Nat}
    (hInv : Inv c me h b gs)
    (hempty : c.free_slabs_list = [])
    (hslab : b.slab_supply = s :: srest)
    (hs0 : s ≠ 0)
    (hinfo : c.object_size_type = .Large →
      ∃ q qrest, b.slab_info_supply = q :: qrest ∧ q ≠ 0) :
    ∃ sia bP,
      Cache.acquire_slab c me h b =
        .ready (newSlabCache c sia) (ainsert h sia (newSlabRecord me c s))
          bP ∧
      sia ≠ 0 ∧
      sia % alignOfSlabInfo = 0 ∧
      (c.object_size_type = .Small →
        sia = calculate_slab_info_addr_in_small_object_cache s c.slab_size) ∧
      (∀ gg ∈ gs, gg.sia ≠ sia) ∧
      bP.slab_supply = srest ∧
      bP.alloc_slab_log =
        b.alloc_slab_log ++ [(s, c.slab_size, c.page_size)] ∧
      bP.free_slab_log = b.free_slab_log ∧
      bP.free_slab_info_log = b.free_slab_info_log ∧
      bP.saved_slab_infos = b.saved_slab_infos ∧
      (c.object_size_type = .Large →
        ∃ qrest, b.slab_info_supply = sia :: qrest ∧
          bP.slab_info_supply = qrest ∧
          bP.alloc_slab_info_log = b.alloc_slab_info_log ++ [sia]) ∧
      (c.object_size_type = .Small →
        bP.slab_info_supply = b.slab_info_supply ∧
        bP.alloc_slab_info_log = b.alloc_slab_info_log) := by
  have hWF := hInv.wf
  obtain ⟨hsal, hsbound, hsdisj⟩ := hInv.supply.slabs s
    (by rw [hslab]; exact List.mem_cons_self _ _) hs0
  have hos8 := hWF.os8
  obtain ⟨k, hk3, hk64, hps⟩ := hWF.ps_pow2
  have h8s : (8 : Nat) ∣ s := by
    refine dvd_trans ?_ hsal
    rw [hps]
    have h23 : (8 : Nat) = 2 ^ 3 := by norm_num
    rw [h23]
    exact pow_dvd_pow 2 hk3
  have halign8 : ∀ i < c.objects_per_slab,
      (s + i * c.object_size) % alignOfFreeObject = 0 := by
    intro i _
    obtain ⟨u, hu⟩ := h8s
    obtain ⟨v, hv⟩ := hos8
    show (s + i * c.object_size) % 8 = 0
    rw [hu, hv]
    have heq : 8 * u + i * (8 * v) = 8 * (u + i * v) := by ring
    rw [heq, Nat.mul_mod_right]
  have hfinish : ∀ b2 : MemoryBackend, ∀ sia : Nat, sia ≠ 0 →
      sia % alignOfSlabInfo = 0 →
      finishNewSlab c me h b2 s sia =
        .ready (newSlabCache c sia)
          (ainsert h sia (newSlabRecord me c s)) b2 := by
    intro b2 sia hsia0 hsiaal
    simp only [finishNewSlab, if_neg hsia0, if_neg (not_not_intro hsiaal)]
    rw [fillFreeObjects_spec _ _ _ _ _
      ⟨[], me, c.objects_per_slab, s⟩ (alookup_ainsert_self _ _ _) halign8]
    rw [ainsert_ainsert]
    rfl
  rcases hty : c.object_size_type with _ | _
  · -- Small: the SlabInfo address is computed from the slab base
    obtain ⟨hdecomp, hgt, hlt, hal8⟩ := calc_sia_region hWF hsal hsbound hty
    have hsia0 : calculate_slab_info_addr_in_small_object_cache s
        c.slab_size ≠ 0 := by omega
    have hle : calculate_slab_info_addr_in_small_object_cache s c.slab_size ≤
        s + c.slab_size - sizeOfSlabInfo := by
      obtain ⟨hle1, hle2⟩ := hWF.small_tail hty
      have h56 : sizeOfSlabInfo = 56 := rfl
      omega
    have hfresh : ∀ gg ∈ gs,
        gg.sia ≠ calculate_slab_info_addr_in_small_object_cache s
          c.slab_size := by
      intro gg hgg
      obtain ⟨dd, hdd, hwfdd⟩ := hInv.slabs gg hgg
      have hggsia := hwfdd.siaSmall hty
      obtain ⟨-, hggt, hglt, -⟩ :=
        calc_sia_region hWF hwfdd.sAligned hwfdd.sBound hty
      rw [hggsia]
      have hdis := hsdisj gg.s (List.mem_map_of_mem _ hgg)
      rcases hdis with h1 | h1 <;> omega
    refine ⟨calculate_slab_info_addr_in_small_object_cache s c.slab_size,
      { b with slab_supply := srest,
               alloc_slab_log :=
                 b.alloc_slab_log ++ [(s, c.slab_size, c.page_size)] },
      ?_, hsia0, hal8, fun _ => rfl, hfresh, rfl, rfl, rfl, rfl, rfl,
      fun hc => absurd hc (by decide), fun _ => ⟨rfl, rfl⟩⟩
    unfold Cache.acquire_slab
    rw [hempty]
    simp only [List.isEmpty_nil, if_pos rfl, MemoryBackend.alloc_slab, hslab]
    rw [if_neg hs0]
    simp only [hty]
    rw [if_neg hs0, if_neg (not_not_intro hgt), if_neg (not_not_intro hle)]
    exact hfinish _ _ hsia0 hal8
  · -- Large: the SlabInfo address comes from the backend
    obtain ⟨q, qrest, hinfoq, hq0⟩ := hinfo hty
    obtain ⟨hqal, hqfresh⟩ := hInv.supply.infos hty q
      (by rw [hinfoq]; exact List.mem_cons_self _ _) hq0
    have hfresh : ∀ gg ∈ gs, gg.sia ≠ q := by
      intro gg hgg heq
      exact hqfresh (heq ▸ List.mem_map_of_mem _ hgg)
    refine ⟨q,
      { b with slab_supply := srest,
               slab_info_supply := qrest,
               alloc_slab_log :=
                 b.alloc_slab_log ++ [(s, c.slab_size, c.page_size)],
               alloc_slab_info_log := b.alloc_slab_info_log ++ [q] },
      ?_, hq0, hqal, fun hc => absurd hc (by decide), hfresh, rfl, rfl, rfl,
      rfl, rfl, fun _ => ⟨qrest, hinfoq, rfl, rfl⟩,
      fun hc => absurd hc (by decide)⟩
    unfold Cache.acquire_slab
    rw [hempty]
    simp only [List.isEmpty_nil, if_pos rfl, MemoryBackend.alloc_slab, hslab]
    rw [if_neg hs0]
    simp only [hty]
    rw [if_neg hs0]
    simp only [MemoryBackend.alloc_slab_info, hinfoq]
    rw [if_neg hq0, if_neg hq0, if_neg (not_not_intro hqal)]
    exact hfinish _ _ hq0 hqal

/-- Allocation with an empty free-slabs list and wellformed nonzero supplies
creates a fresh slab, allocates its last object slot and preserves the
invariant with a new one-object ghost appended. -/
theorem alloc_preserves_new {c : Cache} {me : Nat} {h : SlabHeap}
    {b : MemoryBackend} {gs : List GhostSlab} {s : Nat} {srest : List Nat}
    (hInv : Inv c me h b gs)
    (hempty : c.free_slabs_list = [])
    (hslab : b.slab_supply = s :: srest)
    (hs0 : s ≠ 0)
    (hinfo : c.object_size_type = .Large →
      ∃ q qrest, b.slab_info_supply = q :: qrest ∧ q ≠ 0) :
    ∃ p sia c' h' b', Cache.alloc c me h b = .ok p c' h' b' ∧ p ≠ 0 ∧
      b'.slab_supply = srest ∧
      (c.object_size_type = .Large → ∃ qrest,
        b.slab_info_supply = sia :: qrest ∧ b'.slab_info_supply = qrest) ∧
      (c.object_size_type = .Small →
        b'.slab_info_supply = b.slab_info_supply) ∧
      c'.object_size_type = c.object_size_type ∧
      Inv c' me h' b' (gs ++ [⟨s, sia, [p]⟩]) := by
  have hWF := hInv.wf
  have hnd := hInv.siaNodup
  have hnpos := hWF.n_pos
  obtain ⟨hsal, hsbound, hsdisj⟩ := hInv.supply.slabs s
    (by rw [hslab]; exact List.mem_cons_self _ _) hs0
  obtain ⟨sia, bP, hacq, hsia0, hsiaal, hsiaSm, hsiafresh, hbPss, hbPal,
    hbPfl, hbPfi, hbPsaved, hbPL, hbPS⟩ :=
    acquire_new_slab hInv hempty hslab hs0 hinfo
  set p := s + (c.objects_per_slab - 1) * c.object_size with hpdef
  have hpobj : p ∈ objectAddrs s c.object_size c.objects_per_slab :=
    mem_objectAddrs.mpr ⟨c.objects_per_slab - 1, by omega, hpdef⟩
  obtain ⟨hp0, hpal, hsle, hplt, hpoff⟩ :=
    object_facts hWF hs0 hsal hpobj
  have hnsplit : objectAddrs s c.object_size c.objects_per_slab =
      objectAddrs s c.object_size (c.objects_per_slab - 1) ++ [p] := by
    have h1 := objectAddrs_succ s c.object_size (c.objects_per_slab - 1)
    rw [show c.objects_per_slab - 1 + 1 = c.objects_per_slab from by omega]
      at h1
    rw [h1, hpdef]
  have hpop2 : popBack (objectAddrs s c.object_size c.objects_per_slab) =
      some (p, objectAddrs s c.object_size (c.objects_per_slab - 1)) := by
    rw [hnsplit]
    exact popBack_append _ _
  have hhead2 : (c.free_slabs_list ++ [sia]).head? = some sia := by
    rw [hempty]
    rfl
  have hds0 : (if c.objects_per_slab ≥ 2 then
      decide (c.slab_size = c.page_size ∧
        c.objects_per_slab - 1 ≤ c.objects_per_slab - 2)
    else false) = false := by
    by_cases h2 : c.objects_per_slab ≥ 2
    · rw [if_pos h2]
      simp only [decide_eq_false_iff_not]
      rintro ⟨-, hle⟩
      omega
    · rw [if_neg h2]
  obtain ⟨hbs, hbis, hbal2, hbfl2, hbail2, hbfil2⟩ :=
    allocBackend_fields c bP p sia (c.objects_per_slab - 1)
  have hnofree : ∀ gg ∈ gs,
      ¬ gg.allocated.length < c.objects_per_slab := by
    intro gg hgg hlt
    have hmem := (hInv.freeMem gg.sia).mpr ⟨gg, hgg, rfl, hlt⟩
    rw [hempty] at hmem
    exact absurd hmem (List.not_mem_nil _)
  have hsia_not_full : sia ∉ c.full_slabs_list := by
    intro hc
    obtain ⟨gg, hgg, hgx, -⟩ := (hInv.fullMem sia).mp hc
    exact hsiafresh gg hgg hgx
  have hsaved : ∀ gg ∈ gs, ∀ dd, SlabWFd c me b gg dd →
      ∀ q ∈ gg.allocated,
        alookup (allocBackend c bP p sia
            (c.objects_per_slab - 1)).saved_slab_infos
          (align_down q c.page_size) =
          alookup b.saved_slab_infos (align_down q c.page_size) := by
    intro gg hgg dd hwfdd q hq
    have hne : align_down q c.page_size ≠ align_down p c.page_size := by
      have hqobj : q ∈ objectAddrs gg.s c.object_size c.objects_per_slab :=
        hwfdd.partition.mem_iff.mp (List.mem_append_right _ hq)
      obtain ⟨j, hj, hqeq⟩ := mem_objectAddrs.mp hqobj
      obtain ⟨-, -, -, -, hoffq⟩ :=
        object_facts hWF hwfdd.sPos hwfdd.sAligned hqobj
      have hxq : j * c.object_size < c.slab_size := by omega
      have hadq := align_down_in_slab hWF hwfdd.sAligned hwfdd.sBound hxq
      have hxp : (c.objects_per_slab - 1) * c.object_size < c.slab_size := by
        omega
      have hadp := align_down_in_slab hWF hsal hsbound hxp
      have hdis := hsdisj gg.s (List.mem_map_of_mem _ hgg)
      rw [hqeq, hpdef]
      rcases hdis with h1 | h1 <;> omega
    rw [allocBackend_saved_other c bP p sia (c.objects_per_slab - 1) hne,
      hbPsaved]
  have hnewwf : SlabWFd c me
      (allocBackend c bP p sia (c.objects_per_slab - 1))
      ⟨s, sia, [p]⟩ (newTakenRecord me c s) := by
    refine ⟨rfl, rfl, ?_, ?_, ?_, hs0, hsal, hsbound, hsia0, hsiaal, ?_, ?_⟩
    · show c.objects_per_slab - 1 =
        (objectAddrs s c.object_size (c.objects_per_slab - 1)).length
      rw [objectAddrs_length]
    · show (objectAddrs s c.object_size (c.objects_per_slab - 1) ++
        [p]).Perm (objectAddrs s c.object_size c.objects_per_slab)
      rw [hnsplit]
    · show 1 ≤ ([p] : List Nat).length
      simp
    · intro hty
      exact hsiaSm hty
    · intro hcfg q hq
      rw [List.mem_singleton] at hq
      subst hq
      simp only [allocBackend]
      rw [if_pos hcfg, hds0, if_pos Bool.false_ne_true]
      simp only [MemoryBackend.save_slab_info_addr]
      exact alookup_ainsert_self _ _ _
  have hslabs : ∀ gg, gg ∈ gs ++ [(⟨s, sia, [p]⟩ : GhostSlab)] →
      SlabWF c me (ainsert h sia (newTakenRecord me c s))
        (allocBackend c bP p sia (c.objects_per_slab - 1)) gg := by
    intro gg hgg
    rcases List.mem_append.mp hgg with hm | hm
    · obtain ⟨dd, hdd, hwfdd⟩ := hInv.slabs gg hm
      have hne : gg.sia ≠ sia := hsiafresh gg hm
      exact ⟨dd, by rw [alookup_ainsert_ne _ _ hne]; exact hdd,
        SlabWFd_backend (hsaved gg hm dd hwfdd) hwfdd⟩
    · rw [List.mem_singleton] at hm
      subst hm
      exact ⟨newTakenRecord me c s, alookup_ainsert_self _ _ _, hnewwf⟩
  have hndnew : ((gs ++ [(⟨s, sia, [p]⟩ : GhostSlab)]).map
      GhostSlab.sia).Nodup := by
    rw [List.map_append, List.nodup_append]
    refine ⟨hnd, by simp, ?_⟩
    intro a ha hc
    simp only [List.map_cons, List.map_nil, List.mem_singleton] at hc
    obtain ⟨gg, hgg, hggsia⟩ := List.mem_map.mp ha
    subst hc
    exact hsiafresh gg hgg hggsia
  have hregnew : ((gs ++ [(⟨s, sia, [p]⟩ : GhostSlab)]).map
      GhostSlab.s).Pairwise
      (fun a b => a + c.slab_size ≤ b ∨ b + c.slab_size ≤ a) := by
    rw [List.map_append, List.pairwise_append]
    refine ⟨hInv.regions, by simp, ?_⟩
    intro a ha bb hbb
    simp only [List.map_cons, List.map_nil, List.mem_singleton] at hbb
    subst hbb
    exact hsdisj a ha
  have hsupply : SupplyWF c
      (allocBackend c bP p sia (c.objects_per_slab - 1))
      (gs ++ [⟨s, sia, [p]⟩]) := by
    refine ⟨?_, ?_, ?_, ?_⟩
    · intro a ha ha0
      rw [hbs, hbPss] at ha
      obtain ⟨h1, h2, h3⟩ := hInv.supply.slabs a
        (by rw [hslab]; exact List.mem_cons_of_mem _ ha) ha0
      refine ⟨h1, h2, ?_⟩
      intro s' hs'
      rw [List.map_append] at hs'
      rcases List.mem_append.mp hs' with hm | hm
      · exact h3 s' hm
      · simp only [List.map_cons, List.map_nil, List.mem_singleton] at hm
        subst hm
        have hpair := hInv.supply.slabsPairwise
        rw [hslab] at hpair
        have hrel := (List.pairwise_cons.mp hpair).1 a ha hs0 ha0
        tauto
    · rw [hbs, hbPss]
      have hpair := hInv.supply.slabsPairwise
      rw [hslab] at hpair
      exact (List.pairwise_cons.mp hpair).2
    · intro hL q hq hq0
      rw [hbis] at hq
      obtain ⟨qrest, hq1, hq2, -⟩ := hbPL hL
      rw [hq2] at hq
      obtain ⟨ha1, ha2⟩ := hInv.supply.infos hL q
        (by rw [hq1]; exact List.mem_cons_of_mem _ hq) hq0
      refine ⟨ha1, ?_⟩
      rw [List.map_append]
      intro hc
      rcases List.mem_append.mp hc with hm | hm
      · exact ha2 hm
      · simp only [List.map_cons, List.map_nil, List.mem_singleton] at hm
        have hpair := hInv.supply.infosPairwise
        rw [hq1] at hpair
        exact (List.pairwise_cons.mp hpair).1 q hq hsia0 hq0 hm.symm
    · rw [hbis]
      by_cases hL : c.object_size_type = .Large
      · obtain ⟨qrest, hq1, hq2, -⟩ := hbPL hL
        rw [hq2]
        have hpair := hInv.supply.infosPairwise
        rw [hq1] at hpair
        exact (List.pairwise_cons.mp hpair).2
      · have hS : c.object_size_type = .Small := by
          rcases hcs : c.object_size_type with _ | _
          · rfl
          · exact absurd hcs hL
        obtain ⟨hq2, -⟩ := hbPS hS
        rw [hq2]
        exact hInv.supply.infosPairwise
  have hlogAl : (allocBackend c bP p sia
      (c.objects_per_slab - 1)).alloc_slab_log =
      b.alloc_slab_log ++ [(s, c.slab_size, c.page_size)] := by
    rw [hbal2, hbPal]
  have hlogFl : (allocBackend c bP p sia
      (c.objects_per_slab - 1)).free_slab_log = b.free_slab_log := by
    rw [hbfl2, hbPfl]
  have hlogFil : (allocBackend c bP p sia
      (c.objects_per_slab - 1)).free_slab_info_log =
      b.free_slab_info_log := by
    rw [hbfil2, hbPfi]
  have hlogAilL : c.object_size_type = .Large →
      (allocBackend c bP p sia
        (c.objects_per_slab - 1)).alloc_slab_info_log =
      b.alloc_slab_info_log ++ [sia] := by
    intro hL
    obtain ⟨-, -, -, h3⟩ := hbPL hL
    rw [hbail2, h3]
  have hlogAilS : c.object_size_type = .Small →
      (allocBackend c bP p sia
        (c.objects_per_slab - 1)).alloc_slab_info_log =
      b.alloc_slab_info_log := by
    intro hS
    obtain ⟨-, h2⟩ := hbPS hS
    rw [hbail2, h2]
  have hslablog : (allocBackend c bP p sia
      (c.objects_per_slab - 1)).alloc_slab_log.Perm
      ((allocBackend c bP p sia (c.objects_per_slab - 1)).free_slab_log ++
        (gs ++ [(⟨s, sia, [p]⟩ : GhostSlab)]).map
          (fun gg => (gg.s, c.slab_size, c.page_size))) := by
    rw [hlogAl, hlogFl, List.map_append, ← List.append_assoc]
    exact hInv.slabLog.append_right _
  have hinfolog : (allocBackend c bP p sia
      (c.objects_per_slab - 1)).alloc_slab_info_log.Perm
      ((allocBackend c bP p sia
        (c.objects_per_slab - 1)).free_slab_info_log ++
        (if c.object_size_type = .Large then
          (gs ++ [(⟨s, sia, [p]⟩ : GhostSlab)]).map GhostSlab.sia
        else [])) := by
    by_cases hL : c.object_size_type = .Large
    · rw [hlogAilL hL, hlogFil, if_pos hL, List.map_append,
        ← List.append_assoc]
      have h0 := hInv.infoLog
      rw [if_pos hL] at h0
      exact h0.append_right _
    · have hS : c.object_size_type = .Small := by
        rcases hcs : c.object_size_type with _ | _
        · rfl
        · exact absurd hcs hL
      rw [hlogAilS hS, hlogFil, if_neg hL]
      have h0 := hInv.infoLog
      rw [if_neg hL] at h0
      exact h0
  have hsmall : c.object_size_type = .Small →
      (allocBackend c bP p sia
        (c.objects_per_slab - 1)).alloc_slab_info_log = [] ∧
      (allocBackend c bP p sia
        (c.objects_per_slab - 1)).free_slab_info_log = [] := by
    intro hS
    obtain ⟨h1, h2⟩ := hInv.smallNoInfo hS
    exact ⟨by rw [hlogAilS hS, h1], by rw [hlogFil, h2]⟩
  by_cases hn1 : c.objects_per_slab = 1
  · -- one-object slab: it becomes full within the same call
    have hre : (objectAddrs s c.object_size
        (c.objects_per_slab - 1)).isEmpty = true := by
      rw [hn1]
      rfl
    refine ⟨p, sia, newFullCache c sia,
      ainsert h sia (newTakenRecord me c s),
      allocBackend c bP p sia (c.objects_per_slab - 1), ?_, hp0,
      (by rw [hbs, hbPss]),
      (fun hL => by
        obtain ⟨qrest, h1, h2, -⟩ := hbPL hL
        exact ⟨qrest, h1, by rw [hbis, h2]⟩),
      (fun hS => by rw [hbis, (hbPS hS).1]), rfl, ?_⟩
    · simp only [Cache.alloc, hacq, newSlabCache, newSlabRecord, hempty,
        List.nil_append, List.head?_cons, alookup_ainsert_self, hpop2, hre,
        if_true]
      rw [ainsert_ainsert]
      rfl
    · refine ⟨?_, ?_, hndnew, ?_, ?_, ?_, ?_, ?_, ?_, ?_, ?_, ?_, ?_, ?_,
        ?_, ?_, ?_, ?_⟩
      · refine CacheWF_config ?_ ?_ ?_ ?_ ?_ ?_ hWF <;> rfl
      · intro gg hgg
        obtain ⟨dd, hdd, hwfdd⟩ := hslabs gg hgg
        exact ⟨dd, hdd, by refine SlabWFd_config ?_ ?_ ?_ ?_ ?_ hwfdd <;> rfl⟩
      · exact hregnew
      · exact List.nodup_nil
      · show (c.full_slabs_list ++ [sia]).Nodup
        rw [List.nodup_append]
        refine ⟨hInv.fullNodup, by simp, ?_⟩
        intro a ha hc
        rw [List.mem_singleton] at hc
        subst hc
        exact hsia_not_full ha
      · show ∀ x, x ∈ ([] : List Nat) → x ∉ c.full_slabs_list ++ [sia]
        intro x hx
        exact absurd hx (List.not_mem_nil _)
      · show ∀ x, x ∈ ([] : List Nat) ↔
          ∃ gg ∈ gs ++ [(⟨s, sia, [p]⟩ : GhostSlab)], gg.sia = x ∧
            gg.allocated.length < c.objects_per_slab
        intro x
        constructor
        · intro hc
          exact absurd hc (List.not_mem_nil _)
        · intro hex
          by_cases hx : x = sia
          · subst hx
            have hP := (exists_ghost_last hsiafresh
                (fun gg => gg.allocated.length < c.objects_per_slab)).mp hex
            have hP' : ([p] : List Nat).length < c.objects_per_slab := hP
            simp only [List.length_singleton] at hP'
            omega
          · obtain ⟨gg, hgg, hgx, hlt⟩ := (exists_ghost_append
              (fun gg => gg.allocated.length < c.objects_per_slab) hx).mp hex
            exact absurd hlt (hnofree gg hgg)
      · show ∀ x, x ∈ c.full_slabs_list ++ [sia] ↔
          ∃ gg ∈ gs ++ [(⟨s, sia, [p]⟩ : GhostSlab)], gg.sia = x ∧
            gg.allocated.length = c.objects_per_slab
        intro x
        by_cases hx : x = sia
        · subst hx
          constructor
          · intro _
            refine (exists_ghost_last hsiafresh _).mpr ?_
            show ([p] : List Nat).length = c.objects_per_slab
            simp only [List.length_singleton]
            omega
          · intro _
            exact List.mem_append_right _ (List.mem_cons_self _ _)
        · have hx' : (x ∈ c.full_slabs_list ++ [sia]) =
              (x ∈ c.full_slabs_list) := by
            simp [List.mem_append, List.mem_singleton, hx]
          rw [hx', hInv.fullMem x]
          exact (exists_ghost_append
            (fun gg => gg.allocated.length = c.objects_per_slab) hx).symm
      · show (0 : Nat) + (c.full_slabs_list ++ [sia]).length =
          (gs ++ [(⟨s, sia, [p]⟩ : GhostSlab)]).length
        have hL := hInv.listsLen
        rw [hempty] at hL
        simp only [List.length_append, List.length_cons, List.length_nil]
          at hL ⊢
        omega
      · show c.statistics.free_slabs_number + 1 - 1 = (0 : Nat)
        have hF := hInv.statFree
        rw [hempty] at hF
        simp only [List.length_nil] at hF
        omega
      · show c.statistics.full_slabs_number + 1 =
          (c.full_slabs_list ++ [sia]).length
        simp only [List.length_append, List.length_singleton,
          hInv.statFull]
      · show c.statistics.free_objects_number + c.objects_per_slab - 1 =
          ((gs ++ [(⟨s, sia, [p]⟩ : GhostSlab)]).map
            (fun gg => c.objects_per_slab - gg.allocated.length)).sum
        have hS := hInv.statFreeObj
        simp only [List.map_append, List.map_cons, List.map_nil,
          List.sum_append, List.sum_cons, List.sum_nil,
          List.length_singleton] at hS ⊢
        omega
      · show c.statistics.allocated_objects_number + 1 =
          ((gs ++ [(⟨s, sia, [p]⟩ : GhostSlab)]).map
            (fun gg => gg.allocated.length)).sum
        have hS := hInv.statAlloc
        simp only [List.map_append, List.map_cons, List.map_nil,
          List.sum_append, List.sum_cons, List.sum_nil,
          List.length_singleton] at hS ⊢
        omega
      · exact hslablog
      · exact hinfolog
      · exact hsmall
      · refine SupplyWF_congr ?_ ?_ ?_ rfl rfl rfl rfl hsupply <;> rfl
  · -- at least two objects: the slab stays in the free list
    have hn2 : 2 ≤ c.objects_per_slab := by omega
    have hrne : objectAddrs s c.object_size (c.objects_per_slab - 1) ≠ [] :=
      List.length_pos.mp (by rw [objectAddrs_length]; omega)
    have hre : (objectAddrs s c.object_size
        (c.objects_per_slab - 1)).isEmpty = false := by
      cases hxx : objectAddrs s c.object_size (c.objects_per_slab - 1) with
      | nil => exact absurd hxx hrne
      | cons a t => rfl
    refine ⟨p, sia, newMidCache c sia,
      ainsert h sia (newTakenRecord me c s),
      allocBackend c bP p sia (c.objects_per_slab - 1), ?_, hp0,
      (by rw [hbs, hbPss]),
      (fun hL => by
        obtain ⟨qrest, h1, h2, -⟩ := hbPL hL
        exact ⟨qrest, h1, by rw [hbis, h2]⟩),
      (fun hS => by rw [hbis, (hbPS hS).1]), rfl, ?_⟩
    · simp only [Cache.alloc, hacq, newSlabCache, newSlabRecord, hhead2,
        alookup_ainsert_self, hpop2, hre]
      rw [if_neg Bool.false_ne_true, ainsert_ainsert]
      rfl
    · refine ⟨?_, ?_, hndnew, ?_, ?_, ?_, ?_, ?_, ?_, ?_, ?_, ?_, ?_, ?_,
        ?_, ?_, ?_, ?_⟩
      · refine CacheWF_config ?_ ?_ ?_ ?_ ?_ ?_ hWF <;> rfl
      · intro gg hgg
        obtain ⟨dd, hdd, hwfdd⟩ := hslabs gg hgg
        exact ⟨dd, hdd, by refine SlabWFd_config ?_ ?_ ?_ ?_ ?_ hwfdd <;> rfl⟩
      · exact hregnew
      · show (c.free_slabs_list ++ [sia]).Nodup
        rw [hempty]
        simp
      · exact hInv.fullNodup
      · show ∀ x, x ∈ c.free_slabs_list ++ [sia] → x ∉ c.full_slabs_list
        intro x hx
        rcases List.mem_append.mp hx with hm | hm
        · rw [hempty] at hm
          exact absurd hm (List.not_mem_nil _)
        · rw [List.mem_singleton] at hm
          subst hm
          exact hsia_not_full
      · show ∀ x, x ∈ c.free_slabs_list ++ [sia] ↔
          ∃ gg ∈ gs ++ [(⟨s, sia, [p]⟩ : GhostSlab)], gg.sia = x ∧
            gg.allocated.length < c.objects_per_slab
        intro x
        by_cases hx : x = sia
        · subst hx
          constructor
          · intro _
            refine (exists_ghost_last hsiafresh _).mpr ?_
            show ([p] : List Nat).length < c.objects_per_slab
            simp only [List.length_singleton]
            omega
          · intro _
            exact List.mem_append_right _ (List.mem_cons_self _ _)
        · constructor
          · intro hmem
            rcases List.mem_append.mp hmem with hm | hm
            · rw [hempty] at hm
              exact absurd hm (List.not_mem_nil _)
            · rw [List.mem_singleton] at hm
              exact absurd hm hx
          · intro hex
            obtain ⟨gg, hgg, hgx, hlt⟩ := (exists_ghost_append
              (fun gg => gg.allocated.length < c.objects_per_slab) hx).mp hex
            exact absurd hlt (hnofree gg hgg)
      · show ∀ x, x ∈ c.full_slabs_list ↔
          ∃ gg ∈ gs ++ [(⟨s, sia, [p]⟩ : GhostSlab)], gg.sia = x ∧
            gg.allocated.length = c.objects_per_slab
        intro x
        by_cases hx : x = sia
        · subst hx
          constructor
          · intro hc
            exact absurd hc hsia_not_full
          · intro hex
            have hP := (exists_ghost_last hsiafresh
                (fun gg => gg.allocated.length = c.objects_per_slab)).mp hex
            have hP' : ([p] : List Nat).length = c.objects_per_slab := hP
            simp only [List.length_singleton] at hP'
            omega
        · rw [hInv.fullMem x]
          exact (exists_ghost_append
            (fun gg => gg.allocated.length = c.objects_per_slab) hx).symm
      · show (c.free_slabs_list ++ [sia]).length +
          c.full_slabs_list.length =
          (gs ++ [(⟨s, sia, [p]⟩ : GhostSlab)]).length
        have hL := hInv.listsLen
        rw [hempty] at hL
        rw [hempty]
        simp only [List.length_append, List.length_cons, List.length_nil]
          at hL ⊢
        omega
      · show c.statistics.free_slabs_number + 1 =
          (c.free_slabs_list ++ [sia]).length
        simp only [List.length_append, List.length_singleton,
          hInv.statFree]
      · exact hInv.statFull
      · show c.statistics.free_objects_number + c.objects_per_slab - 1 =
          ((gs ++ [(⟨s, sia, [p]⟩ : GhostSlab)]).map
            (fun gg => c.objects_per_slab - gg.allocated.length)).sum
        have hS := hInv.statFreeObj
        simp only [List.map_append, List.map_cons, List.map_nil,
          List.sum_append, List.sum_cons, List.sum_nil,
          List.length_singleton] at hS ⊢
        omega
      · show c.statistics.allocated_objects_number + 1 =
          ((gs ++ [(⟨s, sia, [p]⟩ : GhostSlab)]).map
            (fun gg => gg.allocated.length)).sum
        have hS := hInv.statAlloc
        simp only [List.map_append, List.map_cons, List.map_nil,
          List.sum_append, List.sum_cons, List.sum_nil,
          List.length_singleton] at hS ⊢
        omega
      · exact hslablog
      · exact hinfolog
      · exact hsmall
      · refine SupplyWF_congr ?_ ?_ ?_ rfl rfl rfl rfl hsupply <;> rfl

/-! ## Iterated allocation and deallocation -/

/-- All currently allocated object addresses of a ghost list. -/
def allAlloc : List GhostSlab → List Nat
  | [] => []
  | g :: rest => g.allocated ++ allAlloc rest

theorem allAlloc_append (gs1 gs2 : List GhostSlab) :
    allAlloc (gs1 ++ gs2) = allAlloc gs1 ++ allAlloc gs2 := by
  induction gs1 with
  | nil => rfl
  | cons g rest ih => simp [allAlloc, ih]

theorem mem_allAlloc {p : Nat} {gs : List GhostSlab} :
    p ∈ allAlloc gs ↔ ∃ g ∈ gs, p ∈ g.allocated := by
  induction gs with
  | nil => simp [allAlloc]
  | cons g rest ih =>
    simp only [allAlloc, List.mem_append, ih]
    constructor
    · rintro (hp | ⟨gg, hgg, hp⟩)
      · exact ⟨g, List.mem_cons_self _ _, hp⟩
      · exact ⟨gg, List.mem_cons_of_mem _ hgg, hp⟩
    · rintro ⟨gg, hgg, hp⟩
      rcases List.mem_cons.mp hgg with rfl | hgg'
      · exact Or.inl hp
      · exact Or.inr ⟨gg, hgg', hp⟩

/-- `allocN` succeeds from any invariant state with enough wellformed
supplies, returning `N` nonnull pointers and a final invariant state whose
allocated multiset grew by exactly those pointers. -/
theorem allocN_ok (me : Nat) : ∀ (N : Nat) {c : Cache} {h : SlabHeap}
    {b : MemoryBackend} {gs : List GhostSlab},
    Inv c me h b gs →
    (∀ x ∈ b.slab_supply, x ≠ 0) →
    (∀ x ∈ b.slab_info_supply, x ≠ 0) →
    N ≤ b.slab_supply.length →
    (c.object_size_type = .Large → N ≤ b.slab_info_supply.length) →
    ∃ ptrs c' h' b' gs', allocN c me h b N = some (ptrs, c', h', b') ∧
      ptrs.length = N ∧ Inv c' me h' b' gs' ∧
      (allAlloc gs').Perm (ptrs ++ allAlloc gs) := by
  intro N
  induction N with
  | zero =>
    intro c h b gs hInv _ _ _ _
    exact ⟨[], c, h, b, gs, rfl, rfl, hInv, List.Perm.refl _⟩
  | succ n ih =>
    intro c h b gs hInv hsl0 hil0 hlen hlenL
    rcases hfl : c.free_slabs_list with _ | ⟨siaF, tail⟩
    · rcases hsup : b.slab_supply with _ | ⟨s, srest⟩
      · rw [hsup] at hlen
        exact absurd hlen (by simp)
      · have hs0 : s ≠ 0 :=
          hsl0 s (by rw [hsup]; exact List.mem_cons_self _ _)
        have hinfoL : c.object_size_type = .Large →
            ∃ q qrest, b.slab_info_supply = q :: qrest ∧ q ≠ 0 := by
          intro hL
          have hlen2 := hlenL hL
          rcases hq : b.slab_info_supply with _ | ⟨q, qrest⟩
          · rw [hq] at hlen2
            exact absurd hlen2 (by simp)
          · exact ⟨q, qrest, rfl,
              hil0 q (by rw [hq]; exact List.mem_cons_self _ _)⟩
        obtain ⟨p, sia, c1, h1, b1, heval, hp0, hb1s, hb1L, hb1S, hosteq,
          hInv1⟩ := alloc_preserves_new hInv hfl hsup hs0 hinfoL
        have hsl0' : ∀ x ∈ b1.slab_supply, x ≠ 0 := by
          intro x hx
          rw [hb1s] at hx
          exact hsl0 x (by rw [hsup]; exact List.mem_cons_of_mem _ hx)
        have hil0' : ∀ x ∈ b1.slab_info_supply, x ≠ 0 := by
          intro x hx
          rcases hty : c.object_size_type with _ | _
          · rw [hb1S hty] at hx
            exact hil0 x hx
          · obtain ⟨qrest, hq1, hq2⟩ := hb1L hty
            rw [hq2] at hx
            exact hil0 x (by rw [hq1]; exact List.mem_cons_of_mem _ hx)
        have hlen' : n ≤ b1.slab_supply.length := by
          rw [hb1s]
          rw [hsup] at hlen
          simp only [List.length_cons] at hlen
          omega
        have hlenL' : c1.object_size_type = .Large →
            n ≤ b1.slab_info_supply.length := by
          intro hL1
          have hL : c.object_size_type = .Large := by
            rw [← hosteq]
            exact hL1
          obtain ⟨qrest, hq1, hq2⟩ := hb1L hL
          have hlen2 := hlenL hL
          rw [hq1] at hlen2
          simp only [List.length_cons] at hlen2
          rw [hq2]
          omega
        obtain ⟨ptrs, c2, h2, b2, gs2, heval2, hplen, hInv2, hperm⟩ :=
          ih hInv1 hsl0' hil0' hlen' hlenL'
        refine ⟨p :: ptrs, c2, h2, b2, gs2, ?_, by simp [hplen], hInv2, ?_⟩
        · simp only [allocN, heval, if_neg hp0, heval2]
        · refine hperm.trans ?_
          simp only [allAlloc_append, allAlloc, List.append_nil]
          have h1 : ptrs ++ (allAlloc gs ++ [p]) =
              (ptrs ++ allAlloc gs) ++ [p] := (List.append_assoc _ _ _).symm
          rw [h1]
          exact List.perm_append_singleton _ _
    · have hsiaF : siaF ∈ c.free_slabs_list := by
        rw [hfl]
        exact List.mem_cons_self _ _
      obtain ⟨g, hgmem, hgsia, -⟩ := (hInv.freeMem siaF).mp hsiaF
      obtain ⟨gs1, gs2, rfl⟩ := List.append_of_mem hgmem
      have hfl' : c.free_slabs_list = g.sia :: tail := by rw [hfl, hgsia]
      obtain ⟨p, c1, h1, b1, heval, hp0, hb1s, hb1i, hosteq, hInv1⟩ :=
        alloc_preserves_front hInv hfl'
      have hsl0' : ∀ x ∈ b1.slab_supply, x ≠ 0 := by
        rw [hb1s]
        exact hsl0
      have hil0' : ∀ x ∈ b1.slab_info_supply, x ≠ 0 := by
        rw [hb1i]
        exact hil0
      have hlen' : n ≤ b1.slab_supply.length := by
        rw [hb1s]
        omega
      have hlenL' : c1.object_size_type = .Large →
          n ≤ b1.slab_info_supply.length := by
        intro hL1
        rw [hb1i]
        have := hlenL (by rw [← hosteq]; exact hL1)
        omega
      obtain ⟨ptrs, c2, h2, b2, gs2', heval2, hplen, hInv2, hperm⟩ :=
        ih hInv1 hsl0' hil0' hlen' hlenL'
      refine ⟨p :: ptrs, c2, h2, b2, gs2', ?_, by simp [hplen], hInv2, ?_⟩
      · simp only [allocN, heval, if_neg hp0, heval2]
      · refine hperm.trans ?_
        simp only [allAlloc_append, allAlloc, ghostAdd, List.cons_append]
        exact (List.Perm.append_left ptrs List.perm_middle).trans
          List.perm_middle

/-- `freeAll` over any permutation of the currently allocated pointers
succeeds and empties the ghost list. -/
theorem freeAll_ok (me : Nat) : ∀ (q : List Nat) {c : Cache} {h : SlabHeap}
    {b : MemoryBackend} {gs : List GhostSlab},
    Inv c me h b gs → q.Perm (allAlloc gs) →
    ∃ c' h' b', freeAll me q c h b = some (c', h', b') ∧
      Inv c' me h' b' [] := by
  intro q
  induction q with
  | nil =>
    intro c h b gs hInv hperm
    have hnil : allAlloc gs = [] := hperm.symm.eq_nil
    have hgs : gs = [] := by
      cases gs with
      | nil => rfl
      | cons g rest =>
        exfalso
        obtain ⟨d, hd, hwf⟩ := hInv.slabs g (List.mem_cons_self _ _)
        have hpos := hwf.allocPos
        have hsplit : g.allocated ++ allAlloc rest = [] := hnil
        rw [List.append_eq_nil] at hsplit
        rw [hsplit.1] at hpos
        simp at hpos
    subst hgs
    exact ⟨c, h, b, rfl, hInv⟩
  | cons p q' ih =>
    intro c h b gs hInv hperm
    have hp : p ∈ allAlloc gs := hperm.mem_iff.mp (List.mem_cons_self _ _)
    obtain ⟨g, hgmem, hpg⟩ := mem_allAlloc.mp hp
    obtain ⟨gs1, gs2, rfl⟩ := List.append_of_mem hgmem
    obtain ⟨hcase2, hcase1⟩ := free_preserves hInv hpg
    obtain ⟨d, hd, hwf⟩ :=
      hInv.slabs g (List.mem_append_right _ (List.mem_cons_self _ _))
    have hLpos := hwf.allocPos
    rcases Nat.lt_or_ge g.allocated.length 2 with hlt | hge
    · have hL1 : g.allocated.length = 1 := by omega
      obtain ⟨c1, h1, b1, heval, hInv1⟩ := hcase1 hL1
      have halloc_single : g.allocated = [p] := by
        obtain ⟨a, ha⟩ := List.length_eq_one.mp hL1
        rw [ha] at hpg
        rw [List.mem_singleton] at hpg
        rw [ha, hpg]
      have hperm' : q'.Perm (allAlloc (gs1 ++ gs2)) := by
        have h0 : (p :: q').Perm (p :: allAlloc (gs1 ++ gs2)) := by
          refine hperm.trans ?_
          simp only [allAlloc_append, allAlloc, halloc_single,
            List.singleton_append]
          exact List.perm_middle
        exact List.Perm.cons_inv h0
      obtain ⟨c2, h2, b2, heval2, hInv2⟩ := ih hInv1 hperm'
      refine ⟨c2, h2, b2, ?_, hInv2⟩
      simp only [freeAll, heval, heval2]
    · obtain ⟨c1, h1, b1, heval, hInv1⟩ := hcase2 hge
      have hperm' : q'.Perm (allAlloc (gs1 ++ ghostErase g p :: gs2)) := by
        have h0 : (p :: q').Perm
            (p :: allAlloc (gs1 ++ ghostErase g p :: gs2)) := by
          refine hperm.trans ?_
          simp only [allAlloc_append, allAlloc, ghostErase]
          have hpe : g.allocated.Perm (p :: g.allocated.erase p) :=
            List.perm_cons_erase hpg
          refine (List.Perm.append_left (allAlloc gs1)
            (hpe.append_right (allAlloc gs2))).trans ?_
          exact List.perm_middle
        exact List.Perm.cons_inv h0
      obtain ⟨c2, h2, b2, heval2, hInv2⟩ := ih hInv1 hperm'
      refine ⟨c2, h2, b2, ?_, hInv2⟩
      simp only [freeAll, heval, heval2]

/-- The invariant holds in an initial state: a cache fresh out of
`Cache::new` (empty lists, zero statistics), an empty heap, and a fresh
backend with geometrically wellformed supplies. -/
theorem Inv_init {c : Cache} (me : Nat) (hWF : CacheWF c)
    (hfree : c.free_slabs_list = []) (hfull : c.full_slabs_list = [])
    (hstats : c.statistics = ⟨0, 0, 0, 0⟩)
    (sl il : List Nat)
    (hsl : ∀ a ∈ sl, a ≠ 0 →
      c.page_size ∣ a ∧ a + c.slab_size ≤ 2 ^ 64)
    (hslp : sl.Pairwise (fun x y => x ≠ 0 → y ≠ 0 →
      x + c.slab_size ≤ y ∨ y + c.slab_size ≤ x))
    (hil : c.object_size_type = .Large →
      ∀ q ∈ il, q ≠ 0 → q % alignOfSlabInfo = 0)
    (hilp : il.Pairwise (fun x y => x ≠ 0 → y ≠ 0 → x ≠ y)) :
    Inv c me [] (MemoryBackend.init sl il) [] := by
  refine ⟨hWF, ?_, by simp, by simp, ?_, ?_, ?_, ?_, ?_, ?_, ?_, ?_, ?_, ?_,
    ?_, ?_, ?_, ?_⟩
  · intro g hg
    exact absurd hg (List.not_mem_nil _)
  · rw [hfree]
    exact List.nodup_nil
  · rw [hfull]
    exact List.nodup_nil
  · intro x hx
    rw [hfree] at hx
    exact absurd hx (List.not_mem_nil _)
  · intro x
    rw [hfree]
    simp
  · intro x
    rw [hfull]
    simp
  · rw [hfree, hfull]
    rfl
  · rw [hstats, hfree]
    rfl
  · rw [hstats, hfull]
    rfl
  · rw [hstats]
    rfl
  · rw [hstats]
    rfl
  · show ([] : List (Nat × Nat × Nat)).Perm ([] ++ [])
    simp
  · show ([] : List Nat).Perm ([] ++
      (if c.object_size_type = .Large then [] else []))
    simp
  · intro _
    exact ⟨rfl, rfl⟩
  · refine ⟨?_, hslp, ?_, hilp⟩
    · intro a ha ha0
      obtain ⟨h1, h2⟩ := hsl a ha ha0
      exact ⟨h1, h2, by intro s' hs'; exact absurd hs' (List.not_mem_nil _)⟩
    · intro hL q hq hq0
      exact ⟨hil hL q hq hq0, by simp⟩

/-- The invariant with no live slabs pins down the fully-returned state:
empty lists, zero statistics, and every backend allocation matched by
exactly one release. -/
theorem Inv_final {c : Cache} {me : Nat} {h : SlabHeap} {b : MemoryBackend}
    (hInv : Inv c me h b []) :
    c.free_slabs_list = [] ∧ c.full_slabs_list = [] ∧
    c.statistics.free_slabs_number = 0 ∧
    c.statistics.full_slabs_number = 0 ∧
    c.statistics.free_objects_number = 0 ∧
    c.statistics.allocated_objects_number = 0 ∧
    b.alloc_slab_log.Perm b.free_slab_log ∧
    b.alloc_slab_info_log.Perm b.free_slab_info_log := by
  have hfree : c.free_slabs_list = [] := by
    rw [List.eq_nil_iff_forall_not_mem]
    intro x hx
    obtain ⟨g, hg, -⟩ := (hInv.freeMem x).mp hx
    exact absurd hg (List.not_mem_nil _)
  have hfull : c.full_slabs_list = [] := by
    rw [List.eq_nil_iff_forall_not_mem]
    intro x hx
    obtain ⟨g, hg, -⟩ := (hInv.fullMem x).mp hx
    exact absurd hg (List.not_mem_nil _)
  refine ⟨hfree, hfull, ?_, ?_, ?_, ?_, ?_, ?_⟩
  · rw [hInv.statFree, hfree]
    rfl
  · rw [hInv.statFull, hfull]
    rfl
  · rw [hInv.statFreeObj]
    rfl
  · rw [hInv.statAlloc]
    rfl
  · have h0 := hInv.slabLog
    simpa using h0
  · have h0 := hInv.infoLog
    rcases hty : c.object_size_type with _ | _ <;> rw [hty] at h0 <;>
      simpa using h0

/-! ## Claim C1: round-trip -/

/-- C1: from a fresh valid cache (any configuration, with the Rust layout
guarantees and wellformed nonzero backend supplies of sufficient length),
allocating `N` objects succeeds with `N` nonnull pointers, and freeing them
in ANY permutation of the allocation order succeeds and returns the cache
to zero free and full slabs, empty slab lists, all statistics zero, and a
backend whose `free_slab` log is a permutation of its `alloc_slab` log and
whose `free_slab_info` log is a permutation of its `alloc_slab_info` log —
every backend-held slab and `SlabInfo` is released exactly once, with no
leak and no double release. -/
theorem C1_roundtrip (c : Cache) (me N : Nat) (sl il : List Nat)
    (hWF : CacheWF c)
    (hfree : c.free_slabs_list = []) (hfull : c.full_slabs_list = [])
    (hstats : c.statistics = ⟨0, 0, 0, 0⟩)
    (hsl0 : ∀ a ∈ sl, a ≠ 0) (hil0 : ∀ q ∈ il, q ≠ 0)
    (hslgeo : ∀ a ∈ sl, c.page_size ∣ a ∧ a + c.slab_size ≤ 2 ^ 64)
    (hslp : sl.Pairwise
      (fun x y => x + c.slab_size ≤ y ∨ y + c.slab_size ≤ x))
    (hilal : ∀ q ∈ il, q % alignOfSlabInfo = 0)
    (hilnd : il.Nodup)
    (hN1 : N ≤ sl.length) (hN2 : N ≤ il.length) :
    ∃ ptrs c1 h1 b1,
      allocN c me [] (MemoryBackend.init sl il) N =
        some (ptrs, c1, h1, b1) ∧
      ptrs.length = N ∧
      ∀ q : List Nat, q.Perm ptrs →
        ∃ c2 h2 b2, freeAll me q c1 h1 b1 = some (c2, h2, b2) ∧
          c2.free_slabs_list = [] ∧ c2.full_slabs_list = [] ∧
          c2.statistics.free_slabs_number = 0 ∧
          c2.statistics.full_slabs_number = 0 ∧
          c2.statistics.free_objects_number = 0 ∧
          c2.statistics.allocated_objects_number = 0 ∧
          b2.alloc_slab_log.Perm b2.free_slab_log ∧
          b2.alloc_slab_info_log.Perm b2.free_slab_info_log := by
  have hInv0 : Inv c me [] (MemoryBackend.init sl il) [] := by
    refine Inv_init me hWF hfree hfull hstats sl il ?_ ?_ ?_ ?_
    · intro a ha _
      exact hslgeo a ha
    · exact hslp.imp (fun hxy => fun _ _ => hxy)
    · intro _ q hq _
      exact hilal q hq
    · exact hilnd.imp (fun hxy => fun _ _ => hxy)
  obtain ⟨ptrs, c1, h1, b1, gs1, heval, hlen, hInv1, hperm⟩ :=
    allocN_ok me N hInv0 hsl0 hil0 hN1 (fun _ => hN2)
  refine ⟨ptrs, c1, h1, b1, heval, hlen, ?_⟩
  intro q hq
  have hps : ptrs.Perm (allAlloc gs1) := by
    have h0 := hperm
    simp only [allAlloc, List.append_nil] at h0
    exact h0.symm
  obtain ⟨c2, h2, b2, heval2, hInv2⟩ := freeAll_ok me q hInv1 (hq.trans hps)
  obtain ⟨f1, f2, f3, f4, f5, f6, f7, f8⟩ := Inv_final hInv2
  exact ⟨c2, h2, b2, heval2, f1, f2, f3, f4, f5, f6, f7, f8⟩

theorem C1_roundtrip_witness :
    ∃ ptrs c1 h1 b1,
      allocN ⟨1024, 8, 4096, 4096, .Small, 3, [], [], ⟨0, 0, 0, 0⟩⟩ 999 []
          (MemoryBackend.init [65536, 131072, 196608, 262144]
            [8, 16, 24, 32]) 4 =
        some (ptrs, c1, h1, b1) ∧
      ptrs.length = 4 ∧
      ∀ q : List Nat, q.Perm ptrs →
        ∃ c2 h2 b2, freeAll 999 q c1 h1 b1 = some (c2, h2, b2) ∧
          c2.free_slabs_list = [] ∧ c2.full_slabs_list = [] ∧
          c2.statistics.free_slabs_number = 0 ∧
          c2.statistics.full_slabs_number = 0 ∧
          c2.statistics.free_objects_number = 0 ∧
          c2.statistics.allocated_objects_number = 0 ∧
          b2.alloc_slab_log.Perm b2.free_slab_log ∧
          b2.alloc_slab_info_log.Perm b2.free_slab_info_log :=
  C1_roundtrip ⟨1024, 8, 4096, 4096, .Small, 3, [], [], ⟨0, 0, 0, 0⟩⟩ 999 4
    [65536, 131072, 196608, 262144] [8, 16, 24, 32]
    ⟨by decide, by decide, ⟨12, by decide, by decide, by decide⟩, by decide,
      by decide, by decide, by decide, by decide,
      (fun _ => ⟨by decide, by decide⟩), by decide⟩
    rfl rfl rfl (by decide) (by decide) (by decide) (by decide) (by decide)
    (by decide) (by decide) (by decide)

/-! ## Claim C10: the statistics balance equation -/

/-- The balance equation of `CacheStatistics`. -/
def statsBalanced (c : Cache) : Prop :=
  c.statistics.allocated_objects_number +
      c.statistics.free_objects_number =
    c.objects_per_slab *
      (c.statistics.free_slabs_number + c.statistics.full_slabs_number)

theorem Inv_statsBalanced {c : Cache} {me : Nat} {h : SlabHeap}
    {b : MemoryBackend} {gs : List GhostSlab} (hInv : Inv c me h b gs) :
    statsBalanced c := by
  have hlen : ∀ g ∈ gs, g.allocated.length ≤ c.objects_per_slab := by
    intro g hg
    obtain ⟨d, hd, hwf⟩ := hInv.slabs g hg
    have h1 := hwf.partition.length_eq
    rw [List.length_append, objectAddrs_length] at h1
    omega
  have hsum : ∀ (l : List GhostSlab),
      (∀ g ∈ l, g.allocated.length ≤ c.objects_per_slab) →
      (l.map (fun g => g.allocated.length)).sum +
        (l.map (fun g => c.objects_per_slab - g.allocated.length)).sum =
      c.objects_per_slab * l.length := by
    intro l
    induction l with
    | nil => simp
    | cons g rest ih =>
      intro hall
      simp only [List.map_cons, List.sum_cons, List.length_cons]
      have h1 := ih (fun g' hg' => hall g' (List.mem_cons_of_mem _ hg'))
      have h2 := hall g (List.mem_cons_self _ _)
      rw [Nat.mul_succ]
      omega
  show c.statistics.allocated_objects_number +
      c.statistics.free_objects_number =
    c.objects_per_slab *
      (c.statistics.free_slabs_number + c.statistics.full_slabs_number)
  rw [hInv.statAlloc, hInv.statFreeObj, hInv.statFree, hInv.statFull,
    hInv.listsLen]
  exact hsum gs hlen

/-- C10: every invariant (quiescent) state satisfies
`allocated_objects_number + free_objects_number =
objects_per_slab * (free_slabs_number + full_slabs_number)`, and every
operation — freeing any allocated object (including full→free moves and
slab reclamation), allocation from an empty free list (slab creation) and
allocation from the front free slab — yields a state that again carries the
invariant and hence again satisfies the equation. -/
theorem C10_statistics_equation (c : Cache) (me : Nat) (h : SlabHeap)
    (b : MemoryBackend) (gs : List GhostSlab) (hInv : Inv c me h b gs) :
    statsBalanced c ∧
    (∀ gs1 gs2 g p, gs = gs1 ++ g :: gs2 → p ∈ g.allocated →
      ∃ c' h' b', Cache.free c me h b p = .ok c' h' b' ∧
        (∃ gs', Inv c' me h' b' gs') ∧ statsBalanced c') ∧
    (∀ s srest, c.free_slabs_list = [] → b.slab_supply = s :: srest →
      s ≠ 0 →
      (c.object_size_type = .Large →
        ∃ q qrest, b.slab_info_supply = q :: qrest ∧ q ≠ 0) →
      ∃ p c' h' b', Cache.alloc c me h b = .ok p c' h' b' ∧ p ≠ 0 ∧
        (∃ gs', Inv c' me h' b' gs') ∧ statsBalanced c') ∧
    (∀ gs1 gs2 g tail, gs = gs1 ++ g :: gs2 →
      c.free_slabs_list = g.sia :: tail →
      ∃ p c' h' b', Cache.alloc c me h b = .ok p c' h' b' ∧ p ≠ 0 ∧
        (∃ gs', Inv c' me h' b' gs') ∧ statsBalanced c') := by
  refine ⟨Inv_statsBalanced hInv, ?_, ?_, ?_⟩
  · intro gs1 gs2 g p hgs hp
    subst hgs
    obtain ⟨hcase2, hcase1⟩ := free_preserves hInv hp
    obtain ⟨d, hd, hwf⟩ :=
      hInv.slabs g (List.mem_append_right _ (List.mem_cons_self _ _))
    have hLpos := hwf.allocPos
    rcases Nat.lt_or_ge g.allocated.length 2 with hlt | hge
    · obtain ⟨c', h', b', heval, hInv'⟩ := hcase1 (by omega)
      exact ⟨c', h', b', heval, ⟨_, hInv'⟩, Inv_statsBalanced hInv'⟩
    · obtain ⟨c', h', b', heval, hInv'⟩ := hcase2 hge
      exact ⟨c', h', b', heval, ⟨_, hInv'⟩, Inv_statsBalanced hInv'⟩
  · intro s srest hempty hsup hs0 hinfo
    obtain ⟨p, sia, c', h', b', heval, hp0, -, -, -, -, hInv'⟩ :=
      alloc_preserves_new hInv hempty hsup hs0 hinfo
    exact ⟨p, c', h', b', heval, hp0, ⟨_, hInv'⟩, Inv_statsBalanced hInv'⟩
  · intro gs1 gs2 g tail hgs hfl
    subst hgs
    obtain ⟨p, c', h', b', heval, hp0, -, -, -, hInv'⟩ :=
      alloc_preserves_front hInv hfl
    exact ⟨p, c', h', b', heval, hp0, ⟨_, hInv'⟩, Inv_statsBalanced hInv'⟩

theorem C10_statistics_equation_witness :
    statsBalanced ⟨1024, 8, 4096, 4096, .Small, 3, [], [], ⟨0, 0, 0, 0⟩⟩ ∧
    (∀ gs1 gs2 g p, ([] : List GhostSlab) = gs1 ++ g :: gs2 →
      p ∈ g.allocated →
      ∃ c' h' b', Cache.free
          ⟨1024, 8, 4096, 4096, .Small, 3, [], [], ⟨0, 0, 0, 0⟩⟩ 999 []
          (MemoryBackend.init [65536] [8]) p = .ok c' h' b' ∧
        (∃ gs', Inv c' 999 h' b' gs') ∧ statsBalanced c') ∧
    (∀ s srest,
      (⟨1024, 8, 4096, 4096, .Small, 3, [], [],
        ⟨0, 0, 0, 0⟩⟩ : Cache).free_slabs_list = [] →
      (MemoryBackend.init [65536] [8]).slab_supply = s :: srest → s ≠ 0 →
      ((⟨1024, 8, 4096, 4096, .Small, 3, [], [],
        ⟨0, 0, 0, 0⟩⟩ : Cache).object_size_type = .Large →
        ∃ q qrest,
          (MemoryBackend.init [65536] [8]).slab_info_supply = q :: qrest ∧
          q ≠ 0) →
      ∃ p c' h' b', Cache.alloc
          ⟨1024, 8, 4096, 4096, .Small, 3, [], [], ⟨0, 0, 0, 0⟩⟩ 999 []
          (MemoryBackend.init [65536] [8]) = .ok p c' h' b' ∧ p ≠ 0 ∧
        (∃ gs', Inv c' 999 h' b' gs') ∧ statsBalanced c') ∧
    (∀ gs1 gs2 g tail, ([] : List GhostSlab) = gs1 ++ g :: gs2 →
      (⟨1024, 8, 4096, 4096, .Small, 3, [], [],
        ⟨0, 0, 0, 0⟩⟩ : Cache).free_slabs_list = g.sia :: tail →
      ∃ p c' h' b', Cache.alloc
          ⟨1024, 8, 4096, 4096, .Small, 3, [], [], ⟨0, 0, 0, 0⟩⟩ 999 []
          (MemoryBackend.init [65536] [8]) = .ok p c' h' b' ∧ p ≠ 0 ∧
        (∃ gs', Inv c' 999 h' b' gs') ∧ statsBalanced c') :=
  C10_statistics_equation ⟨1024, 8, 4096, 4096, .Small, 3, [], [],
      ⟨0, 0, 0, 0⟩⟩ 999 [] (MemoryBackend.init [65536] [8]) []
    (Inv_init 999
      ⟨by decide, by decide, ⟨12, by decide, by decide, by decide⟩,
        by decide, by decide, by decide, by decide, by decide,
        (fun _ => ⟨by decide, by decide⟩), by decide⟩
      rfl rfl rfl [65536] [8]
      (by decide) (by decide) (fun _ => by decide) (by decide))

/-! ## Claim C4: occupancy tiers (spec-modelled)

The final two-tier free-list design (`free_slabs_list_occupacy_less_75` /
`free_slabs_list_occupacy_more_75`) is not present in `src/src/lib.rs`,
which still carries a single `free_slabs_list`; only the repository's tests
exercise it.  The tier structure below is therefore modelled from the
specification text. -/

/-- Modelled from the spec: the slab lists of the final two-tier design —
a low-occupancy free list, a high-occupancy free list (allocated count at
or above `floor(75 * objects_per_slab / 100)`), and the full list. -/
structure TCache where
  n : Nat
  low : List Nat
  high : List Nat
  full : List Nat
  deriving Repr, DecidableEq

/-- Modelled from the spec: the derived 75% threshold
`occupacy_more_75_minimum_allocated_objects_number`. -/
def tierThreshold (n : Nat) : Nat := 75 * n / 100

/-- Modelled from the spec: list movement performed by `alloc` on the slab
it allocates from, where `a` is the slab's allocated-object count before
the allocation.  Free→full removes the slab from the high free list;
crossing the 75% threshold moves it from the low free list to the front of
the high free list. -/
def tierAllocMove (t : TCache) (sid a : Nat) : TCache :=
  if a + 1 = t.n then
    { t with high := t.high.erase sid, full := sid :: t.full }
  else if a < tierThreshold t.n ∧ tierThreshold t.n ≤ a + 1 then
    { t with low := t.low.erase sid, high := sid :: t.high }
  else t

/-- Modelled from the spec: list movement performed by `free` on the slab
it frees into, where `a` is the slab's allocated-object count before the
free.  Full→free pushes the slab to the front of the high free list;
dropping below the 75% threshold moves it from the high to the low free
list. -/
def tierFreeMove (t : TCache) (sid a : Nat) : TCache :=
  if a = t.n then
    { t with full := t.full.erase sid, high := sid :: t.high }
  else if tierThreshold t.n ≤ a ∧ a - 1 < tierThreshold t.n then
    { t with high := t.high.erase sid, low := sid :: t.low }
  else t

/-- Modelled from the spec: the occupancy placement invariant — every slab
whose allocated count equals `n` is in the full list, every slab with
count in `[threshold, n)` is in the high free list, and every slab with
count below the threshold is in the low free list. -/
abbrev TierInv (t : TCache) (ts : List (Nat × Nat)) : Prop :=
  ∀ sa ∈ ts,
    (sa.2 = t.n → sa.1 ∈ t.full) ∧
    (tierThreshold t.n ≤ sa.2 → sa.2 < t.n → sa.1 ∈ t.high) ∧
    (sa.2 < tierThreshold t.n → sa.1 ∈ t.low)

theorem tierThreshold_le (n : Nat) : tierThreshold n ≤ n := by
  show 75 * n / 100 ≤ n
  exact Nat.div_le_of_le_mul (by omega)

theorem tierThreshold_le_pred {n : Nat} (hn : 1 ≤ n) :
    tierThreshold n ≤ n - 1 := by
  show 75 * n / 100 ≤ n - 1
  have hlt : 75 * n / 100 < n := Nat.div_lt_of_lt_mul (by omega)
  omega

/-- C4 (spec-modelled): the occupancy placement invariant — full iff at
capacity, high free list for counts in `[threshold, n)`, low free list
below the threshold — is preserved by the spec's alloc and free list
movements; and alloc moves a slab from the low to the high free list
exactly when its allocated count crosses the 75% threshold (when the slab
does not simultaneously become full). -/
theorem C4_occupancy_tiers (t : TCache) (ts1 ts2 : List (Nat × Nat))
    (sid a : Nat)
    (hnd : ((ts1 ++ (sid, a) :: ts2).map Prod.fst).Nodup)
    (hInv : TierInv t (ts1 ++ (sid, a) :: ts2)) :
    (a < t.n → TierInv (tierAllocMove t sid a)
      (ts1 ++ (sid, a + 1) :: ts2)) ∧
    (1 ≤ a → a ≤ t.n → TierInv (tierFreeMove t sid a)
      (ts1 ++ (sid, a - 1) :: ts2)) ∧
    (a + 1 ≠ t.n →
      ((a < tierThreshold t.n ∧ tierThreshold t.n ≤ a + 1) →
        tierAllocMove t sid a =
          { t with low := t.low.erase sid, high := sid :: t.high }) ∧
      (¬ (a < tierThreshold t.n ∧ tierThreshold t.n ≤ a + 1) →
        tierAllocMove t sid a = t)) := by
  have hkeyne : ∀ kv : Nat × Nat, (kv ∈ ts1 ∨ kv ∈ ts2) → kv.1 ≠ sid := by
    have hnd2 := hnd
    rw [List.map_append, List.map_cons, List.nodup_append] at hnd2
    obtain ⟨h1, h2, h3⟩ := hnd2
    intro kv hkv
    rcases hkv with hk | hk
    · intro he
      have hmem : kv.1 ∈ ts1.map Prod.fst := List.mem_map_of_mem _ hk
      refine h3 hmem ?_
      rw [he]
      exact List.mem_cons_self _ _
    · intro he
      have hmem : kv.1 ∈ ts2.map Prod.fst := List.mem_map_of_mem _ hk
      rw [he] at hmem
      exact (List.nodup_cons.mp h2).1 hmem
  have hsid := hInv (sid, a)
    (List.mem_append_right _ (List.mem_cons_self _ _))
  have hthr := tierThreshold_le t.n
  refine ⟨?_, ?_, ?_⟩
  · -- alloc preserves the placement invariant
    intro hlt
    unfold tierAllocMove
    split_ifs with h1 h2
    · intro sa hsa
      rcases List.mem_append.mp hsa with hm | hm
      · have hne := hkeyne sa (Or.inl hm)
        obtain ⟨c1, c2, c3⟩ := hInv sa (List.mem_append_left _ hm)
        exact ⟨fun hh => List.mem_cons_of_mem _ (c1 hh),
          fun hh1 hh2 => (List.mem_erase_of_ne hne).mpr (c2 hh1 hh2),
          fun hh => c3 hh⟩
      · rcases List.mem_cons.mp hm with rfl | hm2
        · refine ⟨fun _ => List.mem_cons_self _ _,
            fun hh1 hh2 => absurd (show a + 1 < t.n from hh2) (by omega),
            fun hh => absurd (show a + 1 < tierThreshold t.n from hh)
              (by omega)⟩
        · have hne := hkeyne sa (Or.inr hm2)
          obtain ⟨c1, c2, c3⟩ := hInv sa
            (List.mem_append_right _ (List.mem_cons_of_mem _ hm2))
          exact ⟨fun hh => List.mem_cons_of_mem _ (c1 hh),
            fun hh1 hh2 => (List.mem_erase_of_ne hne).mpr (c2 hh1 hh2),
            fun hh => c3 hh⟩
    · intro sa hsa
      rcases List.mem_append.mp hsa with hm | hm
      · have hne := hkeyne sa (Or.inl hm)
        obtain ⟨c1, c2, c3⟩ := hInv sa (List.mem_append_left _ hm)
        exact ⟨fun hh => c1 hh,
          fun hh1 hh2 => List.mem_cons_of_mem _ (c2 hh1 hh2),
          fun hh => (List.mem_erase_of_ne hne).mpr (c3 hh)⟩
      · rcases List.mem_cons.mp hm with rfl | hm2
        · exact ⟨fun hh => absurd (show a + 1 = t.n from hh) h1,
            fun _ _ => List.mem_cons_self _ _,
            fun hh => absurd (show a + 1 < tierThreshold t.n from hh)
              (by omega)⟩
        · have hne := hkeyne sa (Or.inr hm2)
          obtain ⟨c1, c2, c3⟩ := hInv sa
            (List.mem_append_right _ (List.mem_cons_of_mem _ hm2))
          exact ⟨fun hh => c1 hh,
            fun hh1 hh2 => List.mem_cons_of_mem _ (c2 hh1 hh2),
            fun hh => (List.mem_erase_of_ne hne).mpr (c3 hh)⟩
    · intro sa hsa
      rcases List.mem_append.mp hsa with hm | hm
      · exact hInv sa (List.mem_append_left _ hm)
      · rcases List.mem_cons.mp hm with rfl | hm2
        · refine ⟨fun hh => absurd hh h1, fun hh1 hh2 => ?_, fun hh => ?_⟩
          · have hthra : tierThreshold t.n ≤ a := by
              by_contra hcon
              exact h2 ⟨by omega, hh1⟩
            exact hsid.2.1 hthra hlt
          · exact hsid.2.2 (by omega)
        · exact hInv sa
            (List.mem_append_right _ (List.mem_cons_of_mem _ hm2))
  · -- free preserves the placement invariant
    intro ha1 han
    unfold tierFreeMove
    split_ifs with h1 h2
    · have hpred := tierThreshold_le_pred (show 1 ≤ t.n by omega)
      intro sa hsa
      rcases List.mem_append.mp hsa with hm | hm
      · have hne := hkeyne sa (Or.inl hm)
        obtain ⟨c1, c2, c3⟩ := hInv sa (List.mem_append_left _ hm)
        exact ⟨fun hh => (List.mem_erase_of_ne hne).mpr (c1 hh),
          fun hh1 hh2 => List.mem_cons_of_mem _ (c2 hh1 hh2),
          fun hh => c3 hh⟩
      · rcases List.mem_cons.mp hm with rfl | hm2
        · exact ⟨fun hh => absurd (show a - 1 = t.n from hh) (by omega),
            fun _ _ => List.mem_cons_self _ _,
            fun hh => absurd (show a - 1 < tierThreshold t.n from hh)
              (by omega)⟩
        · have hne := hkeyne sa (Or.inr hm2)
          obtain ⟨c1, c2, c3⟩ := hInv sa
            (List.mem_append_right _ (List.mem_cons_of_mem _ hm2))
          exact ⟨fun hh => (List.mem_erase_of_ne hne).mpr (c1 hh),
            fun hh1 hh2 => List.mem_cons_of_mem _ (c2 hh1 hh2),
            fun hh => c3 hh⟩
    · intro sa hsa
      rcases List.mem_append.mp hsa with hm | hm
      · have hne := hkeyne sa (Or.inl hm)
        obtain ⟨c1, c2, c3⟩ := hInv sa (List.mem_append_left _ hm)
        exact ⟨fun hh => c1 hh,
          fun hh1 hh2 => (List.mem_erase_of_ne hne).mpr (c2 hh1 hh2),
          fun hh => List.mem_cons_of_mem _ (c3 hh)⟩
      · rcases List.mem_cons.mp hm with rfl | hm2
        · exact ⟨fun hh => absurd (show a - 1 = t.n from hh) (by omega),
            fun hh1 hh2 =>
              absurd (show tierThreshold t.n ≤ a - 1 from hh1) (by omega),
            fun _ => List.mem_cons_self _ _⟩
        · have hne := hkeyne sa (Or.inr hm2)
          obtain ⟨c1, c2, c3⟩ := hInv sa
            (List.mem_append_right _ (List.mem_cons_of_mem _ hm2))
          exact ⟨fun hh => c1 hh,
            fun hh1 hh2 => (List.mem_erase_of_ne hne).mpr (c2 hh1 hh2),
            fun hh => List.mem_cons_of_mem _ (c3 hh)⟩
    · intro sa hsa
      rcases List.mem_append.mp hsa with hm | hm
      · exact hInv sa (List.mem_append_left _ hm)
      · rcases List.mem_cons.mp hm with rfl | hm2
        · refine ⟨fun hh => absurd hh (by omega),
            fun hh1 hh2 => ?_, fun hh => ?_⟩
          · exact hsid.2.1 (by omega) (by omega)
          · have hlow : a < tierThreshold t.n := by
              by_contra hcon
              exact h2 ⟨by omega, by omega⟩
            exact hsid.2.2 hlow
        · exact hInv sa
            (List.mem_append_right _ (List.mem_cons_of_mem _ hm2))
  · -- the low→high move happens exactly at the threshold crossing
    intro hne1
    constructor
    · intro hcross
      unfold tierAllocMove
      rw [if_neg hne1, if_pos hcross]
    · intro hncross
      unfold tierAllocMove
      rw [if_neg hne1, if_neg hncross]

theorem C4_occupancy_tiers_witness :
    ((2 : Nat) < (⟨4, [7], [], []⟩ : TCache).n →
      TierInv (tierAllocMove ⟨4, [7], [], []⟩ 7 2) [(7, 3)]) ∧
    ((1 : Nat) ≤ 2 → (2 : Nat) ≤ (⟨4, [7], [], []⟩ : TCache).n →
      TierInv (tierFreeMove ⟨4, [7], [], []⟩ 7 2) [(7, 1)]) ∧
    ((2 : Nat) + 1 ≠ (⟨4, [7], [], []⟩ : TCache).n →
      (((2 : Nat) < tierThreshold (⟨4, [7], [], []⟩ : TCache).n ∧
        tierThreshold (⟨4, [7], [], []⟩ : TCache).n ≤ 2 + 1) →
        tierAllocMove ⟨4, [7], [], []⟩ 7 2 = ⟨4, [7].erase 7, [7], []⟩) ∧
      (¬ ((2 : Nat) < tierThreshold (⟨4, [7], [], []⟩ : TCache).n ∧
        tierThreshold (⟨4, [7], [], []⟩ : TCache).n ≤ 2 + 1) →
        tierAllocMove ⟨4, [7], [], []⟩ 7 2 = ⟨4, [7], [], []⟩)) :=
  C4_occupancy_tiers ⟨4, [7], [], []⟩ [] [] 7 2 (by decide) (by decide)

end SlabAlloc
